import Mathlib

/-!
# OpenRCT2 game actions: a shallow embedding

Embedding of `PlaceParkEntranceAction`, `WallRemoveAction` and
`RideSetVehicleAction` (Query / Execute / Serialise) together with the part of
the world state these actions read and write, of the header stage of
`TD6Importer::Import` and of `ApplyTrackTypeFixes` of the scenario patcher.

Conventions.
* C++ globals and the game state become fields of `World`; every operation is
  written in explicit state-passing style.
* Functions, constants and tables that the actions call but whose bodies live in
  other translation units are fields of `Env` (collaborators taken as
  parameters); the tile-element primitives are modelled directly and say so.
* A failed `Guard::Assert` is the result `none`.
-/

namespace OpenRCT2

/-! ## Coordinates -/

structure CoordsXY where
  x : Int
  y : Int
  deriving DecidableEq, Repr

structure CoordsXYZ where
  x : Int
  y : Int
  z : Int
  deriving DecidableEq, Repr

structure CoordsXYZD where
  x : Int
  y : Int
  z : Int
  direction : Nat
  deriving DecidableEq, Repr

structure CoordsXYRangedZ where
  x : Int
  y : Int
  baseZ : Int
  clearanceZ : Int
  deriving DecidableEq, Repr

/-- Tile coordinates (`TileCoordsXY`): world coordinates divided by the tile step. -/
abbrev TilePos := Int × Int

/-- Location of one tile element: its tile and its index inside the tile (a `TileElement*`). -/
abbrev ElemRef := TilePos × Nat

/-! ## Results -/

/-- The outcome kinds of `GameActions::Status`. -/
inductive Status where
  | Ok | InvalidParameters | Disallowed | GamePaused | InsufficientFunds
  | NotInEditorMode | NotOwned | TooLow | TooHigh | NoClearance
  | ItemAlreadyPlaced | NotClosed | Broken | NoFreeElements | Unknown
  deriving DecidableEq, Repr

/-- String identifiers named by the three actions; `other` covers every further id. -/
inductive StringId where
  | STR_NONE
  | STR_CANT_BUILD_PARK_ENTRANCE_HERE
  | STR_TOO_CLOSE_TO_EDGE_OF_MAP
  | STR_ERR_TOO_MANY_PARK_ENTRANCES
  | STR_CANT_REMOVE_THIS
  | STR_INVALID_SELECTION_OF_OBJECTS
  | STR_LAND_NOT_OWNED_BY_PARK
  | STR_RIDE_SET_VEHICLE_SET_NUM_TRAINS_FAIL
  | STR_RIDE_SET_VEHICLE_SET_NUM_CARS_PER_TRAIN_FAIL
  | STR_RIDE_SET_VEHICLE_TYPE_FAIL
  | STR_RIDE_SET_VEHICLE_REVERSED_FAIL
  | STR_HAS_BROKEN_DOWN_AND_REQUIRES_FIXING
  | STR_MUST_BE_CLOSED_FIRST
  | other (n : Nat)
  deriving DecidableEq, Repr

inductive ExpenditureType where
  | RideConstruction | RideRunningCosts | LandPurchase | Landscaping | Other
  deriving DecidableEq, Repr

/-- A `GameActions::Result`.  `ErrorTitle` is `none` when the title was read
outside the bounds of its table. -/
structure Result where
  Error : Status
  ErrorTitle : Option StringId
  ErrorMessage : StringId
  ErrorMessageArgs : List Nat
  Position : Option CoordsXYZ
  Cost : Int
  Expenditure : ExpenditureType
  deriving DecidableEq, Repr

/-- The value built by `GameActions::Result()`: status Ok, no message, null position, cost 0. -/
def Result.ok : Result :=
  { Error := .Ok, ErrorTitle := some .STR_NONE, ErrorMessage := .STR_NONE, ErrorMessageArgs := [],
    Position := none, Cost := 0, Expenditure := .Other }

/-- The value built by `GameActions::Result(status, title, message)`. -/
def Result.err (st : Status) (title : Option StringId) (msg : StringId) : Result :=
  { Result.ok with Error := st, ErrorTitle := title, ErrorMessage := msg }

/-! ## Tile elements -/

inductive TileElementType where
  | Surface | Path | Track | SmallScenery | Entrance | Wall | LargeScenery | Banner
  deriving DecidableEq, Repr

/-- The fields of a `TileElement` read or written by the sources at hand.
Heights are in height units (`base_height`), as stored. -/
structure TileElement where
  type : TileElementType
  base_height : Int
  clearance_height : Int
  direction : Nat
  ghost : Bool
  lastForTile : Bool
  occupiedQuadrants : Nat
  ownership : Nat
  entranceType : Nat
  sequenceIndex : Nat
  pathType : Nat
  trackType : Nat
  deriving DecidableEq, Repr

/-! ## Rides -/

inductive RideStatus where
  | Closed | Open | Testing | Simulating
  deriving DecidableEq, Repr

structure Ride where
  type : Nat
  subtype : Nat
  status : RideStatus
  lifecycle_flags : Nat
  vehicle_change_timeout : Nat
  ProposedNumTrains : Nat
  proposed_num_cars_per_train : Nat
  num_circuits : Nat
  overall_view : Option TilePos
  deriving DecidableEq, Repr

/-- The fields of a ride entry (`RideObjectEntry`) used by `RideSetVehicleAction`. -/
structure RideEntry where
  min_cars_in_train : Nat
  max_cars_in_train : Nat
  presetCount : Nat
  deriving DecidableEq, Repr

/-! ## Serialisation streams -/

/-- A `DataSerialiser`: the direction it works in, the bytes still to be read
(loading) or already written (saving), and the names of the fields passed to it
so far through `DS_TAG`. -/
structure DataSerialiser where
  isSaving : Bool
  stream : List Nat
  fields : List String
  deriving DecidableEq, Repr

/-! ## World state -/

structure World where
  gScreenFlags : Nat
  gCheatsSandboxMode : Bool
  gMapSizeUnits : Int
  gParkEntrances : List CoordsXYZD
  gFootpathSelectedId : Nat
  /-- The elements stored for each tile, in storage order; `none` where the map has no tile. -/
  tiles : TilePos → Option (List TileElement)
  /-- Index of the next free slot of the tile element array. -/
  gNextFreeTileElement : Nat
  rides : Nat → Option Ride
  rideEntries : Nat → Option RideEntry
  rideEntriesOfType : Nat → List Nat
  rideEntryInvented : Nat → Bool
  cheatDisableTrainLengthLimit : Bool
  cheatShowVehiclesFromOtherTrackTypes : Bool
  cheatIgnoreResearchStatus : Bool

/-- Constants, tables and functions that the actions use and that are declared
outside the sources at hand.  Functions that may write to the game state return
the new state. -/
structure Env where
  SCREEN_FLAGS_EDITOR : Nat
  SCREEN_FLAGS_SCENARIO_EDITOR : Nat
  GAME_COMMAND_FLAG_APPLY : Nat
  GAME_COMMAND_FLAG_GHOST : Nat
  MAX_PARK_ENTRANCES : Nat
  ParkEntranceHeight : Int
  COORDS_XY_STEP : Int
  COORDS_Z_STEP : Int
  CoordsDirectionDelta : Nat → CoordsXY
  ENTRANCE_TYPE_PARK_ENTRANCE : Nat
  OWNERSHIP_UNOWNED : Nat
  MAP_ANIMATION_TYPE_PARK_ENTRANCE : Nat
  RIDE_LIFECYCLE_BROKEN_DOWN : Nat
  RIDE_LIFECYCLE_REVERSED_TRAINS : Nat
  RIDE_TYPE_COUNT : Nat
  RIDE_TYPE_MINI_GOLF : Nat
  rideTypeIsFlatRide : Nat → Bool
  rideTypeIsMaze : Nat → Bool
  LocationValid : World → CoordsXY → Bool
  map_check_free_elements_and_reorganise : Nat → World → Bool × World
  MapCanConstructAt : World → CoordsXYRangedZ → Nat × Nat → Result
  map_is_location_owned : World → CoordsXYZ → Bool
  footpath_connect_edges : CoordsXY → ElemRef → Nat → World → World
  update_park_fences : CoordsXY → World → World
  map_invalidate_tile : CoordsXYRangedZ → World → World
  map_invalidate_tile_zoom1 : CoordsXYRangedZ → World → World
  map_animation_create : Nat → CoordsXYZ → World → World
  tile_element_remove_banner_entry : ElemRef → World → World
  tile_element_height : World → CoordsXY → Int
  RideClearForConstruction : Ride → World → Ride × World
  RemovePeeps : Ride → World → Ride × World
  InvalidateTestResults : Ride → World → Ride × World
  RideSetVehicleColoursToRandomPreset : Ride → Nat → World → Ride × World
  UpdateMaxVehicles : Ride → World → Ride × World
  TileElementHeight : World → Option CoordsXYZ → Int
  ContextBroadcastIntent : Nat → World → World
  GfxInvalidateScreen : World → World
  GameActionSerialise : DataSerialiser → Nat → Option (DataSerialiser × Nat)
  /-- The base method `GameAction::GetActionFlags`, as a function of the command flags. -/
  GameActionGetActionFlags : Nat → Nat
  FlagsAllowWhilePaused : Nat
  FlagsEditorOnly : Nat
  /-- The enumerator `TrackElemType::Flat`. -/
  TrackElemTypeFlat : Nat
  /-- The enumerator `TrackElemType::FlatCovered`. -/
  TrackElemTypeFlatCovered : Nat

/-! ## Field encoding -/

/-- Big-endian bytes of `v` on `n` bytes (the value is taken modulo `256 ^ n`). -/
def encodeBE : Nat → Nat → List Nat
  | 0, _ => []
  | n + 1, v => (v / 256 ^ n) % 256 :: encodeBE n v

/-- The number held by big-endian bytes. -/
def decodeBE (bs : List Nat) : Nat := bs.foldl (fun acc b => acc * 256 + b) 0

/-- Modelled from the spec: the fixed-width encoding of one primitive field
(§6, wire format); stands for `stream << DS_TAG(field)` on an unsigned integer
of `width` bytes, whose body (`DataSerialiser`, `DataSerialiserTraits`) is not
among the sources.  Saving appends the bytes of the value; loading takes
`width` bytes off the stream and yields the value they hold, or fails when
fewer are left.  Either way the field name is recorded. -/
def DataSerialiser.field (ds : DataSerialiser) (name : String) (width : Nat) (v : Nat) :
    Option (DataSerialiser × Nat) :=
  if ds.isSaving then
    some ({ ds with stream := ds.stream ++ encodeBE width v, fields := ds.fields ++ [name] }, v)
  else if ds.stream.length < width then none
  else
    some ({ ds with stream := ds.stream.drop width, fields := ds.fields ++ [name] },
      decodeBE (ds.stream.take width))

/-- Two's-complement image of a signed 32-bit value. -/
def toU32 (i : Int) : Nat := (i % 4294967296).toNat

/-- The signed value of a 32-bit two's-complement image. -/
def ofU32 (n : Nat) : Int := if n < 2147483648 then (n : Int) else (n : Int) - 4294967296

/-- Modelled from the spec: the fixed-width encoding of a `CoordsXYZD` field
(§6, wire format): three signed 32-bit coordinates and the 8-bit direction,
passed as one tagged field. -/
def DataSerialiser.fieldCoordsXYZD (ds : DataSerialiser) (name : String) (c : CoordsXYZD) :
    Option (DataSerialiser × CoordsXYZD) :=
  if ds.isSaving then
    some ({ ds with
            stream := ds.stream ++ encodeBE 4 (toU32 c.x) ++ encodeBE 4 (toU32 c.y)
              ++ encodeBE 4 (toU32 c.z) ++ encodeBE 1 c.direction
            fields := ds.fields ++ [name] }, c)
  else if ds.stream.length < 13 then none
  else
    some ({ ds with stream := ds.stream.drop 13, fields := ds.fields ++ [name] },
      ⟨ofU32 (decodeBE (ds.stream.take 4)), ofU32 (decodeBE ((ds.stream.drop 4).take 4)),
        ofU32 (decodeBE ((ds.stream.drop 8).take 4)), decodeBE ((ds.stream.drop 12).take 1)⟩)

/-- Constant `MAX_TILE_ELEMENTS_WITH_SPARE_ROOM` of `world/Map.h`. -/
def MAX_TILE_ELEMENTS_WITH_SPARE_ROOM : Nat := 0x1000000

/-- Constant `MAX_TILE_ELEMENTS` of `world/Map.h`. -/
def MAX_TILE_ELEMENTS : Nat := MAX_TILE_ELEMENTS_WITH_SPARE_ROOM - 512

/-! ## Tile element storage

The bodies of the tile element primitives (`map_get_first_element_at`,
`map_get_surface_element_at`, `map_get_park_entrance_element_at`,
`tile_element_insert`, the `TileElement` setters) are not part of the sources at
hand; they are modelled here on per-tile element sequences. -/

/-- Modelled from the spec: coordinate of a tile (§6, element lookup by coordinate);
stands for the conversion `TileCoordsXY(coords)` of `Location.hpp`, which is not
among the sources: truncating division by the tile step. -/
def tileOf (env : Env) (c : CoordsXY) : TilePos :=
  (c.x.tdiv env.COORDS_XY_STEP, c.y.tdiv env.COORDS_XY_STEP)

/-- Modelled from the spec: read query on an element (§6); stands for the accessor
`TileElementBase::GetBaseZ` of `TileElement.h`, which is not among the sources. -/
def GetBaseZ (env : Env) (e : TileElement) : Int := e.base_height * env.COORDS_Z_STEP

/-- Modelled from the spec: read query on an element (§6); stands for the accessor
`TileElementBase::GetClearanceZ` of `TileElement.h`, which is not among the sources. -/
def GetClearanceZ (env : Env) (e : TileElement) : Int := e.clearance_height * env.COORDS_Z_STEP

/-- The loop `do { if (!p(el)) continue; return el; } while (!(el++)->IsLastForTile());`
as written in `WallRemoveAction::GetFirstWallElementAt` (lines 100-113), over the
elements stored from a tile's first element on: index of the first element
satisfying `p`, looking no further than the element marked last for the tile.
Running past the stored elements yields `none`. -/
def scanTile (p : TileElement → Bool) : List TileElement → Option Nat
  | [] => none
  | e :: es => if p e then some 0 else if e.lastForTile then none else (scanTile p es).map (· + 1)

/-- Modelled from the spec: element lookup by coordinate (§6); stands for
`map_get_first_element_at`, whose body is not among the sources.  The result is
the tile's element sequence, `none` for a location without a tile. -/
def map_get_first_element_at (env : Env) (w : World) (c : CoordsXY) : Option (List TileElement) :=
  w.tiles (tileOf env c)

/-- The element a reference points to. -/
def elemAt (w : World) (r : ElemRef) : Option TileElement :=
  (w.tiles r.1).bind (fun es => es[r.2]?)

/-- A write through a `TileElement*`. -/
def modifyElem (r : ElemRef) (f : TileElement → TileElement) (w : World) : World :=
  { w with tiles := Function.update w.tiles r.1 ((w.tiles r.1).map (fun es => es.modify f r.2)) }

/-- The element the scan loop stops at. -/
def foundInTile (p : TileElement → Bool) (es : List TileElement) : Option TileElement :=
  (scanTile p es).bind (fun i => es[i]?)

/-- Modelled from the spec: element lookup by coordinate (§6); the test that
`map_get_surface_element_at`, whose body is not among the sources, applies to
each element. -/
def isSurface (e : TileElement) : Bool := decide (e.type = .Surface)

/-- Modelled from the spec: element lookup by coordinate (§6); stands for
`map_get_surface_element_at`: the first surface element of the tile. -/
def map_get_surface_element_at (env : Env) (w : World) (c : CoordsXY) : Option ElemRef :=
  match map_get_first_element_at env w c with
  | none => none
  | some es => (scanTile isSurface es).map (fun i => (tileOf env c, i))

/-- Modelled from the spec: element lookup by coordinate (§6); the test that
`map_get_park_entrance_element_at`, whose body is not among the sources, applies
to each element. -/
def isParkEntranceAt (env : Env) (z : Int) (ghost : Bool) (e : TileElement) : Bool :=
  decide (e.type = .Entrance) && decide (e.base_height = z.tdiv env.COORDS_Z_STEP)
    && decide (e.entranceType = env.ENTRANCE_TYPE_PARK_ENTRANCE) && (ghost || !e.ghost)

/-- Modelled from the spec: element lookup by coordinate (§6); stands for
`map_get_park_entrance_element_at`: the first entrance element of the tile whose
base height is that of the coordinate, whose entrance type is park entrance and
which is not a ghost unless ghosts are asked for. -/
def map_get_park_entrance_element_at (env : Env) (w : World) (c : CoordsXYZ) (ghost : Bool) :
    Option ElemRef :=
  match map_get_first_element_at env w ⟨c.x, c.y⟩ with
  | none => none
  | some es => (scanTile (isParkEntranceAt env c.z ghost) es).map (fun i => (tileOf env ⟨c.x, c.y⟩, i))

/-- Modelled from the spec: the insert-element mutation primitive (§6); the element
that `tile_element_insert`, whose body is not among the sources, writes before
its caller fills it in:
type 0, no flags, base and clearance height the 8-bit height of the location. -/
def blankElement (h : Int) (quadrants : Nat) (last : Bool) : TileElement :=
  { type := .Surface, base_height := h % 256, clearance_height := h % 256, direction := 0,
    ghost := false, lastForTile := last, occupiedQuadrants := quadrants, ownership := 0,
    entranceType := 0, sequenceIndex := 0, pathType := 0, trackType := 0 }

/-- Modelled from the spec: the insert-element mutation primitive (§6); the copy
loop of `tile_element_insert`, whose body is not among the sources, with height
step `step`: elements
whose base is not above `z` stay below the new element, the others follow it;
the last-for-tile mark moves to the new element when it ends up last.  `mk last`
is the new element; the result is its index and the rewritten tile. -/
def insertIntoTile (step : Int) (z : Int) (mk : Bool → TileElement) :
    List TileElement → Nat × List TileElement
  | [] => (0, [mk true])
  | e :: es =>
    if e.base_height * step ≤ z then
      if e.lastForTile then (1, { e with lastForTile := false } :: mk true :: es)
      else ((insertIntoTile step z mk es).1 + 1, e :: (insertIntoTile step z mk es).2)
    else (0, mk false :: e :: es)

/-- Modelled from the spec: the insert-element mutation primitive (§6); stands for
`tile_element_insert`, whose body is not among the sources.  It asks
`map_check_free_elements_and_reorganise(1)` for room and returns null (`none`)
without it; otherwise the tile gets one new blank element, placed by height, and
the block of the tile is rewritten at the next free slot. -/
def tile_element_insert (env : Env) (loc : CoordsXYZ) (quadrants : Nat) (w : World) :
    Option (ElemRef × World) :=
  let chk := env.map_check_free_elements_and_reorganise 1 w
  if chk.1 = false then none
  else
    match chk.2.tiles (tileOf env ⟨loc.x, loc.y⟩) with
    | none => none
    | some es =>
      let r := insertIntoTile env.COORDS_Z_STEP loc.z
        (blankElement (loc.z.tdiv env.COORDS_Z_STEP) quadrants) es
      some ((tileOf env ⟨loc.x, loc.y⟩, r.1),
        { chk.2 with
          tiles := Function.update chk.2.tiles (tileOf env ⟨loc.x, loc.y⟩) (some r.2)
          gNextFreeTileElement := chk.2.gNextFreeTileElement + (es.length + 1) })

/-! ## PlaceParkEntranceAction -/

structure PlaceParkEntranceAction where
  loc : CoordsXYZD
  flags : Nat
  deriving DecidableEq, Repr

/-- The index expression `(direction - 1) & 0x3` on a promoted `int`. -/
def dirMinus1 (d : Nat) : Nat := (((d : Int) - 1) % 4).toNat

/-- The index expression `(direction + 1) & 0x3`. -/
def dirPlus1 (d : Nat) : Nat := (d + 1) % 4

/-- The update of `entranceLoc` at the head of each loop iteration; the same
arithmetic is written in `Query` (lines 77-85) and in `Execute` (lines 124-133). -/
def nextEntranceLoc (env : Env) (d : Nat) (index : Nat) (p : CoordsXY) : CoordsXY :=
  if index = 1 then
    ⟨p.x + (env.CoordsDirectionDelta (dirMinus1 d)).x, p.y + (env.CoordsDirectionDelta (dirMinus1 d)).y⟩
  else if index = 2 then
    ⟨p.x + (env.CoordsDirectionDelta (dirPlus1 d)).x * 2, p.y + (env.CoordsDirectionDelta (dirPlus1 d)).y * 2⟩
  else p

/-- The `for` loop of `Query` (lines 75-101) from the iterations in `idxs` on;
`some r` is an early `return r`, `none` means the loop ran to its end. -/
def PlaceParkEntranceAction.QueryLoop (env : Env) (a : PlaceParkEntranceAction) (w : World) :
    List Nat → CoordsXY → Option Result
  | [], _ => none
  | index :: rest, p =>
    let entranceLoc := nextEntranceLoc env a.loc.direction index p
    let res2 := env.MapCanConstructAt w
      ⟨entranceLoc.x, entranceLoc.y, a.loc.z, a.loc.z + env.ParkEntranceHeight⟩ (0b1111, 0)
    if res2.Error ≠ Status.Ok then
      some { Result.err .NoClearance (some .STR_CANT_BUILD_PARK_ENTRANCE_HERE) res2.ErrorMessage with
              ErrorMessageArgs := res2.ErrorMessageArgs }
    else if (map_get_park_entrance_element_at env w ⟨entranceLoc.x, entranceLoc.y, a.loc.z⟩ false).isSome then
      some (Result.err .ItemAlreadyPlaced (some .STR_CANT_BUILD_PARK_ENTRANCE_HERE) .STR_NONE)
    else PlaceParkEntranceAction.QueryLoop env a w rest entranceLoc

/-- The method `PlaceParkEntranceAction::Query`: the Result and the state it leaves. -/
def PlaceParkEntranceAction.Query (env : Env) (a : PlaceParkEntranceAction) (w : World) :
    Result × World :=
  if w.gScreenFlags &&& env.SCREEN_FLAGS_EDITOR = 0 ∧ w.gCheatsSandboxMode = false then
    (Result.err .NotInEditorMode (some .STR_CANT_BUILD_PARK_ENTRANCE_HERE) .STR_NONE, w)
  else
    let res : Result :=
      { Result.ok with Expenditure := .LandPurchase, Position := some ⟨a.loc.x, a.loc.y, a.loc.z⟩ }
    let chk := env.map_check_free_elements_and_reorganise 3 w
    if chk.1 = false then
      (Result.err .NoFreeElements (some .STR_CANT_BUILD_PARK_ENTRANCE_HERE) .STR_NONE, chk.2)
    else if env.LocationValid chk.2 ⟨a.loc.x, a.loc.y⟩ = false ∨ a.loc.x ≤ 32 ∨ a.loc.y ≤ 32
        ∨ a.loc.x ≥ chk.2.gMapSizeUnits - 32 ∨ a.loc.y ≥ chk.2.gMapSizeUnits - 32 then
      (Result.err .InvalidParameters (some .STR_CANT_BUILD_PARK_ENTRANCE_HERE)
        .STR_TOO_CLOSE_TO_EDGE_OF_MAP, chk.2)
    else if chk.2.gParkEntrances.length ≥ env.MAX_PARK_ENTRANCES then
      (Result.err .InvalidParameters (some .STR_CANT_BUILD_PARK_ENTRANCE_HERE)
        .STR_ERR_TOO_MANY_PARK_ENTRANCES, chk.2)
    else
      match PlaceParkEntranceAction.QueryLoop env a chk.2 [0, 1, 2] ⟨a.loc.x, a.loc.y⟩ with
      | some r => (r, chk.2)
      | none => (res, chk.2)

/-- The test `flags & GAME_COMMAND_FLAG_GHOST` (lines 135, 155, 165; `WallRemoveAction` line 50). -/
def hasGhostFlag (env : Env) (flags : Nat) : Bool := flags &&& env.GAME_COMMAND_FLAG_GHOST != 0

/-- Modelled from the spec: mutation primitive on an element (§6); stands for
`SurfaceElement::SetOwnership` of `Surface.h`, which is not among the sources. -/
def SetOwnership (o : Nat) (e : TileElement) : TileElement := { e with ownership := o }

/-- Modelled from the spec: mutation primitive on an element (§6); stands for
`TileElementBase::SetType` of `TileElement.h`, which is not among the sources. -/
def SetType (t : TileElementType) (e : TileElement) : TileElement := { e with type := t }

/-- Modelled from the spec: mutation primitive on an element (§6); stands for
`TileElementBase::SetClearanceZ` of `TileElement.h`, which is not among the
sources: the height is stored in 8-bit height units. -/
def SetClearanceZ (env : Env) (z : Int) (e : TileElement) : TileElement :=
  { e with clearance_height := (z.tdiv env.COORDS_Z_STEP) % 256 }

/-- Modelled from the spec: mutation primitive on an element (§6); stands for
`TileElementBase::SetGhost` of `TileElement.h`, which is not among the sources. -/
def SetGhost (b : Bool) (e : TileElement) : TileElement := { e with ghost := b }

/-- Modelled from the spec: mutation primitive on an element (§6); stands for
`TileElementBase::SetDirection` of `TileElement.h`, which is not among the
sources: two bits are stored. -/
def SetDirection (d : Nat) (e : TileElement) : TileElement := { e with direction := d % 4 }

/-- Modelled from the spec: mutation primitive on an element (§6); stands for
`EntranceElement::SetSequenceIndex` of `TileElement.h`, which is not among the
sources: four bits are stored. -/
def SetSequenceIndex (i : Nat) (e : TileElement) : TileElement := { e with sequenceIndex := i % 16 }

/-- Modelled from the spec: mutation primitive on an element (§6); stands for
`EntranceElement::SetEntranceType` of `TileElement.h`, which is not among the sources. -/
def SetEntranceType (t : Nat) (e : TileElement) : TileElement := { e with entranceType := t }

/-- Modelled from the spec: mutation primitive on an element (§6); stands for
`EntranceElement::SetPathType` of `TileElement.h`, which is not among the sources. -/
def SetPathType (t : Nat) (e : TileElement) : TileElement := { e with pathType := t }

/-- The writes of lines 146-163 to the freshly inserted element, composed. -/
def PlaceParkEntranceAction.fillElement (env : Env) (a : PlaceParkEntranceAction) (index : Nat)
    (pathType : Nat) (e : TileElement) : TileElement :=
  let e1 := SetType .Entrance e
  let e2 := SetClearanceZ env (a.loc.z + env.ParkEntranceHeight) e1
  let e3 := if hasGhostFlag env a.flags then SetGhost true e2 else e2
  let e4 := SetDirection a.loc.direction e3
  let e5 := SetSequenceIndex index e4
  let e6 := SetEntranceType env.ENTRANCE_TYPE_PARK_ENTRANCE e5
  SetPathType pathType e6

/-- The five `update_park_fences` calls of lines 170-174. -/
def PlaceParkEntranceAction.updateFences (env : Env) (p : CoordsXY) (w : World) : World :=
  let w1 := env.update_park_fences p w
  let w2 := env.update_park_fences ⟨p.x - env.COORDS_XY_STEP, p.y⟩ w1
  let w3 := env.update_park_fences ⟨p.x + env.COORDS_XY_STEP, p.y⟩ w2
  let w4 := env.update_park_fences ⟨p.x, p.y - env.COORDS_XY_STEP⟩ w3
  env.update_park_fences ⟨p.x, p.y + env.COORDS_XY_STEP⟩ w4

/-- Lines 135-142 of `Execute`: unless the action is a ghost, the surface element
of the tile, when there is one, becomes unowned. -/
def PlaceParkEntranceAction.disown (env : Env) (a : PlaceParkEntranceAction)
    (entranceLoc : CoordsXY) (w : World) : World :=
  if hasGhostFlag env a.flags = false then
    match map_get_surface_element_at env w entranceLoc with
    | some surfaceElement => modifyElem surfaceElement (SetOwnership env.OWNERSHIP_UNOWNED) w
    | none => w
  else w

/-- One iteration of the `for` loop of `Execute` (lines 135-181) at tile `entranceLoc`;
`none` is a failed `Guard::Assert`. -/
def PlaceParkEntranceAction.ExecuteBody (env : Env) (a : PlaceParkEntranceAction) (index : Nat)
    (entranceLoc : CoordsXY) (w : World) : Option World :=
  let w1 := PlaceParkEntranceAction.disown env a entranceLoc w
  match tile_element_insert env ⟨entranceLoc.x, entranceLoc.y, a.loc.z⟩ 0b1111 w1 with
  | none => none
  | some (newElement, w2) =>
    let w3 := modifyElem newElement (PlaceParkEntranceAction.fillElement env a index w2.gFootpathSelectedId) w2
    let w4 :=
      if hasGhostFlag env a.flags = false then
        env.footpath_connect_edges entranceLoc newElement env.GAME_COMMAND_FLAG_APPLY w3
      else w3
    let w5 := PlaceParkEntranceAction.updateFences env entranceLoc w4
    let w6 := env.map_invalidate_tile
      ⟨entranceLoc.x, entranceLoc.y, ((elemAt w5 newElement).map (GetBaseZ env)).getD 0,
        ((elemAt w5 newElement).map (GetClearanceZ env)).getD 0⟩ w5
    if index = 0 then
      some (env.map_animation_create env.MAP_ANIMATION_TYPE_PARK_ENTRANCE
        ⟨entranceLoc.x, entranceLoc.y, a.loc.z⟩ w6)
    else some w6

/-- The `for` loop of `Execute` (lines 122-182) from the iterations in `idxs` on. -/
def PlaceParkEntranceAction.ExecuteLoop (env : Env) (a : PlaceParkEntranceAction) :
    List Nat → CoordsXY → World → Option World
  | [], _, w => some w
  | index :: rest, p, w =>
    match PlaceParkEntranceAction.ExecuteBody env a index (nextEntranceLoc env a.loc.direction index p) w with
    | none => none
    | some w1 =>
      PlaceParkEntranceAction.ExecuteLoop env a rest (nextEntranceLoc env a.loc.direction index p) w1

/-- The method `PlaceParkEntranceAction::Execute`; `none` is a failed `Guard::Assert`. -/
def PlaceParkEntranceAction.Execute (env : Env) (a : PlaceParkEntranceAction) (w : World) :
    Option (Result × World) :=
  let res : Result :=
    { Result.ok with Expenditure := .LandPurchase, Position := some ⟨a.loc.x, a.loc.y, a.loc.z⟩ }
  let w1 := { w with gParkEntrances := w.gParkEntrances ++ [a.loc] }
  match PlaceParkEntranceAction.ExecuteLoop env a [0, 1, 2] ⟨a.loc.x, a.loc.y⟩ w1 with
  | none => none
  | some w2 => some (res, w2)

/-- The method `PlaceParkEntranceAction::Serialise`. -/
def PlaceParkEntranceAction.Serialise (env : Env) (ds : DataSerialiser) (a : PlaceParkEntranceAction) :
    Option (DataSerialiser × PlaceParkEntranceAction) :=
  match env.GameActionSerialise ds a.flags with
  | none => none
  | some (ds1, flags) =>
    match ds1.fieldCoordsXYZD "_loc" a.loc with
    | none => none
    | some (ds2, loc) => some (ds2, { loc := loc, flags := flags })

/-- The method `PlaceParkEntranceAction::GetActionFlags` (lines 29-32), a `uint16_t`. -/
def PlaceParkEntranceAction.GetActionFlags (env : Env) (a : PlaceParkEntranceAction) : Nat :=
  (env.GameActionGetActionFlags a.flags ||| env.FlagsEditorOnly) % 65536

/-! ## WallRemoveAction -/

structure WallRemoveAction where
  loc : CoordsXYZD
  flags : Nat
  deriving DecidableEq, Repr

/-- The method `WallRemoveAction::Serialise`. -/
def WallRemoveAction.Serialise (env : Env) (ds : DataSerialiser) (a : WallRemoveAction) :
    Option (DataSerialiser × WallRemoveAction) :=
  match env.GameActionSerialise ds a.flags with
  | none => none
  | some (ds1, flags) =>
    match ds1.fieldCoordsXYZD "_loc" a.loc with
    | none => none
    | some (ds2, loc) => some (ds2, { loc := loc, flags := flags })

/-- The test applied by `GetFirstWallElementAt` to each element (lines 102-109). -/
def WallRemoveAction.isWallAt (env : Env) (location : CoordsXYZD) (isGhost : Bool)
    (e : TileElement) : Bool :=
  decide (e.type = .Wall) && decide (GetBaseZ env e = location.z)
    && decide (e.direction = location.direction) && (e.ghost == isGhost)

/-- The method `WallRemoveAction::GetFirstWallElementAt`. -/
def WallRemoveAction.GetFirstWallElementAt (env : Env) (w : World) (location : CoordsXYZD)
    (isGhost : Bool) : Option ElemRef :=
  match map_get_first_element_at env w ⟨location.x, location.y⟩ with
  | none => none
  | some es =>
    (scanTile (WallRemoveAction.isWallAt env location isGhost) es).map
      (fun i => (tileOf env ⟨location.x, location.y⟩, i))

/-- The method `WallRemoveAction::Query`: the Result and the state it leaves. -/
def WallRemoveAction.Query (env : Env) (a : WallRemoveAction) (w : World) : Result × World :=
  let res : Result := { Result.ok with Cost := 0, Expenditure := .Landscaping }
  if env.LocationValid w ⟨a.loc.x, a.loc.y⟩ = false then
    (Result.err .InvalidParameters (some .STR_CANT_REMOVE_THIS) .STR_INVALID_SELECTION_OF_OBJECTS, w)
  else
    let isGhost := hasGhostFlag env a.flags
    if isGhost = false ∧ w.gScreenFlags &&& env.SCREEN_FLAGS_SCENARIO_EDITOR = 0
        ∧ w.gCheatsSandboxMode = false ∧ env.map_is_location_owned w ⟨a.loc.x, a.loc.y, a.loc.z⟩ = false then
      (Result.err .NotOwned (some .STR_CANT_REMOVE_THIS) .STR_LAND_NOT_OWNED_BY_PARK, w)
    else
      match WallRemoveAction.GetFirstWallElementAt env w a.loc isGhost with
      | none =>
        (Result.err .InvalidParameters (some .STR_CANT_REMOVE_THIS) .STR_INVALID_SELECTION_OF_OBJECTS, w)
      | some _ => ({ res with Cost := 0 }, w)

/-- Modelled from the spec: the remove-element mutation primitive (§6); the
rewriting of a tile by `tile_element_remove`, whose body is not among the
sources: the element at index `i` leaves the sequence, the elements above it
move down, and when it was the last of the tile the last-for-tile mark goes to
the element below it. -/
def removeFromTile (es : List TileElement) (i : Nat) : List TileElement :=
  if (es[i]?).map (fun e => e.lastForTile) = some true ∧ 0 < i then
    (es.eraseIdx i).modify (fun e => { e with lastForTile := true }) (i - 1)
  else es.eraseIdx i

/-- Modelled from the spec: the remove-element mutation primitive (§6); stands for
`tile_element_remove`, whose body is not among the sources.  The slot freed in
the tile element array stays a hole: the next free slot is not moved. -/
def tile_element_remove (r : ElemRef) (w : World) : World :=
  { w with tiles := Function.update w.tiles r.1 ((w.tiles r.1).map (fun es => removeFromTile es r.2)) }

/-- The method `WallRemoveAction::Execute`: the Result and the state it leaves. -/
def WallRemoveAction.Execute (env : Env) (a : WallRemoveAction) (w : World) : Result × World :=
  let res : Result := { Result.ok with Cost := 0, Expenditure := .Landscaping }
  let isGhost := hasGhostFlag env a.flags
  match WallRemoveAction.GetFirstWallElementAt env w a.loc isGhost with
  | none =>
    (Result.err .InvalidParameters (some .STR_CANT_REMOVE_THIS) .STR_INVALID_SELECTION_OF_OBJECTS, w)
  | some wallElement =>
    let res1 : Result :=
      { res with
        Position := some ⟨a.loc.x + 16, a.loc.y + 16,
          env.tile_element_height w ⟨a.loc.x + 16, a.loc.y + 16⟩⟩ }
    let w1 := env.tile_element_remove_banner_entry wallElement w
    let baseZ := ((elemAt w1 wallElement).map (GetBaseZ env)).getD 0
    let w2 := env.map_invalidate_tile_zoom1 ⟨a.loc.x, a.loc.y, baseZ, baseZ + 72⟩ w1
    (res1, tile_element_remove wallElement w2)

/-! ## RideSetVehicleAction -/

/-- The enumerators of `RideSetVehicleType`, as their underlying values. -/
def RideSetVehicleType.NumTrains : Nat := 0

def RideSetVehicleType.NumCarsPerTrain : Nat := 1

def RideSetVehicleType.RideEntry : Nat := 2

def RideSetVehicleType.TrainsReversed : Nat := 3

def RideSetVehicleType.Count : Nat := 4

/-- The table `SetVehicleTypeErrorTitle` (lines 31-36). -/
def SetVehicleTypeErrorTitle : List StringId :=
  [ .STR_RIDE_SET_VEHICLE_SET_NUM_TRAINS_FAIL,
    .STR_RIDE_SET_VEHICLE_SET_NUM_CARS_PER_TRAIN_FAIL,
    .STR_RIDE_SET_VEHICLE_TYPE_FAIL,
    .STR_RIDE_SET_VEHICLE_REVERSED_FAIL ]

/-- A `RideSetVehicleAction`: ride index (16 bits), type (8 bits), value (16 bits),
colour (8 bits) and the flags of the base action. -/
structure RideSetVehicleAction where
  rideIndex : Nat
  type : Nat
  value : Nat
  colour : Nat
  flags : Nat
  deriving DecidableEq, Repr

/-- The method `RideSetVehicleAction::Serialise`. -/
def RideSetVehicleAction.Serialise (env : Env) (ds : DataSerialiser) (a : RideSetVehicleAction) :
    Option (DataSerialiser × RideSetVehicleAction) :=
  match env.GameActionSerialise ds a.flags with
  | none => none
  | some (ds1, flags) =>
    match ds1.field "_rideIndex" 2 a.rideIndex with
    | none => none
    | some (ds2, rideIndex) =>
      match ds2.field "_type" 1 a.type with
      | none => none
      | some (ds3, type) =>
        match ds3.field "_value" 2 a.value with
        | none => none
        | some (ds4, value) =>
          match ds4.field "_colour" 1 a.colour with
          | none => none
          | some (ds5, colour) =>
            some (ds5, { rideIndex := rideIndex, type := type, value := value, colour := colour,
                         flags := flags })

/-- The method `RideSetVehicleAction::GetActionFlags` (lines 54-57), a `uint16_t`. -/
def RideSetVehicleAction.GetActionFlags (env : Env) (a : RideSetVehicleAction) : Nat :=
  (env.GameActionGetActionFlags a.flags ||| env.FlagsAllowWhilePaused) % 65536

/-- Modelled from the spec: entity existence lookup (§4.1); stands for `GetRide`,
whose body is not among the sources. -/
def GetRide (w : World) (rideIndex : Nat) : Option Ride := w.rides rideIndex

/-- Modelled from the spec: entity existence lookup (§4.1); stands for
`GetRideEntryByIndex`, whose body is not among the sources. -/
def GetRideEntryByIndex (w : World) (index : Nat) : Option RideEntry := w.rideEntries index

/-- The inner loop of `RideIsVehicleTypeValid` (lines 263-274): `some b` is `return b`. -/
def RideSetVehicleAction.searchEntries (a : RideSetVehicleAction) (w : World) :
    List Nat → Option Bool
  | [] => none
  | rideEntryIndex :: rest =>
    if rideEntryIndex = a.value then
      if w.rideEntryInvented rideEntryIndex = false ∧ w.cheatIgnoreResearchStatus = false then
        some false
      else some true
    else RideSetVehicleAction.searchEntries a w rest

/-- The outer loop of `RideIsVehicleTypeValid` (lines 249-277) over the ride types in `types`. -/
def RideSetVehicleAction.searchTypes (env : Env) (a : RideSetVehicleAction) (w : World)
    (selectionShouldBeExpanded : Bool) : List Nat → Bool
  | [] => false
  | rideTypeIterator :: rest =>
    if selectionShouldBeExpanded = true ∧ env.rideTypeIsFlatRide rideTypeIterator = true then
      RideSetVehicleAction.searchTypes env a w selectionShouldBeExpanded rest
    else if selectionShouldBeExpanded = true
        ∧ (env.rideTypeIsMaze rideTypeIterator = true ∨ rideTypeIterator = env.RIDE_TYPE_MINI_GOLF) then
      RideSetVehicleAction.searchTypes env a w selectionShouldBeExpanded rest
    else
      match RideSetVehicleAction.searchEntries a w (w.rideEntriesOfType rideTypeIterator) with
      | some b => b
      | none => RideSetVehicleAction.searchTypes env a w selectionShouldBeExpanded rest

/-- The method `RideSetVehicleAction::RideIsVehicleTypeValid`. -/
def RideSetVehicleAction.RideIsVehicleTypeValid (env : Env) (a : RideSetVehicleAction) (w : World)
    (ride : Ride) : Bool :=
  if w.cheatShowVehiclesFromOtherTrackTypes = true
      ∧ ¬ (env.rideTypeIsFlatRide ride.type = true ∨ env.rideTypeIsMaze ride.type = true
            ∨ ride.type = env.RIDE_TYPE_MINI_GOLF) then
    RideSetVehicleAction.searchTypes env a w true (List.range env.RIDE_TYPE_COUNT)
  else
    RideSetVehicleAction.searchTypes env a w false [ride.type]

/-- The method `RideSetVehicleAction::Query`: the Result and the state it leaves. -/
def RideSetVehicleAction.Query (env : Env) (a : RideSetVehicleAction) (w : World) : Result × World :=
  let errTitle := SetVehicleTypeErrorTitle[a.type]?
  match GetRide w a.rideIndex with
  | none => (Result.err .InvalidParameters errTitle .STR_NONE, w)
  | some ride =>
    if ride.lifecycle_flags &&& env.RIDE_LIFECYCLE_BROKEN_DOWN ≠ 0 then
      (Result.err .Broken errTitle .STR_HAS_BROKEN_DOWN_AND_REQUIRES_FIXING, w)
    else if ride.status ≠ RideStatus.Closed ∧ ride.status ≠ RideStatus.Simulating then
      (Result.err .NotClosed errTitle .STR_MUST_BE_CLOSED_FIRST, w)
    else if a.type = RideSetVehicleType.NumTrains ∨ a.type = RideSetVehicleType.NumCarsPerTrain
        ∨ a.type = RideSetVehicleType.TrainsReversed then
      (Result.ok, w)
    else if a.type = RideSetVehicleType.RideEntry then
      if RideSetVehicleAction.RideIsVehicleTypeValid env a w ride = false then
        (Result.err .InvalidParameters errTitle .STR_NONE, w)
      else
        match GetRideEntryByIndex w a.value with
        | none => (Result.err .InvalidParameters errTitle .STR_NONE, w)
        | some rideEntry =>
          if a.colour ≥ rideEntry.presetCount ∧ a.colour ≠ 255 ∧ a.colour ≠ 0 then
            (Result.err .InvalidParameters errTitle .STR_NONE, w)
          else (Result.ok, w)
    else (Result.err .InvalidParameters errTitle .STR_NONE, w)

/-- The function template `std::clamp(v, lo, hi)`. -/
def clamp (v lo hi : Nat) : Nat := if v < lo then lo else if hi < v then hi else v

/-- Write-back of the ride the action worked on. -/
def setRide (rideIndex : Nat) (ride : Ride) (w : World) : World :=
  { w with rides := Function.update w.rides rideIndex (some ride) }

/-- The statements shared by all four cases of `Execute` (lines 141-143 and
their repetitions): `RideClearForConstruction`, `RemovePeeps`, timeout 100. -/
def RideSetVehicleAction.prepare (env : Env) (ride : Ride) (w : World) : Ride × World :=
  let s1 := env.RideClearForConstruction ride w
  let s2 := env.RemovePeeps s1.1 s1.2
  ({ s2.1 with vehicle_change_timeout := 100 }, s2.2)

/-- Modelled from the spec: mutation primitive (§6, adjust counters); stands for
`Ride::SetLifecycleFlag` of `Ride.h`, which is not among the sources, on 32-bit flags. -/
def SetLifecycleFlag (flag : Nat) (enable : Bool) (ride : Ride) : Ride :=
  if enable then { ride with lifecycle_flags := ride.lifecycle_flags ||| flag }
  else { ride with lifecycle_flags := ride.lifecycle_flags &&& (4294967295 ^^^ flag) }

/-- The `switch` of `Execute` (lines 138-205): `Except.error r` is an early
`return r`; either way the ride and state reached are returned. -/
def RideSetVehicleAction.ExecuteSwitch (env : Env) (a : RideSetVehicleAction) (ride : Ride)
    (w : World) : Except (Result × Ride × World) (Ride × World) :=
  let errTitle := SetVehicleTypeErrorTitle[a.type]?
  if a.type = RideSetVehicleType.NumTrains then
    let s := RideSetVehicleAction.prepare env ride w
    .ok ({ s.1 with ProposedNumTrains := a.value % 256 }, s.2)
  else if a.type = RideSetVehicleType.NumCarsPerTrain then
    let s := RideSetVehicleAction.prepare env ride w
    let t := env.InvalidateTestResults s.1 s.2
    match GetRideEntryByIndex t.2 t.1.subtype with
    | none => .error (Result.err .InvalidParameters errTitle .STR_NONE, t.1, t.2)
    | some rideEntry =>
      let clampValue := a.value % 256
      let clampValue :=
        if t.2.cheatDisableTrainLengthLimit = false then
          clamp clampValue rideEntry.min_cars_in_train rideEntry.max_cars_in_train
        else clampValue
      .ok ({ t.1 with proposed_num_cars_per_train := clampValue }, t.2)
  else if a.type = RideSetVehicleType.RideEntry then
    let s := RideSetVehicleAction.prepare env ride w
    let t := env.InvalidateTestResults s.1 s.2
    let ride1 := { t.1 with subtype := a.value }
    match GetRideEntryByIndex t.2 ride1.subtype with
    | none => .error (Result.err .InvalidParameters errTitle .STR_NONE, ride1, t.2)
    | some rideEntry =>
      let u := env.RideSetVehicleColoursToRandomPreset ride1 a.colour t.2
      if u.2.cheatDisableTrainLengthLimit = false then
        let clamped := clamp u.1.proposed_num_cars_per_train rideEntry.min_cars_in_train
          rideEntry.max_cars_in_train
        .ok ({ u.1 with proposed_num_cars_per_train := clamped }, u.2)
      else .ok u
  else if a.type = RideSetVehicleType.TrainsReversed then
    let s := RideSetVehicleAction.prepare env ride w
    .ok (SetLifecycleFlag env.RIDE_LIFECYCLE_REVERSED_TRAINS (a.value != 0) s.1, s.2)
  else .error (Result.err .InvalidParameters errTitle .STR_NONE, ride, w)

/-- The method `RideSetVehicleAction::Execute`: the Result and the state it leaves. -/
def RideSetVehicleAction.Execute (env : Env) (a : RideSetVehicleAction) (w : World) : Result × World :=
  let errTitle := SetVehicleTypeErrorTitle[a.type]?
  match GetRide w a.rideIndex with
  | none => (Result.err .InvalidParameters errTitle .STR_NONE, w)
  | some ride =>
    match RideSetVehicleAction.ExecuteSwitch env a ride w with
    | .error (r, ride1, w1) => (r, setRide a.rideIndex ride1 w1)
    | .ok (ride1, w1) =>
      let u := env.UpdateMaxVehicles { ride1 with num_circuits := 1 } w1
      let res : Result :=
        match u.1.overall_view with
        | none => Result.ok
        | some v =>
          { Result.ok with
            Position := some ⟨v.1 * env.COORDS_XY_STEP + env.COORDS_XY_STEP.tdiv 2,
                              v.2 * env.COORDS_XY_STEP + env.COORDS_XY_STEP.tdiv 2,
                              env.TileElementHeight u.2 Result.ok.Position⟩ }
      let w2 := env.ContextBroadcastIntent a.rideIndex (setRide a.rideIndex u.1 u.2)
      (res, env.GfxInvalidateScreen w2)

/-! ## TD6 track design import -/

/-- The fields of the `TD6Track` header (the first 0xA3 bytes of a track design
file) that `TD6Importer::Import` copies into the ride type, the train counts
and the operation settings. -/
structure TD6Track where
  RideType : Nat
  VehicleType : Nat
  RideMode : Nat
  VersionAndColourScheme : Nat
  DepartFlags : Nat
  NumberOfTrains : Nat
  NumberOfCarsPerTrain : Nat
  MinWaitingTime : Nat
  MaxWaitingTime : Nat
  OperationSetting : Nat
  LiftHillSpeedNumCircuits : Nat
  deriving DecidableEq, Repr

/-- The member `TrackDesign::operation`. -/
structure TrackDesignOperation where
  rideMode : Nat
  departFlags : Nat
  minWaitingTime : Nat
  maxWaitingTime : Nat
  operationSetting : Nat
  liftHillSpeed : Nat
  numCircuits : Nat
  deriving DecidableEq, Repr

/-- The fields of a `TrackDesign` written from the header, and the elements read
after it (track or maze, entrance and scenery elements, in the order pushed). -/
structure TrackDesign where
  type : Nat
  vehicleType : Nat
  trackFlags : Nat
  numberOfTrains : Nat
  numberOfCarsPerTrain : Nat
  operation : TrackDesignOperation
  elements : List Nat
  deriving DecidableEq, Repr

/-- Constants and functions that `TD6Importer::Import` uses and that are declared
outside the sources at hand. -/
structure ImportEnv where
  /-- The enumerator `RCT12TrackDesignVersion::TD6`. -/
  TrackDesignVersionTD6 : Nat
  /-- The value `GetRideTypeDescriptor(type).OperatingSettings.MaxValue`. -/
  OperatingSettingsMaxValue : Nat → Nat
  /-- The element loops of lines 138-202, which decode the rest of the stream for a
  ride type and push what they decode; `none` when a read runs past the stream. -/
  readElements : Nat → List Nat → Option (List Nat)
  /-- The ride type that `UpdateRideType` (lines 211-228) leaves, from the ride
  type and the vehicle type of the design. -/
  UpdateRideType : Nat → Nat → Nat

/-- Lines 68-126 of `TD6Importer::Import`: the track design as the header fills it in.
`RideType` is the header field `Type`; the fields are bytes. -/
def TD6Importer.ImportHeader (td6 : TD6Track) : TrackDesign :=
  { type := td6.RideType
    vehicleType := td6.VehicleType
    trackFlags := 0
    numberOfTrains := td6.NumberOfTrains
    numberOfCarsPerTrain := td6.NumberOfCarsPerTrain
    operation :=
      { rideMode := td6.RideMode
        departFlags := td6.DepartFlags
        minWaitingTime := td6.MinWaitingTime
        maxWaitingTime := td6.MaxWaitingTime
        operationSetting := td6.OperationSetting
        liftHillSpeed := (td6.LiftHillSpeedNumCircuits &&& 0b00011111) % 256
        numCircuits := (td6.LiftHillSpeedNumCircuits >>> 5) % 256 }
    elements := [] }

/-- The method `TD6Importer::Import` on a header and the stream that follows it;
`none` is the null pointer returned for an unsupported version, or a read past
the end of the stream. -/
def TD6Importer.Import (ienv : ImportEnv) (td6 : TD6Track) (stream : List Nat) :
    Option TrackDesign :=
  let td := TD6Importer.ImportHeader td6
  let version := (td6.VersionAndColourScheme >>> 2) &&& 3
  if version ≠ ienv.TrackDesignVersionTD6 then none
  else
    let td1 : TrackDesign :=
      { td with
        operation :=
          { td.operation with
            operationSetting := min td.operation.operationSetting
              (ienv.OperatingSettingsMaxValue td.type) } }
    match ienv.readElements td1.type stream with
    | none => none
    | some elements =>
      some { td1 with elements := elements, type := ienv.UpdateRideType td1.type td1.vehicleType }

/-! ## Scenario patches: track type fixes -/

/-- Modelled from the spec: a JSON document; stands for the type `json_t` of
`core/Json.hpp`, which is not among the sources. -/
inductive json_t where
  | null
  | bool (b : Bool)
  | num (n : Int)
  | str (s : String)
  | arr (items : List json_t)
  | obj (members : List (String × json_t))

/-- Modelled from the spec: stands for `json_t::contains`, whose body is not among
the sources: whether an object has a member with the key. -/
def json_t.contains (j : json_t) (key : String) : Bool :=
  match j with
  | .obj members => members.any (fun kv => kv.1 == key)
  | _ => false

/-- Modelled from the spec: stands for `json_t::operator[]` with a key, whose body
is not among the sources: the first member with the key. -/
def json_t.get (j : json_t) (key : String) : json_t :=
  match j with
  | .obj members => ((members.find? (fun kv => kv.1 == key)).map (fun kv => kv.2)).getD .null
  | _ => .null

/-- Modelled from the spec: stands for `json_t::is_array`, whose body is not among
the sources. -/
def json_t.is_array (j : json_t) : Bool :=
  match j with
  | .arr _ => true
  | _ => false

/-- Modelled from the spec: stands for `Json::AsArray` of `core/Json.hpp`, whose body
is not among the sources, on the arrays it is called with. -/
def Json.AsArray (j : json_t) : List json_t :=
  match j with
  | .arr items => items
  | _ => []

/-- Modelled from the spec: stands for `Json::GetString` of `core/Json.hpp`, whose
body is not among the sources: the string held, or the empty string. -/
def Json.GetString (j : json_t) : String :=
  match j with
  | .str s => s
  | _ => ""

/-- Modelled from the spec: stands for `Json::GetNumber<int32_t>` of `core/Json.hpp`,
whose body is not among the sources: the integer held, or 0. -/
def Json.GetNumber (j : json_t) : Int :=
  match j with
  | .num n => n
  | _ => 0

/-- The function `toTrackType` (lines 187-198); `none` is the failed `Guard::Assert`. -/
def toTrackType (env : Env) (trackTypeString : String) : Option Nat :=
  if trackTypeString = "flat" then some env.TrackElemTypeFlat
  else if trackTypeString = "flat_covered" then some env.TrackElemTypeFlatCovered
  else none

/-- Modelled from the spec: read query on an element (§6); stands for the accessor
`TrackElement::GetTrackType` of `TileElement.h`, which is not among the sources. -/
def GetTrackType (e : TileElement) : Nat := e.trackType

/-- Modelled from the spec: mutation primitive on an element (§6); stands for
`TrackElement::SetTrackType` of `TileElement.h`, which is not among the sources. -/
def SetTrackType (t : Nat) (e : TileElement) : TileElement := { e with trackType := t }

/-- Modelled from the spec: element lookup by coordinate (§6); stands for
`MapGetFirstElementAt` on tile coordinates, whose body is not among the sources. -/
def MapGetFirstElementAt (w : World) (tile : TilePos) : Option (List TileElement) := w.tiles tile

/-- The `do`-`while` loop of `ApplyTrackTypeFixes` (lines 281-291) over the elements
stored from a tile's first element on: the result is what the loop leaves there. -/
def ApplyTrackTypeFixes.fixElements (fromTrackType destinationTrackType : Nat) :
    List TileElement → List TileElement
  | [] => []
  | e :: es =>
    let e1 :=
      if e.type ≠ TileElementType.Track then e
      else if GetTrackType e ≠ fromTrackType then e
      else SetTrackType destinationTrackType e
    if e1.lastForTile then e1 :: es
    else e1 :: ApplyTrackTypeFixes.fixElements fromTrackType destinationTrackType es

/-- The loop over `coordinatesPairs` (lines 261-292); `none` is a failed `Guard::Assert`. -/
def ApplyTrackTypeFixes.fixTiles (fromTrackType destinationTrackType : Nat) :
    List json_t → World → Option World
  | [], w => some w
  | pair :: rest, w =>
    if pair.is_array = false then none
    else
      let coordinatesPair := Json.AsArray pair
      if coordinatesPair.length ≠ 2 then none
      else
        let tile : TilePos :=
          (Json.GetNumber (coordinatesPair.getD 0 .null), Json.GetNumber (coordinatesPair.getD 1 .null))
        match MapGetFirstElementAt w tile with
        | none => ApplyTrackTypeFixes.fixTiles fromTrackType destinationTrackType rest w
        | some es =>
          ApplyTrackTypeFixes.fixTiles fromTrackType destinationTrackType rest
            { w with
              tiles := Function.update w.tiles tile
                (some (ApplyTrackTypeFixes.fixElements fromTrackType destinationTrackType es)) }

/-- The body of the loop over `fixOperations` (lines 224-292) for one operation;
`none` is a failed `Guard::Assert`. -/
def ApplyTrackTypeFixes.operation (env : Env) (op : json_t) (w : World) : Option World :=
  if op.contains "from" = false then none
  else if op.contains "to" = false then none
  else
    match toTrackType env (Json.GetString (op.get "from")),
        toTrackType env (Json.GetString (op.get "to")) with
    | some fromTrackType, some destinationTrackType =>
      if op.contains "coordinates" = false then none
      else if (op.get "coordinates").is_array = false then none
      else
        let coordinatesPairs := Json.AsArray (op.get "coordinates")
        if coordinatesPairs.isEmpty then none
        else ApplyTrackTypeFixes.fixTiles fromTrackType destinationTrackType coordinatesPairs w
    | _, _ => none

/-- The loop over `fixOperations` (lines 222-293). -/
def ApplyTrackTypeFixes.operations (env : Env) : List json_t → World → Option World
  | [], w => some w
  | op :: rest, w =>
    match ApplyTrackTypeFixes.operation env op w with
    | none => none
    | some w1 => ApplyTrackTypeFixes.operations env rest w1

/-- The function `ApplyTrackTypeFixes` (lines 200-294); `none` is a failed `Guard::Assert`. -/
def ApplyTrackTypeFixes (env : Env) (trackTilesFixes : json_t) (w : World) : Option World :=
  if trackTilesFixes.contains "operations" = false then none
  else if (trackTilesFixes.get "operations").is_array = false then none
  else
    let fixOperations := Json.AsArray (trackTilesFixes.get "operations")
    if fixOperations.isEmpty then none
    else ApplyTrackTypeFixes.operations env fixOperations w

/-! ## Observations and frame conditions -/

/-- The ownership of the surface element that `map_get_surface_element_at` finds at `c`. -/
def surfaceOwnership (env : Env) (w : World) (c : CoordsXY) : Option Nat :=
  ((map_get_surface_element_at env w c).bind (elemAt w)).map (fun e => e.ownership)

/-- Whether `map_get_park_entrance_element_at` finds an element at `c`. -/
def hasParkEntrance (env : Env) (w : World) (c : CoordsXYZ) (ghost : Bool) : Bool :=
  (map_get_park_entrance_element_at env w c ghost).isSome

/-- The successive values of `entranceLoc` over the loop iterations `idxs`, starting from `p`. -/
def entranceLocs (env : Env) (d : Nat) : List Nat → CoordsXY → List CoordsXY
  | [], _ => []
  | index :: rest, p =>
    nextEntranceLoc env d index p :: entranceLocs env d rest (nextEntranceLoc env d index p)

/-- The three tiles of the footprint, as both loops visit them. -/
def PlaceParkEntranceAction.footprint (env : Env) (a : PlaceParkEntranceAction) : List CoordsXY :=
  entranceLocs env a.loc.direction [0, 1, 2] ⟨a.loc.x, a.loc.y⟩

/-- Frame condition on the collaborators that every `PlaceParkEntranceAction`
calls (capacity check, fence update, tile invalidation, animation creation):
none of them changes the observation `obs` of the state. -/
def PlaceEffectsKeep {α : Type} (env : Env) (obs : World → α) : Prop :=
  (∀ n w, obs (env.map_check_free_elements_and_reorganise n w).2 = obs w)
    ∧ (∀ p w, obs (env.update_park_fences p w) = obs w)
    ∧ (∀ r w, obs (env.map_invalidate_tile r w) = obs w)
    ∧ (∀ t c w, obs (env.map_animation_create t c w) = obs w)

/-- Frame condition on `footpath_connect_edges`: it does not change `obs`. -/
def FootpathConnectKeeps {α : Type} (env : Env) (obs : World → α) : Prop :=
  ∀ p r f w, obs (env.footpath_connect_edges p r f w) = obs w

/-- Frame condition on the ride collaborators of `RideSetVehicleAction::Execute`:
those called before the ride entry is looked up keep the ride's subtype, the
ride entry table and the train-length cheat; those called after the store keep
the proposed number of cars and the ride table. -/
def RideEffectsKeep (env : Env) : Prop :=
  (∀ r w, (env.RideClearForConstruction r w).1.subtype = r.subtype
      ∧ (env.RideClearForConstruction r w).2.rideEntries = w.rideEntries
      ∧ (env.RideClearForConstruction r w).2.cheatDisableTrainLengthLimit = w.cheatDisableTrainLengthLimit)
    ∧ (∀ r w, (env.RemovePeeps r w).1.subtype = r.subtype
      ∧ (env.RemovePeeps r w).2.rideEntries = w.rideEntries
      ∧ (env.RemovePeeps r w).2.cheatDisableTrainLengthLimit = w.cheatDisableTrainLengthLimit)
    ∧ (∀ r w, (env.InvalidateTestResults r w).1.subtype = r.subtype
      ∧ (env.InvalidateTestResults r w).2.rideEntries = w.rideEntries
      ∧ (env.InvalidateTestResults r w).2.cheatDisableTrainLengthLimit = w.cheatDisableTrainLengthLimit)
    ∧ (∀ r w, (env.UpdateMaxVehicles r w).1.proposed_num_cars_per_train = r.proposed_num_cars_per_train)
    ∧ (∀ i w, (env.ContextBroadcastIntent i w).rides = w.rides)
    ∧ (∀ w, (env.GfxInvalidateScreen w).rides = w.rides)

/-- The base action serialises a fixed field list `base` and loading reads
back what saving wrote: for 32-bit flags, saving appends some bytes `bs` and
the names `base`; loading from a stream that starts with `bs` consumes exactly
`bs`, records the same names and yields the saved flags. -/
def BaseSerialiseRoundTrip (env : Env) (base : List String) : Prop :=
  ∀ fieldsW streamW flags, flags < 4294967296 → ∃ bs,
    env.GameActionSerialise ⟨true, streamW, fieldsW⟩ flags
        = some (⟨true, streamW ++ bs, fieldsW ++ base⟩, flags)
      ∧ ∀ fieldsR rest flags0,
          env.GameActionSerialise ⟨false, bs ++ rest, fieldsR⟩ flags0
            = some (⟨false, rest, fieldsR ++ base⟩, flags)

/-- Frame condition on the collaborators that `WallRemoveAction::Execute` calls
before it removes the wall (banner entry removal, tile invalidation): neither
changes the observation `obs` of the state. -/
def WallEffectsKeep {α : Type} (env : Env) (obs : World → α) : Prop :=
  (∀ r w, obs (env.tile_element_remove_banner_entry r w) = obs w)
    ∧ (∀ r w, obs (env.map_invalidate_tile_zoom1 r w) = obs w)

/-- The number of wall elements stored for tile `t`. -/
def wallCount (w : World) (t : TilePos) : Nat :=
  ((w.tiles t).getD []).countP (fun e => decide (e.type = .Wall))

/-- An element without its last-for-tile mark: what the element holds, apart
from the mark that says where the tile's sequence ends. -/
def TileElement.content (e : TileElement) : TileElement := { e with lastForTile := false }

/-- Frame condition on `RideSetVehicleColoursToRandomPreset`: it keeps the
train-length cheat. -/
def ColourPresetKeepsCheat (env : Env) : Prop :=
  ∀ r c w, (env.RideSetVehicleColoursToRandomPreset r c w).2.cheatDisableTrainLengthLimit
    = w.cheatDisableTrainLengthLimit

/-- A tile's element sequence as the storage delimits it: its last element, and
no earlier one, carries the last-for-tile mark. -/
def tileEndsAtLast : List TileElement → Bool
  | [] => false
  | e :: [] => e.lastForTile
  | e :: e2 :: es => !e.lastForTile && tileEndsAtLast (e2 :: es)

/-- The footprint in the words of the specification: loc, then
loc + Delta[(d - 1) & 3], then loc + Delta[(d - 1) & 3] + 2 * Delta[(d + 1) & 3],
the index (d - 1) & 3 being computed on integers. -/
def PlaceParkEntranceAction.footprintSpec (env : Env) (loc : CoordsXYZD) : List CoordsXY :=
  let d1 := env.CoordsDirectionDelta (Int.land ((loc.direction : Int) - 1) 3).toNat
  let d2 := env.CoordsDirectionDelta ((loc.direction + 1) &&& 3)
  [⟨loc.x, loc.y⟩, ⟨loc.x + d1.x, loc.y + d1.y⟩,
    ⟨loc.x + d1.x + 2 * d2.x, loc.y + d1.y + 2 * d2.y⟩]

/-- Validation of a list of tiles in the words of the specification: each tile in
turn is checked for clearance and for an existing park entrance; `some r` is
the first rejection. -/
def PlaceParkEntranceAction.checkTiles (env : Env) (a : PlaceParkEntranceAction) (w : World) :
    List CoordsXY → Option Result
  | [] => none
  | p :: rest =>
    if (env.MapCanConstructAt w ⟨p.x, p.y, a.loc.z, a.loc.z + env.ParkEntranceHeight⟩
        (0b1111, 0)).Error ≠ Status.Ok then
      some { Result.err .NoClearance (some .STR_CANT_BUILD_PARK_ENTRANCE_HERE)
              (env.MapCanConstructAt w ⟨p.x, p.y, a.loc.z, a.loc.z + env.ParkEntranceHeight⟩
                (0b1111, 0)).ErrorMessage with
              ErrorMessageArgs :=
                (env.MapCanConstructAt w ⟨p.x, p.y, a.loc.z, a.loc.z + env.ParkEntranceHeight⟩
                  (0b1111, 0)).ErrorMessageArgs }
    else if (map_get_park_entrance_element_at env w ⟨p.x, p.y, a.loc.z⟩ false).isSome then
      some (Result.err .ItemAlreadyPlaced (some .STR_CANT_BUILD_PARK_ENTRANCE_HERE) .STR_NONE)
    else PlaceParkEntranceAction.checkTiles env a w rest

/-- Application to a list of tiles in the words of the specification: the
entrance part with the given sequence index is written to each tile in turn. -/
def PlaceParkEntranceAction.writeTiles (env : Env) (a : PlaceParkEntranceAction) :
    List (Nat × CoordsXY) → World → Option World
  | [], w => some w
  | ip :: rest, w =>
    match PlaceParkEntranceAction.ExecuteBody env a ip.1 ip.2 w with
    | none => none
    | some w1 => PlaceParkEntranceAction.writeTiles env a rest w1

/-- What an entrance element placed by the command with sequence index `index`
holds, in stored units: heights in 8-bit height units, the direction on two bits. -/
def PlaceParkEntranceAction.isPlacedElement (env : Env) (a : PlaceParkEntranceAction)
    (index : Nat) (e : TileElement) : Prop :=
  e.type = TileElementType.Entrance
    ∧ e.base_height = (a.loc.z.tdiv env.COORDS_Z_STEP) % 256
    ∧ e.clearance_height = ((a.loc.z + env.ParkEntranceHeight).tdiv env.COORDS_Z_STEP) % 256
    ∧ e.direction = a.loc.direction % 4
    ∧ e.entranceType = env.ENTRANCE_TYPE_PARK_ENTRANCE
    ∧ e.sequenceIndex = index
    ∧ e.ghost = hasGhostFlag env a.flags

/-- Between `w` and `w1` exactly one element was added, on the tile of `p`: the
tile holds one placed entrance element with sequence index `index` and, around
it, the elements it held after lines 135-142, in order and with what they held;
every other tile is as in `w`. -/
def PlaceParkEntranceAction.InsertsAt (env : Env) (a : PlaceParkEntranceAction) (index : Nat)
    (p : CoordsXY) (w w1 : World) : Prop :=
  ∃ es es1 i e,
    (PlaceParkEntranceAction.disown env a p w).tiles (tileOf env p) = some es
      ∧ w1.tiles (tileOf env p) = some es1
      ∧ es1[i]? = some e
      ∧ PlaceParkEntranceAction.isPlacedElement env a index e
      ∧ (es1.eraseIdx i).map TileElement.content = es.map TileElement.content
      ∧ ∀ t, t ≠ tileOf env p → w1.tiles t = w.tiles t

/-- One step of a session of park entrance commands: a command is validated by
Query on the current state; when Query does not return Ok nothing more happens,
and only when it returns Ok is the command applied by Execute, to that state
or to the state Query left. -/
inductive PlaceParkEntranceAction.Step (env : Env) : World → World → Prop
  | rejected (a : PlaceParkEntranceAction) (w : World) :
      (PlaceParkEntranceAction.Query env a w).1.Error ≠ Status.Ok →
      PlaceParkEntranceAction.Step env w (PlaceParkEntranceAction.Query env a w).2
  | applied (a : PlaceParkEntranceAction) (w w1 : World) (r : Result) (w2 : World) :
      (PlaceParkEntranceAction.Query env a w).1.Error = Status.Ok →
      (w1 = w ∨ w1 = (PlaceParkEntranceAction.Query env a w).2) →
      PlaceParkEntranceAction.Execute env a w1 = some (r, w2) →
      PlaceParkEntranceAction.Step env w w2

/-- The four conditions of `GetFirstWallElementAt` on an element, as a proposition. -/
def WallRemoveAction.matchesWall (env : Env) (location : CoordsXYZD) (isGhost : Bool)
    (e : TileElement) : Prop :=
  e.type = TileElementType.Wall ∧ GetBaseZ env e = location.z
    ∧ e.direction = location.direction ∧ e.ghost = isGhost

/-- The change that a track type fix makes to one element, in the words of the
specification: a track element of type `fromTrackType` gets type
`destinationTrackType`, any other element stays as it is. -/
def trackTypeFixed (fromTrackType destinationTrackType : Nat) (e : TileElement) : TileElement :=
  if e.type = TileElementType.Track ∧ e.trackType = fromTrackType then
    { e with trackType := destinationTrackType }
  else e

/-- The JSON array `[x, y]` for a tile coordinate. -/
def coordinatesPairOf (t : TilePos) : json_t := .arr [.num t.1, .num t.2]

/-! ## Sample data -/

/-- A sample environment: the upstream values of the constants, a capacity check
that always finds room and changes nothing, a clearance check that always
succeeds, and collaborators that leave the modelled state alone. -/
def sampleEnv : Env :=
  { SCREEN_FLAGS_EDITOR := 14, SCREEN_FLAGS_SCENARIO_EDITOR := 2,
    GAME_COMMAND_FLAG_APPLY := 1, GAME_COMMAND_FLAG_GHOST := 64,
    MAX_PARK_ENTRANCES := 4, ParkEntranceHeight := 96, COORDS_XY_STEP := 32, COORDS_Z_STEP := 8,
    CoordsDirectionDelta := fun i =>
      match i with
      | 0 => ⟨-32, 0⟩ | 1 => ⟨0, 32⟩ | 2 => ⟨32, 0⟩ | 3 => ⟨0, -32⟩
      | 4 => ⟨-32, 32⟩ | 5 => ⟨32, 32⟩ | 6 => ⟨32, -32⟩ | _ => ⟨-32, -32⟩,
    ENTRANCE_TYPE_PARK_ENTRANCE := 2, OWNERSHIP_UNOWNED := 0,
    MAP_ANIMATION_TYPE_PARK_ENTRANCE := 8,
    RIDE_LIFECYCLE_BROKEN_DOWN := 128, RIDE_LIFECYCLE_REVERSED_TRAINS := 262144,
    RIDE_TYPE_COUNT := 100, RIDE_TYPE_MINI_GOLF := 71,
    rideTypeIsFlatRide := fun _ => false, rideTypeIsMaze := fun t => t == 20,
    LocationValid := fun w c => decide (0 ≤ c.x ∧ c.x < w.gMapSizeUnits ∧ 0 ≤ c.y ∧ c.y < w.gMapSizeUnits),
    map_check_free_elements_and_reorganise := fun _ w => (true, w),
    MapCanConstructAt := fun _ _ _ => Result.ok,
    map_is_location_owned := fun _ _ => true,
    footpath_connect_edges := fun _ _ _ w => w,
    update_park_fences := fun _ w => w,
    map_invalidate_tile := fun _ w => w,
    map_invalidate_tile_zoom1 := fun _ w => w,
    map_animation_create := fun _ _ w => w,
    tile_element_remove_banner_entry := fun _ w => w,
    tile_element_height := fun _ _ => 0,
    RideClearForConstruction := fun r w => (r, w),
    RemovePeeps := fun r w => (r, w),
    InvalidateTestResults := fun r w => (r, w),
    RideSetVehicleColoursToRandomPreset := fun r _ w => (r, w),
    UpdateMaxVehicles := fun r w => (r, w),
    TileElementHeight := fun _ _ => 0,
    ContextBroadcastIntent := fun _ w => w,
    GfxInvalidateScreen := fun w => w,
    GameActionSerialise := fun ds flags =>
      match DataSerialiser.field ds "_networkId" 4 0 with
      | none => none
      | some (ds1, _) =>
        match DataSerialiser.field ds1 "_flags" 4 flags with
        | none => none
        | some (ds2, fl) =>
          match DataSerialiser.field ds2 "_playerId" 4 0 with
          | none => none
          | some (ds3, _) => some (ds3, fl),
    GameActionGetActionFlags := fun flags => if flags &&& 64 != 0 then 2 else 0,
    FlagsAllowWhilePaused := 1, FlagsEditorOnly := 4,
    TrackElemTypeFlat := 0, TrackElemTypeFlatCovered := 68 }

/-- A surface element at height 14, owned by the park. -/
def sampleSurface : TileElement :=
  { type := .Surface, base_height := 14, clearance_height := 14, direction := 0, ghost := false,
    lastForTile := true, occupiedQuadrants := 15, ownership := 32, entranceType := 0,
    sequenceIndex := 0, pathType := 0, trackType := 0 }

/-- A sample world in play mode (no editor screen flag, no sandbox cheat): a
10 x 10 tile map, each tile holding one surface element, no rides. -/
def sampleWorld : World :=
  { gScreenFlags := 0, gCheatsSandboxMode := false, gMapSizeUnits := 320, gParkEntrances := [],
    gFootpathSelectedId := 0,
    tiles := fun p => if 0 ≤ p.1 ∧ p.1 < 10 ∧ 0 ≤ p.2 ∧ p.2 < 10 then some [sampleSurface] else none,
    gNextFreeTileElement := 100,
    rides := fun _ => none, rideEntries := fun _ => none, rideEntriesOfType := fun _ => [],
    rideEntryInvented := fun _ => false,
    cheatDisableTrainLengthLimit := false, cheatShowVehiclesFromOtherTrackTypes := false,
    cheatIgnoreResearchStatus := false }

/-- The sample world opened in the scenario editor. -/
def sampleEditorWorld : World := { sampleWorld with gScreenFlags := 2 }

/-- A non-ghost park entrance in the middle of the sample map, facing direction 0. -/
def sampleEntrance : PlaceParkEntranceAction := ⟨⟨160, 160, 112, 0⟩, 0⟩

/-- The same park entrance as a ghost (preview) command. -/
def ghostEntrance : PlaceParkEntranceAction := ⟨⟨160, 160, 112, 0⟩, 64⟩

/-- Validate, then apply to the state validation left; the state is kept when the
command is rejected or the application fails. -/
def PlaceParkEntranceAction.run (env : Env) (a : PlaceParkEntranceAction) (w : World) : World :=
  if (PlaceParkEntranceAction.Query env a w).1.Error = Status.Ok then
    match PlaceParkEntranceAction.Execute env a (PlaceParkEntranceAction.Query env a w).2 with
    | some r => r.2
    | none => w
  else w

/-- The sample editor world after three park entrances have been placed along
the row y = 96, at x = 64, 128 and 224. -/
def sampleParkWorld : World :=
  PlaceParkEntranceAction.run sampleEnv ⟨⟨224, 96, 112, 0⟩, 0⟩
    (PlaceParkEntranceAction.run sampleEnv ⟨⟨128, 96, 112, 0⟩, 0⟩
      (PlaceParkEntranceAction.run sampleEnv ⟨⟨64, 96, 112, 0⟩, 0⟩ sampleEditorWorld))

/-- The sample environment with a capacity check that reorganises: when the next
free slot leaves no room for `n` more elements the tile element array is
compacted, which moves the next free slot down to the number of elements in
use (100 on the sample map). -/
def reorganisingEnv : Env :=
  { sampleEnv with
    map_check_free_elements_and_reorganise := fun n w =>
      if w.gNextFreeTileElement + n ≤ MAX_TILE_ELEMENTS then (true, w)
      else (decide (100 + n ≤ MAX_TILE_ELEMENTS), { w with gNextFreeTileElement := 100 }) }

/-- The sample editor world with a fragmented tile element array: the next free
slot is two short of the end although only 100 elements are in use. -/
def fragmentedWorld : World :=
  { sampleEditorWorld with gNextFreeTileElement := MAX_TILE_ELEMENTS - 2 }

/-- A closed sample ride of type 1 using ride entry 0. -/
def sampleRide : Ride :=
  { type := 1, subtype := 0, status := .Closed, lifecycle_flags := 0, vehicle_change_timeout := 0,
    ProposedNumTrains := 1, proposed_num_cars_per_train := 4, num_circuits := 1,
    overall_view := some (5, 5) }

/-- The sample world with the sample ride at index 0 and ride entry 0 loaded,
allowing 1 to 10 cars per train and offering 3 colour presets. -/
def sampleRideWorld : World :=
  { sampleWorld with
    rides := fun i => if i = 0 then some sampleRide else none
    rideEntries := fun i => if i = 0 then some ⟨1, 10, 3⟩ else none
    rideEntriesOfType := fun t => if t = 1 then [0] else []
    rideEntryInvented := fun i => i == 0 }

/-- The sample ride world with no ride entry loaded: the ride's vehicle object is missing. -/
def orphanRideWorld : World := { sampleRideWorld with rideEntries := fun _ => none }

/-- A wall element at height 14 on edge 1 of its tile. -/
def sampleWall (ghost last : Bool) : TileElement :=
  { type := .Wall, base_height := 14, clearance_height := 18, direction := 1, ghost := ghost,
    lastForTile := last, occupiedQuadrants := 0, ownership := 0, entranceType := 0,
    sequenceIndex := 0, pathType := 0, trackType := 0 }

/-- The sample world with, on tile (2, 2), a real wall and above it a ghost wall
on the same edge at the same height. -/
def sampleWallWorld : World :=
  { sampleWorld with
    tiles := fun p =>
      if p = (2, 2) then
        some [{ sampleSurface with lastForTile := false }, sampleWall false false, sampleWall true true]
      else sampleWorld.tiles p }

/-- The sample environment on land that the park does not own. -/
def unownedEnv : Env := { sampleEnv with map_is_location_owned := fun _ _ => false }

/-- Removal of the real wall of tile (2, 2). -/
def sampleWallRemove : WallRemoveAction := ⟨⟨64, 64, 112, 1⟩, 0⟩

/-- The sample ride, broken down. -/
def brokenRideWorld : World :=
  { sampleRideWorld with
    rides := fun i => if i = 0 then some { sampleRide with lifecycle_flags := 128 } else none }

/-- The sample ride, open. -/
def openRideWorld : World :=
  { sampleRideWorld with
    rides := fun i => if i = 0 then some { sampleRide with status := .Open } else none }

/-- The sample ride world with a ride entry 0 that offers no colour preset. -/
def noPresetRideWorld : World :=
  { sampleRideWorld with rideEntries := fun i => if i = 0 then some ⟨1, 10, 0⟩ else none }

/-- The sample ride world with the ShowVehiclesFromOtherTrackTypes cheat on and
ride entry 7 listed for ride type 2, not invented. -/
def expandedRideWorld : World :=
  { sampleRideWorld with
    cheatShowVehiclesFromOtherTrackTypes := true
    rideEntriesOfType := fun t => if t = 1 then [0] else if t = 2 then [7] else [] }

/-- A track element at height 14 of the given track type. -/
def sampleTrack (trackType : Nat) (last : Bool) : TileElement :=
  { type := .Track, base_height := 14, clearance_height := 18, direction := 0, ghost := false,
    lastForTile := last, occupiedQuadrants := 15, ownership := 0, entranceType := 0,
    sequenceIndex := 0, pathType := 0, trackType := trackType }

/-- The sample world with, on tile (3, 3), a flat track piece, a track piece of
type 5 and a wall. -/
def sampleTrackWorld : World :=
  { sampleWorld with
    tiles := fun p =>
      if p = (3, 3) then
        some [{ sampleSurface with lastForTile := false }, sampleTrack 0 false, sampleTrack 5 false,
          sampleWall false true]
      else sampleWorld.tiles p }

/-- The operation that turns flat track into covered flat track on tile (3, 3). -/
def sampleOperation : json_t :=
  .obj [("from", .str "flat"), ("to", .str "flat_covered"),
    ("coordinates", .arr [coordinatesPairOf (3, 3)])]

/-- A sample import environment: version value 2 for TD6, operation settings up
to 100, no elements read, ride types kept. -/
def sampleImportEnv : ImportEnv :=
  { TrackDesignVersionTD6 := 2, OperatingSettingsMaxValue := fun _ => 100,
    readElements := fun _ _ => some [], UpdateRideType := fun t _ => t }

/-- A sample TD6 header: version 2, lift hill speed 5 and 3 circuits packed as 101. -/
def sampleTD6 : TD6Track :=
  { RideType := 1, VehicleType := 0, RideMode := 0, VersionAndColourScheme := 8, DepartFlags := 0,
    NumberOfTrains := 1, NumberOfCarsPerTrain := 4, MinWaitingTime := 10, MaxWaitingTime := 60,
    OperationSetting := 20, LiftHillSpeedNumCircuits := 101 }

/-! # Lemmas -/

/-! ## Tile sequences: scanning, inserting, modifying -/

theorem foundInTile_nil (p : TileElement → Bool) : foundInTile p [] = none := rfl

theorem foundInTile_cons (p : TileElement → Bool) (e : TileElement) (es : List TileElement) :
    foundInTile p (e :: es)
      = if p e then some e else if e.lastForTile then none else foundInTile p es := by
  unfold foundInTile
  simp only [scanTile]
  by_cases h1 : p e = true
  · simp [h1]
  · by_cases h2 : e.lastForTile = true
    · simp [h1, h2]
    · simp only [h1, h2, if_false, Bool.false_eq_true]
      cases scanTile p es <;> simp

theorem scanTile_isSome_iff (p : TileElement → Bool) (es : List TileElement) :
    (scanTile p es).isSome = (foundInTile p es).isSome := by
  induction es with
  | nil => rfl
  | cons e es ih =>
    rw [foundInTile_cons]
    simp only [scanTile]
    by_cases h1 : p e = true
    · simp [h1]
    · by_cases h2 : e.lastForTile = true
      · simp [h1, h2]
      · simp [h1, h2, ih]

/-- A write that changes neither the scan test nor the last-for-tile mark leaves the scan alone. -/
theorem scanTile_modify (p : TileElement → Bool) (f : TileElement → TileElement)
    (hp : ∀ e, p (f e) = p e) (hl : ∀ e, (f e).lastForTile = e.lastForTile)
    (es : List TileElement) (j : Nat) : scanTile p (es.modify f j) = scanTile p es := by
  induction es generalizing j with
  | nil => cases j <;> rfl
  | cons e es ih =>
    cases j with
    | zero => simp [scanTile, hp, hl]
    | succ j =>
      rw [List.modify_succ_cons]
      simp only [scanTile, ih]

/-- Writing through the pointer returned by the scan: the element found afterwards is the written one. -/
theorem foundInTile_modify_found (p : TileElement → Bool) (f : TileElement → TileElement)
    (hp : ∀ e, p (f e) = p e)
    (es : List TileElement) (j : Nat) (hj : scanTile p es = some j) :
    foundInTile p (es.modify f j) = (foundInTile p es).map f := by
  induction es generalizing j with
  | nil => simp [scanTile] at hj
  | cons e es ih =>
    simp only [scanTile] at hj
    by_cases h1 : p e = true
    · simp only [h1, if_true, Option.some.injEq] at hj
      subst hj
      simp [foundInTile_cons, hp, h1]
    · by_cases h2 : e.lastForTile = true
      · simp [h1, h2] at hj
      · simp only [h1, h2, if_false, Bool.false_eq_true] at hj
        cases hs : scanTile p es with
        | none => simp [hs] at hj
        | some k =>
          simp only [hs, Option.map_some', Option.some.injEq] at hj
          subst hj
          simp [List.modify_succ_cons, foundInTile_cons, h1, h2, ih k hs]

/-- The index returned by the insertion loop does not depend on the element inserted. -/
theorem insertIntoTile_fst (step z : Int) (mk mk2 : Bool → TileElement) (es : List TileElement) :
    (insertIntoTile step z mk es).1 = (insertIntoTile step z mk2 es).1 := by
  induction es with
  | nil => rfl
  | cons e es ih =>
    simp only [insertIntoTile]
    split_ifs <;> simp [ih]

/-- Filling in the new element through the returned pointer is the same as inserting it filled in. -/
theorem insertIntoTile_modify (step z : Int) (mk : Bool → TileElement)
    (f : TileElement → TileElement) (es : List TileElement) :
    (insertIntoTile step z mk es).2.modify f (insertIntoTile step z mk es).1
      = (insertIntoTile step z (fun b => f (mk b)) es).2 := by
  induction es with
  | nil => simp [insertIntoTile]
  | cons e es ih =>
    simp only [insertIntoTile]
    split_ifs
    · simp [List.modify_succ_cons]
    · simp only [List.modify_succ_cons, ih]
    · simp

/-- Inserting an element that fails the scan test does not change what the scan finds,
up to the last-for-tile mark. -/
theorem foundInTile_insert_other {β : Type} (p : TileElement → Bool) (g : TileElement → β)
    (step z : Int) (mk : Bool → TileElement)
    (hp : ∀ e, p { e with lastForTile := false } = p e)
    (hg : ∀ e, g { e with lastForTile := false } = g e)
    (hmk : ∀ b, p (mk b) = false) (hlast : ∀ b, (mk b).lastForTile = b)
    (es : List TileElement) :
    (foundInTile p (insertIntoTile step z mk es).2).map g = (foundInTile p es).map g := by
  induction es with
  | nil => simp [insertIntoTile, foundInTile_cons, foundInTile_nil, hmk, hlast]
  | cons e es ih =>
    simp only [insertIntoTile]
    split_ifs with h1 h2
    · by_cases hpe : p e = true
      · simp [foundInTile_cons, hp, hpe, hg]
      · simp [foundInTile_cons, hp, hpe, hmk, hlast, h2]
    · by_cases hpe : p e = true
      · simp [foundInTile_cons, hpe]
      · simp [foundInTile_cons, hpe, h2, ih]
    · simp [foundInTile_cons, hmk, hlast]

/-- After inserting an element that passes the scan test, the scan finds something. -/
theorem scanTile_insert_new (q : TileElement → Bool) (step z : Int) (mk : Bool → TileElement)
    (hmk : ∀ b, q (mk b) = true) (es : List TileElement) :
    (scanTile q (insertIntoTile step z mk es).2).isSome = true := by
  induction es with
  | nil => simp [insertIntoTile, scanTile, hmk]
  | cons e es ih =>
    simp only [insertIntoTile]
    split_ifs with h1 h2
    · by_cases hqe : q { e with lastForTile := false } = true
      · simp [scanTile, hqe]
      · simp [scanTile, hqe, hmk]
    · by_cases hqe : q e = true
      · simp [scanTile, hqe]
      · simp only [scanTile, hqe, h2, if_false, Bool.false_eq_true]
        simpa using ih
    · simp [scanTile, hmk]

/-- An element the scan finds is still found after an insertion. -/
theorem scanTile_insert_mono (q : TileElement → Bool) (step z : Int) (mk : Bool → TileElement)
    (hq : ∀ e, q { e with lastForTile := false } = q e) (hlast : ∀ b, (mk b).lastForTile = b)
    (es : List TileElement) (h : (scanTile q es).isSome = true) :
    (scanTile q (insertIntoTile step z mk es).2).isSome = true := by
  induction es with
  | nil => simp [scanTile] at h
  | cons e es ih =>
    simp only [insertIntoTile]
    split_ifs with h1 h2
    · have hqe : q e = true := by
        by_contra hne
        simp [scanTile, hne, h2] at h
      simp [scanTile, hq, hqe]
    · by_cases hqe : q e = true
      · simp [scanTile, hqe]
      · simp only [scanTile, hqe, h2, if_false, Bool.false_eq_true] at h ⊢
        have h3 : (scanTile q es).isSome = true := by simpa using h
        simpa using ih h3
    · by_cases hqm : q (mk false) = true
      · simp [scanTile, hqm]
      · simp only [scanTile, hqm, hlast, if_false, Bool.false_eq_true]
        simpa using h

/-! ## World-level facts about the tile primitives -/

theorem surfaceOwnership_eq (env : Env) (w : World) (c : CoordsXY) :
    surfaceOwnership env w c
      = ((w.tiles (tileOf env c)).bind (foundInTile isSurface)).map (fun e => e.ownership) := by
  unfold surfaceOwnership map_get_surface_element_at map_get_first_element_at elemAt foundInTile
  cases h : w.tiles (tileOf env c) with
  | none => simp
  | some es =>
    cases h2 : scanTile isSurface es with
    | none => simp [h2]
    | some i => simp [h2, h]

theorem hasParkEntrance_eq (env : Env) (w : World) (c : CoordsXYZ) (g : Bool) :
    hasParkEntrance env w c g
      = ((w.tiles (tileOf env ⟨c.x, c.y⟩)).bind (scanTile (isParkEntranceAt env c.z g))).isSome := by
  unfold hasParkEntrance map_get_park_entrance_element_at map_get_first_element_at
  cases h : w.tiles (tileOf env ⟨c.x, c.y⟩) with
  | none => simp
  | some es => cases h2 : scanTile (isParkEntranceAt env c.z g) es <;> simp [h2]

/-- What `tile_element_insert` followed by writes `f` through the returned pointer does to the state. -/
theorem tile_element_insert_fill (env : Env) (loc : CoordsXYZ) (q : Nat) (w : World)
    (ref : ElemRef) (w2 : World) (f : TileElement → TileElement)
    (h : tile_element_insert env loc q w = some (ref, w2)) :
    ∃ es, (env.map_check_free_elements_and_reorganise 1 w).2.tiles (tileOf env ⟨loc.x, loc.y⟩) = some es
      ∧ (modifyElem ref f w2).tiles
          = Function.update (env.map_check_free_elements_and_reorganise 1 w).2.tiles
              (tileOf env ⟨loc.x, loc.y⟩)
              (some (insertIntoTile env.COORDS_Z_STEP loc.z
                (fun b => f (blankElement (loc.z.tdiv env.COORDS_Z_STEP) q b)) es).2)
      ∧ (modifyElem ref f w2).gParkEntrances
          = (env.map_check_free_elements_and_reorganise 1 w).2.gParkEntrances
      ∧ w2.gFootpathSelectedId
          = (env.map_check_free_elements_and_reorganise 1 w).2.gFootpathSelectedId := by
  unfold tile_element_insert at h
  by_cases hc : (env.map_check_free_elements_and_reorganise 1 w).1 = false
  · simp [hc] at h
  · simp only [hc, if_false] at h
    cases ht : (env.map_check_free_elements_and_reorganise 1 w).2.tiles (tileOf env ⟨loc.x, loc.y⟩) with
    | none => simp [ht] at h
    | some es =>
      simp only [ht, Option.some.injEq, Prod.mk.injEq] at h
      obtain ⟨h1, h2⟩ := h
      refine ⟨es, rfl, ?_, rfl, rfl⟩
      simp only [modifyElem, Function.update_same, Option.map_some', Function.update_idem]
      rw [insertIntoTile_modify]

/-! ## One iteration of Execute -/

/-- The collaborators called after the element is filled in do not change an
observation they are assumed to keep. -/
theorem PlaceParkEntranceAction.ExecuteBody_obs {α : Type} (env : Env)
    (a : PlaceParkEntranceAction) (index : Nat) (p : CoordsXY) (w w1 : World) (obs : World → α)
    (hk : PlaceEffectsKeep env obs)
    (hf : hasGhostFlag env a.flags = false → FootpathConnectKeeps env obs)
    (h : PlaceParkEntranceAction.ExecuteBody env a index p w = some w1) :
    ∃ ref w2,
      tile_element_insert env ⟨p.x, p.y, a.loc.z⟩ 15 (PlaceParkEntranceAction.disown env a p w)
          = some (ref, w2)
        ∧ obs w1 = obs (modifyElem ref
            (PlaceParkEntranceAction.fillElement env a index w2.gFootpathSelectedId) w2) := by
  unfold PlaceParkEntranceAction.ExecuteBody at h
  obtain ⟨hchk, hfence, hinv, hanim⟩ := hk
  cases hins : tile_element_insert env ⟨p.x, p.y, a.loc.z⟩ 15
      (PlaceParkEntranceAction.disown env a p w) with
  | none => simp [hins] at h
  | some rw2 =>
    obtain ⟨ref, w2⟩ := rw2
    refine ⟨ref, w2, rfl, ?_⟩
    simp only [hins] at h
    have hfp : ∀ w3 : World,
        obs (if hasGhostFlag env a.flags = false then
              env.footpath_connect_edges p ref env.GAME_COMMAND_FLAG_APPLY w3 else w3) = obs w3 := by
      intro w3
      by_cases hg : hasGhostFlag env a.flags = false
      · rw [if_pos hg]
        exact hf hg p ref _ w3
      · rw [if_neg hg]
    have hfn : ∀ w3 : World, obs (PlaceParkEntranceAction.updateFences env p w3) = obs w3 := by
      intro w3
      simp only [PlaceParkEntranceAction.updateFences, hfence]
    by_cases hi : index = 0
    · simp only [hi, if_true, Option.some.injEq] at h
      rw [← h, hanim, hinv, hfn, hfp, hi]
    · simp only [hi, if_false, Option.some.injEq] at h
      rw [← h, hinv, hfn, hfp]

theorem isSurface_fillElement (env : Env) (a : PlaceParkEntranceAction) (index pathType : Nat)
    (e : TileElement) : isSurface (PlaceParkEntranceAction.fillElement env a index pathType e) = false := by
  unfold PlaceParkEntranceAction.fillElement isSurface
  by_cases hg : hasGhostFlag env a.flags = true <;>
    simp [hg, SetType, SetClearanceZ, SetGhost, SetDirection, SetSequenceIndex, SetEntranceType,
      SetPathType]

theorem lastForTile_fillElement (env : Env) (a : PlaceParkEntranceAction) (index pathType : Nat)
    (e : TileElement) :
    (PlaceParkEntranceAction.fillElement env a index pathType e).lastForTile = e.lastForTile := by
  unfold PlaceParkEntranceAction.fillElement
  by_cases hg : hasGhostFlag env a.flags = true <;>
    simp [hg, SetType, SetClearanceZ, SetGhost, SetDirection, SetSequenceIndex, SetEntranceType,
      SetPathType]

/-- The element written by a non-ghost action passes the park entrance test at its own height. -/
theorem isParkEntranceAt_fillElement (env : Env) (a : PlaceParkEntranceAction)
    (index pathType quadrants : Nat) (z : Int) (g b : Bool)
    (hz : z.tdiv env.COORDS_Z_STEP = (a.loc.z.tdiv env.COORDS_Z_STEP) % 256)
    (hg : hasGhostFlag env a.flags = false) :
    isParkEntranceAt env z g (PlaceParkEntranceAction.fillElement env a index pathType
      (blankElement (a.loc.z.tdiv env.COORDS_Z_STEP) quadrants b)) = true := by
  unfold PlaceParkEntranceAction.fillElement isParkEntranceAt
  simp [hg, hz, SetType, SetClearanceZ, SetGhost, SetDirection, SetSequenceIndex, SetEntranceType,
    SetPathType, blankElement]

theorem map_get_surface_element_at_eq (env : Env) (w : World) (p : CoordsXY) :
    map_get_surface_element_at env w p
      = ((w.tiles (tileOf env p)).bind (scanTile isSurface)).map (fun i => (tileOf env p, i)) := by
  unfold map_get_surface_element_at map_get_first_element_at
  cases w.tiles (tileOf env p) <;> rfl

/-- Effect of lines 135-142 on the surface ownership seen at any coordinate. -/
theorem PlaceParkEntranceAction.disown_surfaceOwnership (env : Env) (a : PlaceParkEntranceAction)
    (p : CoordsXY) (w : World) (c : CoordsXY) :
    surfaceOwnership env (PlaceParkEntranceAction.disown env a p w) c
      = if hasGhostFlag env a.flags = false ∧ tileOf env c = tileOf env p then
          (surfaceOwnership env w c).map (fun _ => env.OWNERSHIP_UNOWNED)
        else surfaceOwnership env w c := by
  unfold PlaceParkEntranceAction.disown
  by_cases hg : hasGhostFlag env a.flags = false
  · simp only [hg, if_true, true_and]
    rw [map_get_surface_element_at_eq]
    cases ht : w.tiles (tileOf env p) with
    | none =>
      by_cases hc : tileOf env c = tileOf env p
      · simp [hc, surfaceOwnership_eq, ht]
      · simp [hc]
    | some es =>
      cases hs : scanTile isSurface es with
      | none =>
        simp only [Option.some_bind, hs, Option.map_none']
        by_cases hc : tileOf env c = tileOf env p
        · have hnone : foundInTile isSurface es = none := by
            simp [foundInTile, hs]
          simp [hc, surfaceOwnership_eq, ht, hnone]
        · simp [hc]
      | some j =>
        simp only [Option.some_bind, hs, Option.map_some']
        by_cases hc : tileOf env c = tileOf env p
        · rw [if_pos hc, surfaceOwnership_eq, surfaceOwnership_eq]
          simp only [modifyElem]
          rw [hc, Function.update_same, ht]
          simp only [Option.map_some', Option.some_bind]
          rw [foundInTile_modify_found isSurface (SetOwnership env.OWNERSHIP_UNOWNED)
            (fun e => rfl) es j hs]
          cases foundInTile isSurface es <;> simp [SetOwnership]
        · simp [hc, surfaceOwnership_eq, modifyElem, Function.update_noteq hc]
  · simp [hg]

/-- Lines 135-142 do not change which park entrance elements are found. -/
theorem PlaceParkEntranceAction.disown_hasParkEntrance (env : Env) (a : PlaceParkEntranceAction)
    (p : CoordsXY) (w : World) (c : CoordsXYZ) (g : Bool) :
    hasParkEntrance env (PlaceParkEntranceAction.disown env a p w) c g = hasParkEntrance env w c g := by
  unfold PlaceParkEntranceAction.disown
  by_cases hg : hasGhostFlag env a.flags = false
  · simp only [hg, if_true]
    cases hs : map_get_surface_element_at env w p with
    | none => rfl
    | some r =>
      simp only [hasParkEntrance_eq, modifyElem]
      by_cases hc : tileOf env ⟨c.x, c.y⟩ = r.1
      · rw [hc, Function.update_same]
        cases ht : w.tiles r.1 with
        | none => rfl
        | some es =>
          simp only [Option.map_some', Option.some_bind]
          rw [scanTile_modify (isParkEntranceAt env c.z g) (SetOwnership env.OWNERSHIP_UNOWNED)
            (fun e => rfl) (fun e => rfl)]
      · rw [Function.update_noteq hc]
  · simp [hg]

/-- Effect of one iteration of Execute on the surface ownership seen at any coordinate. -/
theorem PlaceParkEntranceAction.ExecuteBody_surfaceOwnership (env : Env)
    (a : PlaceParkEntranceAction) (index : Nat) (p : CoordsXY) (w w1 : World)
    (hk : PlaceEffectsKeep env (surfaceOwnership env))
    (hf : hasGhostFlag env a.flags = false → FootpathConnectKeeps env (surfaceOwnership env))
    (h : PlaceParkEntranceAction.ExecuteBody env a index p w = some w1) (c : CoordsXY) :
    surfaceOwnership env w1 c
      = if hasGhostFlag env a.flags = false ∧ tileOf env c = tileOf env p then
          (surfaceOwnership env w c).map (fun _ => env.OWNERSHIP_UNOWNED)
        else surfaceOwnership env w c := by
  obtain ⟨ref, w2, hins, hobs⟩ :=
    PlaceParkEntranceAction.ExecuteBody_obs env a index p w w1 (surfaceOwnership env) hk hf h
  obtain ⟨es, hes, htiles, -, -⟩ := tile_element_insert_fill env _ _ _ ref w2
    (PlaceParkEntranceAction.fillElement env a index w2.gFootpathSelectedId) hins
  have e1 := congrFun hobs c
  have e2 := congrFun (hk.1 1 (PlaceParkEntranceAction.disown env a p w)) c
  rw [← PlaceParkEntranceAction.disown_surfaceOwnership, e1, ← e2]
  rw [surfaceOwnership_eq, surfaceOwnership_eq, htiles]
  by_cases hc : tileOf env c = tileOf env p
  · have hp : tileOf env (⟨p.x, p.y⟩ : CoordsXY) = tileOf env p := rfl
    rw [hp] at hes ⊢
    rw [hc, Function.update_same, hes]
    simp only [Option.some_bind]
    exact foundInTile_insert_other isSurface (fun e => e.ownership) _ _ _ (fun e => rfl)
      (fun e => rfl) (fun b => isSurface_fillElement env a index _ _)
      (fun b => lastForTile_fillElement env a index _ _) es
  · have hp : tileOf env (⟨p.x, p.y⟩ : CoordsXY) = tileOf env p := rfl
    rw [hp, Function.update_noteq hc]

/-- One iteration of Execute keeps every park entrance element that was found before. -/
theorem PlaceParkEntranceAction.ExecuteBody_hasParkEntrance_mono (env : Env)
    (a : PlaceParkEntranceAction) (index : Nat) (p : CoordsXY) (w w1 : World)
    (hk : PlaceEffectsKeep env (hasParkEntrance env))
    (hf : hasGhostFlag env a.flags = false → FootpathConnectKeeps env (hasParkEntrance env))
    (h : PlaceParkEntranceAction.ExecuteBody env a index p w = some w1) (c : CoordsXYZ) (g : Bool)
    (hc : hasParkEntrance env w c g = true) : hasParkEntrance env w1 c g = true := by
  obtain ⟨ref, w2, hins, hobs⟩ :=
    PlaceParkEntranceAction.ExecuteBody_obs env a index p w w1 (hasParkEntrance env) hk hf h
  obtain ⟨es, hes, htiles, -, -⟩ := tile_element_insert_fill env _ _ _ ref w2
    (PlaceParkEntranceAction.fillElement env a index w2.gFootpathSelectedId) hins
  have e2 := congrFun (congrFun (hk.1 1 (PlaceParkEntranceAction.disown env a p w)) c) g
  rw [← PlaceParkEntranceAction.disown_hasParkEntrance env a p, ← e2] at hc
  rw [congrFun (congrFun hobs c) g, hasParkEntrance_eq, htiles]
  rw [hasParkEntrance_eq] at hc
  have hp : tileOf env (⟨p.x, p.y⟩ : CoordsXY) = tileOf env p := rfl
  rw [hp] at hes ⊢
  by_cases ht : tileOf env ⟨c.x, c.y⟩ = tileOf env p
  · rw [ht, Function.update_same]
    rw [ht, hes] at hc
    simp only [Option.some_bind] at hc ⊢
    exact scanTile_insert_mono (isParkEntranceAt env c.z g) _ _ _ (fun e => rfl)
      (fun b => lastForTile_fillElement env a index _ _) es hc
  · rw [Function.update_noteq ht]
    exact hc

/-- One iteration of a non-ghost Execute leaves a park entrance element at its tile and height. -/
theorem PlaceParkEntranceAction.ExecuteBody_hasParkEntrance_new (env : Env)
    (a : PlaceParkEntranceAction) (index : Nat) (p : CoordsXY) (w w1 : World)
    (hk : PlaceEffectsKeep env (hasParkEntrance env))
    (hf : FootpathConnectKeeps env (hasParkEntrance env))
    (hg : hasGhostFlag env a.flags = false)
    (h : PlaceParkEntranceAction.ExecuteBody env a index p w = some w1) (c : CoordsXYZ) (g : Bool)
    (ht : tileOf env ⟨c.x, c.y⟩ = tileOf env p)
    (hz : c.z.tdiv env.COORDS_Z_STEP = (a.loc.z.tdiv env.COORDS_Z_STEP) % 256) :
    hasParkEntrance env w1 c g = true := by
  obtain ⟨ref, w2, hins, hobs⟩ :=
    PlaceParkEntranceAction.ExecuteBody_obs env a index p w w1 (hasParkEntrance env) hk
      (fun _ => hf) h
  obtain ⟨es, hes, htiles, -, -⟩ := tile_element_insert_fill env _ _ _ ref w2
    (PlaceParkEntranceAction.fillElement env a index w2.gFootpathSelectedId) hins
  rw [congrFun (congrFun hobs c) g, hasParkEntrance_eq, htiles]
  have hp : tileOf env (⟨p.x, p.y⟩ : CoordsXY) = tileOf env p := rfl
  rw [hp, ht, Function.update_same]
  simp only [Option.some_bind]
  exact scanTile_insert_new _ _ _ _
    (fun b => isParkEntranceAt_fillElement env a index _ _ c.z g b hz hg) es

/-- One iteration of Execute does not touch the list of park entrances. -/
theorem PlaceParkEntranceAction.ExecuteBody_gParkEntrances (env : Env)
    (a : PlaceParkEntranceAction) (index : Nat) (p : CoordsXY) (w w1 : World)
    (hk : PlaceEffectsKeep env (fun s => s.gParkEntrances))
    (hf : hasGhostFlag env a.flags = false → FootpathConnectKeeps env (fun s => s.gParkEntrances))
    (h : PlaceParkEntranceAction.ExecuteBody env a index p w = some w1) :
    w1.gParkEntrances = w.gParkEntrances := by
  obtain ⟨ref, w2, hins, hobs⟩ :=
    PlaceParkEntranceAction.ExecuteBody_obs env a index p w w1 (fun s => s.gParkEntrances) hk hf h
  obtain ⟨es, -, -, hpe, -⟩ := tile_element_insert_fill env _ _ _ ref w2
    (PlaceParkEntranceAction.fillElement env a index w2.gFootpathSelectedId) hins
  have h1 := hk.1 1 (PlaceParkEntranceAction.disown env a p w)
  simp only at hobs h1
  rw [hobs, hpe, h1]
  unfold PlaceParkEntranceAction.disown
  by_cases hg : hasGhostFlag env a.flags = false
  · simp only [hg, if_true]
    cases map_get_surface_element_at env w p <;> rfl
  · simp [hg]

/-- Execute is the push onto the entrance list followed by three loop iterations. -/
theorem PlaceParkEntranceAction.Execute_some (env : Env) (a : PlaceParkEntranceAction)
    (w : World) (r : Result) (w3 : World)
    (h : PlaceParkEntranceAction.Execute env a w = some (r, w3)) :
    ∃ w1 w2,
      PlaceParkEntranceAction.ExecuteBody env a 0
          (nextEntranceLoc env a.loc.direction 0 ⟨a.loc.x, a.loc.y⟩)
          { w with gParkEntrances := w.gParkEntrances ++ [a.loc] } = some w1
        ∧ PlaceParkEntranceAction.ExecuteBody env a 1
            (nextEntranceLoc env a.loc.direction 1
              (nextEntranceLoc env a.loc.direction 0 ⟨a.loc.x, a.loc.y⟩)) w1 = some w2
        ∧ PlaceParkEntranceAction.ExecuteBody env a 2
            (nextEntranceLoc env a.loc.direction 2
              (nextEntranceLoc env a.loc.direction 1
                (nextEntranceLoc env a.loc.direction 0 ⟨a.loc.x, a.loc.y⟩))) w2 = some w3
        ∧ r = { Result.ok with Expenditure := .LandPurchase,
                               Position := some ⟨a.loc.x, a.loc.y, a.loc.z⟩ } := by
  unfold PlaceParkEntranceAction.Execute at h
  simp only [PlaceParkEntranceAction.ExecuteLoop] at h
  cases h0 : PlaceParkEntranceAction.ExecuteBody env a 0
      (nextEntranceLoc env a.loc.direction 0 ⟨a.loc.x, a.loc.y⟩)
      { w with gParkEntrances := w.gParkEntrances ++ [a.loc] } with
  | none => simp [h0] at h
  | some w1 =>
    simp only [h0] at h
    cases h1 : PlaceParkEntranceAction.ExecuteBody env a 1
        (nextEntranceLoc env a.loc.direction 1
          (nextEntranceLoc env a.loc.direction 0 ⟨a.loc.x, a.loc.y⟩)) w1 with
    | none => simp [h1] at h
    | some w2 =>
      simp only [h1] at h
      cases h2 : PlaceParkEntranceAction.ExecuteBody env a 2
          (nextEntranceLoc env a.loc.direction 2
            (nextEntranceLoc env a.loc.direction 1
              (nextEntranceLoc env a.loc.direction 0 ⟨a.loc.x, a.loc.y⟩))) w2 with
      | none => simp [h2] at h
      | some w3b =>
        simp only [h2, Option.some.injEq, Prod.mk.injEq] at h
        obtain ⟨hr, hw⟩ := h
        subst hw
        exact ⟨w1, w2, rfl, h1, h2, hr.symm⟩

/-! ## The validation loop in front of an existing entrance -/

/-- When a park entrance element is found at one of the visited tiles, the loop
of Query returns early, with NoClearance or ItemAlreadyPlaced, and with
ItemAlreadyPlaced when the clearance check passes on every visited tile. -/
theorem PlaceParkEntranceAction.QueryLoop_hit (env : Env) (b : PlaceParkEntranceAction)
    (w : World) (idxs : List Nat) (p : CoordsXY)
    (h : ∃ q ∈ entranceLocs env b.loc.direction idxs p,
      hasParkEntrance env w ⟨q.x, q.y, b.loc.z⟩ false = true) :
    ∃ r, PlaceParkEntranceAction.QueryLoop env b w idxs p = some r
      ∧ (r.Error = Status.NoClearance ∨ r.Error = Status.ItemAlreadyPlaced)
      ∧ ((∀ q ∈ entranceLocs env b.loc.direction idxs p,
            (env.MapCanConstructAt w ⟨q.x, q.y, b.loc.z, b.loc.z + env.ParkEntranceHeight⟩
              (15, 0)).Error = Status.Ok) → r.Error = Status.ItemAlreadyPlaced) := by
  induction idxs generalizing p with
  | nil => simp [entranceLocs] at h
  | cons index rest ih =>
    simp only [PlaceParkEntranceAction.QueryLoop]
    by_cases hc : (env.MapCanConstructAt w
        ⟨(nextEntranceLoc env b.loc.direction index p).x,
          (nextEntranceLoc env b.loc.direction index p).y, b.loc.z,
          b.loc.z + env.ParkEntranceHeight⟩ (15, 0)).Error = Status.Ok
    · simp only [hc, ne_eq, not_true_eq_false, if_false]
      by_cases hp : (map_get_park_entrance_element_at env w
          ⟨(nextEntranceLoc env b.loc.direction index p).x,
            (nextEntranceLoc env b.loc.direction index p).y, b.loc.z⟩ false).isSome = true
      · simp [hp, Result.err]
      · simp only [hp, if_false, Bool.false_eq_true]
        have h2 : ∃ q ∈ entranceLocs env b.loc.direction rest
            (nextEntranceLoc env b.loc.direction index p),
            hasParkEntrance env w ⟨q.x, q.y, b.loc.z⟩ false = true := by
          obtain ⟨q, hq, hq2⟩ := h
          simp only [entranceLocs, List.mem_cons] at hq
          rcases hq with hq | hq
          · subst hq
            exact absurd hq2 hp
          · exact ⟨q, hq, hq2⟩
        obtain ⟨r, hr, hr1, hr2⟩ := ih _ h2
        refine ⟨r, hr, hr1, fun hall => hr2 (fun q hq => hall q ?_)⟩
        simp only [entranceLocs, List.mem_cons]
        exact Or.inr hq
    · refine ⟨_, if_pos hc, Or.inl rfl, fun hall => ?_⟩
      exact absurd (hall _ (by simp [entranceLocs])) hc

/-- After Execute of a non-ghost action a park entrance element is found on each
tile of its footprint, at the action's height. -/
theorem PlaceParkEntranceAction.Execute_hasParkEntrance (env : Env)
    (a : PlaceParkEntranceAction) (w : World) (r : Result) (w3 : World)
    (hk : PlaceEffectsKeep env (hasParkEntrance env))
    (hf : FootpathConnectKeeps env (hasParkEntrance env))
    (hg : hasGhostFlag env a.flags = false)
    (h : PlaceParkEntranceAction.Execute env a w = some (r, w3))
    (p : CoordsXY) (hp : p ∈ PlaceParkEntranceAction.footprint env a) (c : CoordsXYZ)
    (ht : tileOf env ⟨c.x, c.y⟩ = tileOf env p)
    (hz : c.z.tdiv env.COORDS_Z_STEP = (a.loc.z.tdiv env.COORDS_Z_STEP) % 256) :
    hasParkEntrance env w3 c false = true := by
  obtain ⟨w1, w2, h0, h1, h2, -⟩ := PlaceParkEntranceAction.Execute_some env a w r w3 h
  simp only [PlaceParkEntranceAction.footprint, entranceLocs, List.mem_cons, List.mem_singleton,
    List.not_mem_nil, or_false] at hp
  rcases hp with hp | hp | hp
  · subst hp
    have e0 := PlaceParkEntranceAction.ExecuteBody_hasParkEntrance_new env a 0 _ _ w1 hk hf hg h0
      c false ht hz
    have e1 := PlaceParkEntranceAction.ExecuteBody_hasParkEntrance_mono env a 1 _ w1 w2 hk
      (fun _ => hf) h1 c false e0
    exact PlaceParkEntranceAction.ExecuteBody_hasParkEntrance_mono env a 2 _ w2 w3 hk
      (fun _ => hf) h2 c false e1
  · subst hp
    have e1 := PlaceParkEntranceAction.ExecuteBody_hasParkEntrance_new env a 1 _ w1 w2 hk hf hg h1
      c false ht hz
    exact PlaceParkEntranceAction.ExecuteBody_hasParkEntrance_mono env a 2 _ w2 w3 hk
      (fun _ => hf) h2 c false e1
  · subst hp
    exact PlaceParkEntranceAction.ExecuteBody_hasParkEntrance_new env a 2 _ w2 w3 hk hf hg h2
      c false ht hz

/-- Execute appends the location to the list of park entrances, whatever the flags. -/
theorem PlaceParkEntranceAction.Execute_gParkEntrances (env : Env)
    (a : PlaceParkEntranceAction) (w : World) (r : Result) (w3 : World)
    (hk : PlaceEffectsKeep env (fun s => s.gParkEntrances))
    (hf : hasGhostFlag env a.flags = false → FootpathConnectKeeps env (fun s => s.gParkEntrances))
    (h : PlaceParkEntranceAction.Execute env a w = some (r, w3)) :
    w3.gParkEntrances = w.gParkEntrances ++ [a.loc] := by
  obtain ⟨w1, w2, h0, h1, h2, -⟩ := PlaceParkEntranceAction.Execute_some env a w r w3 h
  rw [PlaceParkEntranceAction.ExecuteBody_gParkEntrances env a 2 _ w2 w3 hk hf h2,
    PlaceParkEntranceAction.ExecuteBody_gParkEntrances env a 1 _ w1 w2 hk hf h1,
    PlaceParkEntranceAction.ExecuteBody_gParkEntrances env a 0 _ _ w1 hk hf h0]

/-! # Claims -/

/-! ## PlaceParkEntranceAction: validation near the map edge -/

/-- C1 (counterexample): in the sample world in play mode (editor screen flag off,
sandbox off) a park entrance at (16, 16), within 32 units of the map edge, is
rejected by Query with NotInEditorMode, not with InvalidParameters. -/
theorem PlaceParkEntranceAction.query_edge_play_mode :
    ((16 : Int) ≤ 32)
      ∧ (PlaceParkEntranceAction.Query sampleEnv ⟨⟨16, 16, 112, 0⟩, 0⟩ sampleWorld).1.Error
          = Status.NotInEditorMode
      ∧ (PlaceParkEntranceAction.Query sampleEnv ⟨⟨16, 16, 112, 0⟩, 0⟩ sampleWorld).1.Error
          ≠ Status.InvalidParameters := by
  decide

/-- C1 (amended): for a location within 32 units of the map edge (map size as
Query reads it, after the capacity check) the status of Query is
NotInEditorMode, NoFreeElements or InvalidParameters, hence never NoClearance
and never Ok; it is InvalidParameters exactly when the editor screen flag or
sandbox mode is on and the capacity check for three elements succeeds. -/
theorem PlaceParkEntranceAction.query_edge_status (env : Env) (a : PlaceParkEntranceAction)
    (w : World)
    (hedge : a.loc.x ≤ 32 ∨ a.loc.y ≤ 32
      ∨ a.loc.x ≥ (env.map_check_free_elements_and_reorganise 3 w).2.gMapSizeUnits - 32
      ∨ a.loc.y ≥ (env.map_check_free_elements_and_reorganise 3 w).2.gMapSizeUnits - 32) :
    ((PlaceParkEntranceAction.Query env a w).1.Error = Status.NotInEditorMode
        ∨ (PlaceParkEntranceAction.Query env a w).1.Error = Status.NoFreeElements
        ∨ (PlaceParkEntranceAction.Query env a w).1.Error = Status.InvalidParameters)
      ∧ (PlaceParkEntranceAction.Query env a w).1.Error ≠ Status.NoClearance
      ∧ (PlaceParkEntranceAction.Query env a w).1.Error ≠ Status.Ok
      ∧ ((PlaceParkEntranceAction.Query env a w).1.Error = Status.InvalidParameters
          ↔ (¬ (w.gScreenFlags &&& env.SCREEN_FLAGS_EDITOR = 0 ∧ w.gCheatsSandboxMode = false)
              ∧ (env.map_check_free_elements_and_reorganise 3 w).1 = true)) := by
  unfold PlaceParkEntranceAction.Query
  by_cases hed : w.gScreenFlags &&& env.SCREEN_FLAGS_EDITOR = 0 ∧ w.gCheatsSandboxMode = false
  · simp [hed, Result.err]
  · by_cases hchk : (env.map_check_free_elements_and_reorganise 3 w).1 = false
    · simp [hed, hchk, Result.err]
    · have hbad : env.LocationValid (env.map_check_free_elements_and_reorganise 3 w).2 ⟨a.loc.x, a.loc.y⟩ = false
          ∨ a.loc.x ≤ 32 ∨ a.loc.y ≤ 32
          ∨ a.loc.x ≥ (env.map_check_free_elements_and_reorganise 3 w).2.gMapSizeUnits - 32
          ∨ a.loc.y ≥ (env.map_check_free_elements_and_reorganise 3 w).2.gMapSizeUnits - 32 :=
        Or.inr hedge
      have hchk2 : (env.map_check_free_elements_and_reorganise 3 w).1 = true := by
        simpa using hchk
      simp only [if_neg hed, if_neg hchk, if_pos hbad]
      simp [Result.err, hchk2, hed]

/-- C1 (witness): the amended statement at the sample editor world and location
(16, 16): the editor screen flag is on, the capacity check succeeds, and Query
returns InvalidParameters. -/
theorem PlaceParkEntranceAction.query_edge_status_witness :
    ((16 : Int) ≤ 32)
      ∧ (PlaceParkEntranceAction.Query sampleEnv ⟨⟨16, 16, 112, 0⟩, 0⟩ sampleEditorWorld).1.Error
          = Status.InvalidParameters :=
  ⟨by decide,
    ((PlaceParkEntranceAction.query_edge_status sampleEnv ⟨⟨16, 16, 112, 0⟩, 0⟩ sampleEditorWorld
      (Or.inl (by decide))).2.2.2).2 (by decide)⟩

/-! ## RideSetVehicleAction: number of cars per train -/

/-- C2 (counterexample): in the sample ride world (ride entry allowing 1 to 10
cars, cheat off) the request for 256 cars per train stores 1, whereas
clamp(256, 1, 10) is 10: the requested value is first cut to its low 8 bits. -/
theorem RideSetVehicleAction.num_cars_wraps :
    GetRide sampleRideWorld 0 = some sampleRide
      ∧ GetRideEntryByIndex sampleRideWorld sampleRide.subtype = some ⟨1, 10, 3⟩
      ∧ sampleRideWorld.cheatDisableTrainLengthLimit = false
      ∧ clamp 256 1 10 = 10
      ∧ (RideSetVehicleAction.Execute sampleEnv ⟨0, RideSetVehicleType.NumCarsPerTrain, 256, 0, 0⟩
          sampleRideWorld).1.Error = Status.Ok
      ∧ ((RideSetVehicleAction.Execute sampleEnv ⟨0, RideSetVehicleType.NumCarsPerTrain, 256, 0, 0⟩
          sampleRideWorld).2.rides 0).map (fun r => r.proposed_num_cars_per_train) = some 1 := by
  decide

/-- The state in which `Execute` looks up the ride entry has the subtype, ride
entry table and train-length cheat of the state it started from. -/
theorem RideSetVehicleAction.prepare_keeps (env : Env) (hk : RideEffectsKeep env) (ride : Ride)
    (w : World) :
    (env.InvalidateTestResults (RideSetVehicleAction.prepare env ride w).1
        (RideSetVehicleAction.prepare env ride w).2).1.subtype = ride.subtype
      ∧ (env.InvalidateTestResults (RideSetVehicleAction.prepare env ride w).1
          (RideSetVehicleAction.prepare env ride w).2).2.rideEntries = w.rideEntries
      ∧ (env.InvalidateTestResults (RideSetVehicleAction.prepare env ride w).1
          (RideSetVehicleAction.prepare env ride w).2).2.cheatDisableTrainLengthLimit
        = w.cheatDisableTrainLengthLimit := by
  obtain ⟨h1, h2, h3, -, -, -⟩ := hk
  unfold RideSetVehicleAction.prepare
  refine ⟨?_, ?_, ?_⟩
  · rw [(h3 _ _).1]
    exact ((h2 _ _).1).trans (h1 _ _).1
  · rw [(h3 _ _).2.1]
    exact ((h2 _ _).2.1).trans (h1 _ _).2.1
  · rw [(h3 _ _).2.2]
    exact ((h2 _ _).2.2).trans (h1 _ _).2.2

/-- C2 (amended): for a command of kind NumCarsPerTrain with requested value `v`, on
an existing ride whose ride entry allows between min_cars_in_train and
max_cars_in_train cars, with the DisableTrainLengthLimit cheat off and
collaborators that keep the fields involved, Execute returns Ok and stores
proposed_num_cars_per_train = clamp(v mod 256, min_cars_in_train,
max_cars_in_train); this is clamp(v, min_cars_in_train, max_cars_in_train)
when v is below 256. -/
theorem RideSetVehicleAction.execute_num_cars (env : Env) (a : RideSetVehicleAction) (w : World)
    (ride : Ride) (rideEntry : RideEntry)
    (hk : RideEffectsKeep env)
    (ht : a.type = RideSetVehicleType.NumCarsPerTrain)
    (hr : GetRide w a.rideIndex = some ride)
    (he : GetRideEntryByIndex w ride.subtype = some rideEntry)
    (hc : w.cheatDisableTrainLengthLimit = false) :
    (RideSetVehicleAction.Execute env a w).1.Error = Status.Ok
      ∧ ((RideSetVehicleAction.Execute env a w).2.rides a.rideIndex).map
          (fun r => r.proposed_num_cars_per_train)
        = some (clamp (a.value % 256) rideEntry.min_cars_in_train rideEntry.max_cars_in_train)
      ∧ (a.value < 256 →
          ((RideSetVehicleAction.Execute env a w).2.rides a.rideIndex).map
              (fun r => r.proposed_num_cars_per_train)
            = some (clamp a.value rideEntry.min_cars_in_train rideEntry.max_cars_in_train)) := by
  obtain ⟨k1, k2, k3⟩ := RideSetVehicleAction.prepare_keeps env hk ride w
  have he2 : GetRideEntryByIndex
      (env.InvalidateTestResults (RideSetVehicleAction.prepare env ride w).1
        (RideSetVehicleAction.prepare env ride w).2).2
      (env.InvalidateTestResults (RideSetVehicleAction.prepare env ride w).1
        (RideSetVehicleAction.prepare env ride w).2).1.subtype = some rideEntry := by
    unfold GetRideEntryByIndex at he ⊢
    rw [k1, k2, he]
  have hsw : RideSetVehicleAction.ExecuteSwitch env a ride w
      = .ok ({ (env.InvalidateTestResults (RideSetVehicleAction.prepare env ride w).1
                (RideSetVehicleAction.prepare env ride w).2).1 with
              proposed_num_cars_per_train :=
                clamp (a.value % 256) rideEntry.min_cars_in_train rideEntry.max_cars_in_train },
            (env.InvalidateTestResults (RideSetVehicleAction.prepare env ride w).1
              (RideSetVehicleAction.prepare env ride w).2).2) := by
    unfold RideSetVehicleAction.ExecuteSwitch
    have hne : ¬ a.type = RideSetVehicleType.NumTrains := by rw [ht]; decide
    simp only [if_neg hne, if_pos ht, he2, k3, hc, if_true]
  obtain ⟨-, -, -, hu, hcb, hgfx⟩ := hk
  have hmain : (RideSetVehicleAction.Execute env a w).1.Error = Status.Ok
      ∧ ((RideSetVehicleAction.Execute env a w).2.rides a.rideIndex).map
          (fun r => r.proposed_num_cars_per_train)
        = some (clamp (a.value % 256) rideEntry.min_cars_in_train rideEntry.max_cars_in_train) := by
    unfold RideSetVehicleAction.Execute
    simp only [hr, hsw]
    constructor
    · cases (env.UpdateMaxVehicles _ _).1.overall_view <;> rfl
    · rw [hgfx, hcb]
      simp only [setRide, Function.update_same, Option.map_some', hu]
  refine ⟨hmain.1, hmain.2, fun hlt => ?_⟩
  rw [hmain.2, Nat.mod_eq_of_lt hlt]

/-- The sample ride collaborators keep everything. -/
theorem sampleEnv_rideEffectsKeep : RideEffectsKeep sampleEnv :=
  ⟨fun _ _ => ⟨rfl, rfl, rfl⟩, fun _ _ => ⟨rfl, rfl, rfl⟩, fun _ _ => ⟨rfl, rfl, rfl⟩,
    fun _ _ => rfl, fun _ _ => rfl, fun _ => rfl⟩

/-- C2 (witness): in the sample ride world a request for 300 cars per train
stores clamp(300 mod 256, 1, 10) = 10. -/
theorem RideSetVehicleAction.execute_num_cars_witness :
    ((RideSetVehicleAction.Execute sampleEnv ⟨0, RideSetVehicleType.NumCarsPerTrain, 300, 0, 0⟩
        sampleRideWorld).2.rides 0).map (fun r => r.proposed_num_cars_per_train)
      = some (clamp (300 % 256) 1 10) :=
  (RideSetVehicleAction.execute_num_cars sampleEnv
    ⟨0, RideSetVehicleType.NumCarsPerTrain, 300, 0, 0⟩ sampleRideWorld sampleRide ⟨1, 10, 3⟩
    sampleEnv_rideEffectsKeep rfl rfl rfl rfl).2.1

/-! ## PlaceParkEntranceAction: a second entrance on the same footprint -/

/-- C3 (counterexample): (i) in the sample park, which has three entrances, a
fourth entrance at (160, 224) passes Query and is executed; Query of the same
command on the resulting state, whose footprint is the same, returns
InvalidParameters (too many park entrances), not ItemAlreadyPlaced.  (ii) In
the sample editor world, after the sample entrance at height 112 is executed,
an entrance on the same three tiles at height 208 passes Query with Ok. -/
theorem PlaceParkEntranceAction.second_query_counterexample :
    (PlaceParkEntranceAction.Query sampleEnv ⟨⟨160, 224, 112, 0⟩, 0⟩ sampleParkWorld).1.Error
        = Status.Ok
      ∧ (PlaceParkEntranceAction.run sampleEnv ⟨⟨160, 224, 112, 0⟩, 0⟩
          sampleParkWorld).gParkEntrances.length = 4
      ∧ (PlaceParkEntranceAction.Query sampleEnv ⟨⟨160, 224, 112, 0⟩, 0⟩
          (PlaceParkEntranceAction.run sampleEnv ⟨⟨160, 224, 112, 0⟩, 0⟩ sampleParkWorld)).1.Error
        = Status.InvalidParameters
      ∧ (PlaceParkEntranceAction.Query sampleEnv sampleEntrance sampleEditorWorld).1.Error
        = Status.Ok
      ∧ (PlaceParkEntranceAction.run sampleEnv sampleEntrance sampleEditorWorld).gParkEntrances.length
        = 1
      ∧ (PlaceParkEntranceAction.Query sampleEnv ⟨⟨160, 160, 208, 0⟩, 0⟩
          (PlaceParkEntranceAction.run sampleEnv sampleEntrance sampleEditorWorld)).1.Error
        = Status.Ok := by
  decide

/-- C3 (amended): let a non-ghost action `a` pass Query and be executed, and let
`b` be an action at the same stored height whose footprint shares a tile with
that of `a`.  Provided the collaborators keep the park entrance elements that
lookups find, Query of `b` on the resulting state never returns Ok: its status
is NotInEditorMode, NoFreeElements, InvalidParameters, NoClearance or
ItemAlreadyPlaced, and it is ItemAlreadyPlaced whenever the earlier checks of
Query (editor mode, capacity, map edge, entrance limit) and the clearance
check on the three tiles pass. -/
theorem PlaceParkEntranceAction.second_query_overlap (env : Env)
    (a b : PlaceParkEntranceAction) (w : World) (r : Result) (w2 : World)
    (hk : PlaceEffectsKeep env (hasParkEntrance env))
    (hf : FootpathConnectKeeps env (hasParkEntrance env))
    (hg : hasGhostFlag env a.flags = false)
    (_hq : (PlaceParkEntranceAction.Query env a w).1.Error = Status.Ok)
    (hex : PlaceParkEntranceAction.Execute env a (PlaceParkEntranceAction.Query env a w).2
      = some (r, w2))
    (hov : ∃ p ∈ PlaceParkEntranceAction.footprint env a,
      ∃ q ∈ PlaceParkEntranceAction.footprint env b, tileOf env q = tileOf env p)
    (hz : b.loc.z.tdiv env.COORDS_Z_STEP = (a.loc.z.tdiv env.COORDS_Z_STEP) % 256) :
    ((PlaceParkEntranceAction.Query env b w2).1.Error = Status.NotInEditorMode
        ∨ (PlaceParkEntranceAction.Query env b w2).1.Error = Status.NoFreeElements
        ∨ (PlaceParkEntranceAction.Query env b w2).1.Error = Status.InvalidParameters
        ∨ (PlaceParkEntranceAction.Query env b w2).1.Error = Status.NoClearance
        ∨ (PlaceParkEntranceAction.Query env b w2).1.Error = Status.ItemAlreadyPlaced)
      ∧ (¬ (w2.gScreenFlags &&& env.SCREEN_FLAGS_EDITOR = 0 ∧ w2.gCheatsSandboxMode = false) →
          (env.map_check_free_elements_and_reorganise 3 w2).1 = true →
          ¬ (env.LocationValid (env.map_check_free_elements_and_reorganise 3 w2).2
                ⟨b.loc.x, b.loc.y⟩ = false
              ∨ b.loc.x ≤ 32 ∨ b.loc.y ≤ 32
              ∨ b.loc.x ≥ (env.map_check_free_elements_and_reorganise 3 w2).2.gMapSizeUnits - 32
              ∨ b.loc.y ≥ (env.map_check_free_elements_and_reorganise 3 w2).2.gMapSizeUnits - 32) →
          (env.map_check_free_elements_and_reorganise 3 w2).2.gParkEntrances.length
            < env.MAX_PARK_ENTRANCES →
          (∀ q ∈ PlaceParkEntranceAction.footprint env b,
            (env.MapCanConstructAt (env.map_check_free_elements_and_reorganise 3 w2).2
              ⟨q.x, q.y, b.loc.z, b.loc.z + env.ParkEntranceHeight⟩ (15, 0)).Error = Status.Ok) →
          (PlaceParkEntranceAction.Query env b w2).1.Error = Status.ItemAlreadyPlaced) := by
  obtain ⟨p, hp, q, hq, hpq⟩ := hov
  have hfound : hasParkEntrance env w2 ⟨q.x, q.y, b.loc.z⟩ false = true :=
    PlaceParkEntranceAction.Execute_hasParkEntrance env a _ r w2 hk hf hg hex p hp
      ⟨q.x, q.y, b.loc.z⟩ hpq hz
  have hfound2 : hasParkEntrance env (env.map_check_free_elements_and_reorganise 3 w2).2
      ⟨q.x, q.y, b.loc.z⟩ false = true := by
    rw [← hfound]
    exact congrFun (congrFun (hk.1 3 w2) _) _
  obtain ⟨r2, hr2, hst, hall⟩ := PlaceParkEntranceAction.QueryLoop_hit env b
    (env.map_check_free_elements_and_reorganise 3 w2).2 [0, 1, 2] ⟨b.loc.x, b.loc.y⟩
    ⟨q, hq, hfound2⟩
  unfold PlaceParkEntranceAction.Query
  by_cases h1 : w2.gScreenFlags &&& env.SCREEN_FLAGS_EDITOR = 0 ∧ w2.gCheatsSandboxMode = false
  · simp [h1, Result.err]
  · by_cases h2 : (env.map_check_free_elements_and_reorganise 3 w2).1 = false
    · simp [h1, h2, Result.err]
    · by_cases h3 : env.LocationValid (env.map_check_free_elements_and_reorganise 3 w2).2
          ⟨b.loc.x, b.loc.y⟩ = false
          ∨ b.loc.x ≤ 32 ∨ b.loc.y ≤ 32
          ∨ b.loc.x ≥ (env.map_check_free_elements_and_reorganise 3 w2).2.gMapSizeUnits - 32
          ∨ b.loc.y ≥ (env.map_check_free_elements_and_reorganise 3 w2).2.gMapSizeUnits - 32
      · simp only [if_neg h1, if_neg h2, if_pos h3]
        refine ⟨Or.inr (Or.inr (Or.inl rfl)), fun _ _ hn => absurd h3 hn⟩
      · by_cases h4 : (env.map_check_free_elements_and_reorganise 3 w2).2.gParkEntrances.length
            ≥ env.MAX_PARK_ENTRANCES
        · simp only [if_neg h1, if_neg h2, if_neg h3, if_pos h4]
          refine ⟨Or.inr (Or.inr (Or.inl rfl)), fun _ _ _ hn => absurd h4 (not_le.mpr hn)⟩
        · simp only [if_neg h1, if_neg h2, if_neg h3, if_neg h4, hr2]
          refine ⟨?_, fun _ _ _ _ hc => hall hc⟩
          rcases hst with hst | hst
          · exact Or.inr (Or.inr (Or.inr (Or.inl hst)))
          · exact Or.inr (Or.inr (Or.inr (Or.inr hst)))

/-- The sample collaborators keep every observation of the state. -/
theorem sampleEnv_keeps {α : Type} (obs : World → α) :
    PlaceEffectsKeep sampleEnv obs ∧ FootpathConnectKeeps sampleEnv obs :=
  ⟨⟨fun _ _ => rfl, fun _ _ => rfl, fun _ _ => rfl, fun _ _ _ => rfl⟩, fun _ _ _ _ => rfl⟩

/-- C3 (witness): the amended statement in the sample editor world, for the sample
entrance at (160, 160) and a second entrance at (160, 192), whose footprint
shares two tiles with the first: the second Query returns ItemAlreadyPlaced. -/
theorem PlaceParkEntranceAction.second_query_overlap_witness :
    (PlaceParkEntranceAction.Query sampleEnv ⟨⟨160, 192, 112, 0⟩, 0⟩
      (PlaceParkEntranceAction.run sampleEnv sampleEntrance sampleEditorWorld)).1.Error
      = Status.ItemAlreadyPlaced :=
  (PlaceParkEntranceAction.second_query_overlap sampleEnv sampleEntrance
      ⟨⟨160, 192, 112, 0⟩, 0⟩ sampleEditorWorld
      { Result.ok with Expenditure := .LandPurchase, Position := some ⟨160, 160, 112⟩ }
      (PlaceParkEntranceAction.run sampleEnv sampleEntrance sampleEditorWorld)
      (sampleEnv_keeps _).1 (sampleEnv_keeps _).2 (by decide) (by decide) rfl
      ⟨⟨160, 160⟩, by decide, ⟨160, 160⟩, by decide, rfl⟩ (by decide)).2
    (by decide) (by decide) (by decide) (by decide) (by decide)

/-! ## PlaceParkEntranceAction: ghost commands -/

/-- C4 (code at the failing input): Execute of the ghost-flagged sample entrance on
the sample editor world, whose list of park entrances is empty, leaves the list
holding the entrance's location. -/
theorem PlaceParkEntranceAction.ghost_execute_appends :
    hasGhostFlag sampleEnv ghostEntrance.flags = true
      ∧ sampleEditorWorld.gParkEntrances = []
      ∧ (PlaceParkEntranceAction.Execute sampleEnv ghostEntrance sampleEditorWorld).map
          (fun s => s.2.gParkEntrances) = some [⟨160, 160, 112, 0⟩] := by
  decide

/-- With a ghost flag, one loop iteration of Execute does not depend on `footpath_connect_edges`. -/
theorem PlaceParkEntranceAction.ExecuteBody_ghost_footpath (env : Env)
    (a : PlaceParkEntranceAction) (hg : hasGhostFlag env a.flags = true)
    (f : CoordsXY → ElemRef → Nat → World → World) (index : Nat) (p : CoordsXY) (w : World) :
    PlaceParkEntranceAction.ExecuteBody { env with footpath_connect_edges := f } a index p w
      = PlaceParkEntranceAction.ExecuteBody env a index p w := by
  have hg2 : hasGhostFlag { env with footpath_connect_edges := f } a.flags = true := hg
  unfold PlaceParkEntranceAction.ExecuteBody PlaceParkEntranceAction.disown
  simp only [hg, hg2, Bool.true_eq_false, if_false]
  rfl

/-- Three conditional overwrites with the same value amount to one. -/
theorem overwrite_thrice (Q0 Q1 Q2 : Prop) [Decidable Q0] [Decidable Q1] [Decidable Q2]
    (o : Option Nat) (u : Nat) (f : Option Nat → Option Nat) (hf : f = Option.map (fun _ => u)) :
    (if Q2 then f (if Q1 then f (if Q0 then f o else o) else (if Q0 then f o else o))
      else (if Q1 then f (if Q0 then f o else o) else (if Q0 then f o else o)))
      = if Q0 ∨ Q1 ∨ Q2 then f o else o := by
  subst hf
  cases o <;> by_cases h0 : Q0 <;> by_cases h1 : Q1 <;> by_cases h2 : Q2 <;> simp [h0, h1, h2]

/-- C5: let Execute run to completion, and let the collaborators it calls keep
the ownership of surface elements.  With the GHOST flag the ownership of the
surface element found at any coordinate is the same after Execute as before,
and Execute does not call `footpath_connect_edges` (its outcome is the same
whatever that function does).  Without the GHOST flag the surface element of
each of the three footprint tiles, where there is one, ends up
OWNERSHIP_UNOWNED, and the ownership on every other tile is unchanged. -/
theorem PlaceParkEntranceAction.execute_ownership (env : Env) (a : PlaceParkEntranceAction)
    (w : World) (r : Result) (w3 : World)
    (hk : PlaceEffectsKeep env (surfaceOwnership env))
    (hf : hasGhostFlag env a.flags = false → FootpathConnectKeeps env (surfaceOwnership env))
    (h : PlaceParkEntranceAction.Execute env a w = some (r, w3)) :
    (hasGhostFlag env a.flags = true →
        (∀ c, surfaceOwnership env w3 c = surfaceOwnership env w c)
          ∧ ∀ f, PlaceParkEntranceAction.Execute { env with footpath_connect_edges := f } a w
              = PlaceParkEntranceAction.Execute env a w)
      ∧ (hasGhostFlag env a.flags = false →
          ∀ c, surfaceOwnership env w3 c
            = if tileOf env c ∈ (PlaceParkEntranceAction.footprint env a).map (tileOf env) then
                (surfaceOwnership env w c).map (fun _ => env.OWNERSHIP_UNOWNED)
              else surfaceOwnership env w c) := by
  obtain ⟨w1, w2, h0, h1, h2, -⟩ := PlaceParkEntranceAction.Execute_some env a w r w3 h
  have e0 := PlaceParkEntranceAction.ExecuteBody_surfaceOwnership env a 0 _ _ w1 hk hf h0
  have e1 := PlaceParkEntranceAction.ExecuteBody_surfaceOwnership env a 1 _ w1 w2 hk hf h1
  have e2 := PlaceParkEntranceAction.ExecuteBody_surfaceOwnership env a 2 _ w2 w3 hk hf h2
  have einit : ∀ c, surfaceOwnership env { w with gParkEntrances := w.gParkEntrances ++ [a.loc] } c
      = surfaceOwnership env w c := fun c => rfl
  constructor
  · intro hg
    constructor
    · intro c
      rw [e2, e1, e0, einit]
      simp [hg]
    · intro f
      unfold PlaceParkEntranceAction.Execute
      simp only [PlaceParkEntranceAction.ExecuteLoop,
        PlaceParkEntranceAction.ExecuteBody_ghost_footpath env a hg f]
      rfl
  · intro hg c
    rw [e2, e1, e0, einit,
      overwrite_thrice _ _ _ _ env.OWNERSHIP_UNOWNED (Option.map (fun _ => env.OWNERSHIP_UNOWNED)) rfl]
    simp only [hg, true_and, PlaceParkEntranceAction.footprint, entranceLocs, List.map_cons,
      List.map_nil, List.mem_cons, List.mem_singleton, List.not_mem_nil, or_false]

/-- C5 (witness): in the sample editor world the sample entrance, executed without
the GHOST flag, leaves the surface of the footprint tile at (160, 128) unowned
(ownership 0, before 32), while executed as a ghost it leaves it at 32. -/
theorem PlaceParkEntranceAction.execute_ownership_witness :
    surfaceOwnership sampleEnv sampleEditorWorld ⟨160, 128⟩ = some 32
      ∧ surfaceOwnership sampleEnv
          (PlaceParkEntranceAction.run sampleEnv sampleEntrance sampleEditorWorld) ⟨160, 128⟩
        = some 0
      ∧ surfaceOwnership sampleEnv
          (PlaceParkEntranceAction.run sampleEnv ghostEntrance sampleEditorWorld) ⟨160, 128⟩
        = some 32 :=
  ⟨by decide,
    ((PlaceParkEntranceAction.execute_ownership sampleEnv sampleEntrance sampleEditorWorld
      { Result.ok with Expenditure := .LandPurchase, Position := some ⟨160, 160, 112⟩ }
      (PlaceParkEntranceAction.run sampleEnv sampleEntrance sampleEditorWorld)
      (sampleEnv_keeps _).1 (fun _ => (sampleEnv_keeps _).2) rfl).2 (by decide) ⟨160, 128⟩).trans
      (by decide),
    (((PlaceParkEntranceAction.execute_ownership sampleEnv ghostEntrance sampleEditorWorld
      { Result.ok with Expenditure := .LandPurchase, Position := some ⟨160, 160, 112⟩ }
      (PlaceParkEntranceAction.run sampleEnv ghostEntrance sampleEditorWorld)
      (sampleEnv_keeps _).1 (fun _ => (sampleEnv_keeps _).2) rfl).1 (by decide)).1 ⟨160, 128⟩).trans
      (by decide)⟩

/-! ## Purity of validation -/

/-- C6 (counterexample): with a capacity check that compacts the tile element
array when it is short of room, Query of the sample entrance on the fragmented
sample world returns Ok and moves the next free slot from 16776702 to 100: the
tile element storage is not left unchanged. -/
theorem PlaceParkEntranceAction.query_reorganises :
    (PlaceParkEntranceAction.Query reorganisingEnv sampleEntrance fragmentedWorld).1.Error
        = Status.Ok
      ∧ fragmentedWorld.gNextFreeTileElement = 16776702
      ∧ (PlaceParkEntranceAction.Query reorganisingEnv sampleEntrance
          fragmentedWorld).2.gNextFreeTileElement = 100 := by
  decide

/-- C6 (amended): the Result of Query is a function of the command and the
state, and Query writes nothing itself: the state it leaves is the one it was
given or the one `map_check_free_elements_and_reorganise(3)` left.  It is the
given state when the editor-mode check rejects, and whenever that capacity
check leaves the state unchanged; in the latter case a repeated call returns
the same Result and state. -/
theorem PlaceParkEntranceAction.query_frame (env : Env) (a : PlaceParkEntranceAction) (w : World) :
    ((PlaceParkEntranceAction.Query env a w).2 = w
        ∨ (PlaceParkEntranceAction.Query env a w).2
            = (env.map_check_free_elements_and_reorganise 3 w).2)
      ∧ ((w.gScreenFlags &&& env.SCREEN_FLAGS_EDITOR = 0 ∧ w.gCheatsSandboxMode = false) →
          (PlaceParkEntranceAction.Query env a w).2 = w)
      ∧ ((env.map_check_free_elements_and_reorganise 3 w).2 = w →
          (PlaceParkEntranceAction.Query env a w).2 = w
            ∧ PlaceParkEntranceAction.Query env a (PlaceParkEntranceAction.Query env a w).2
                = PlaceParkEntranceAction.Query env a w) := by
  have hor : (PlaceParkEntranceAction.Query env a w).2 = w
      ∨ (PlaceParkEntranceAction.Query env a w).2
          = (env.map_check_free_elements_and_reorganise 3 w).2 := by
    unfold PlaceParkEntranceAction.Query
    simp only
    split_ifs
    · exact Or.inl rfl
    · exact Or.inr rfl
    · exact Or.inr rfl
    · exact Or.inr rfl
    · cases PlaceParkEntranceAction.QueryLoop env a
        (env.map_check_free_elements_and_reorganise 3 w).2 [0, 1, 2] ⟨a.loc.x, a.loc.y⟩ <;>
      exact Or.inr rfl
  refine ⟨hor, ?_, ?_⟩
  · intro hed
    unfold PlaceParkEntranceAction.Query
    simp only [hed, and_self, if_true]
  · intro hsame
    have hw : (PlaceParkEntranceAction.Query env a w).2 = w := by
      rcases hor with h | h
      · exact h
      · rw [h, hsame]
    exact ⟨hw, by rw [hw]⟩

/-- C6 (witness): the sample capacity check leaves the state unchanged, so Query
of the sample entrance leaves the sample editor world unchanged and a repeated
call returns the same Result. -/
theorem PlaceParkEntranceAction.query_frame_witness :
    (PlaceParkEntranceAction.Query sampleEnv sampleEntrance sampleEditorWorld).2 = sampleEditorWorld
      ∧ PlaceParkEntranceAction.Query sampleEnv sampleEntrance
          (PlaceParkEntranceAction.Query sampleEnv sampleEntrance sampleEditorWorld).2
        = PlaceParkEntranceAction.Query sampleEnv sampleEntrance sampleEditorWorld :=
  (PlaceParkEntranceAction.query_frame sampleEnv sampleEntrance sampleEditorWorld).2.2 rfl

/-- C7: Query of a WallRemoveAction and Query of a RideSetVehicleAction leave the
state they are given unchanged, whatever the command and the state, and a
repeated call on the state they leave returns the same Result. -/
theorem query_pure_wall_ride (env : Env) (a : WallRemoveAction) (b : RideSetVehicleAction)
    (w : World) :
    (WallRemoveAction.Query env a w).2 = w
      ∧ WallRemoveAction.Query env a (WallRemoveAction.Query env a w).2
          = WallRemoveAction.Query env a w
      ∧ (RideSetVehicleAction.Query env b w).2 = w
      ∧ RideSetVehicleAction.Query env b (RideSetVehicleAction.Query env b w).2
          = RideSetVehicleAction.Query env b w := by
  have hwall : (WallRemoveAction.Query env a w).2 = w := by
    unfold WallRemoveAction.Query
    simp only
    split_ifs
    · rfl
    · rfl
    · cases WallRemoveAction.GetFirstWallElementAt env w a.loc (hasGhostFlag env a.flags) <;> rfl
  have hride : (RideSetVehicleAction.Query env b w).2 = w := by
    unfold RideSetVehicleAction.Query
    simp only
    cases GetRide w b.rideIndex with
    | none => rfl
    | some ride =>
      simp only
      split_ifs
      · rfl
      · rfl
      · rfl
      · rfl
      · cases GetRideEntryByIndex w b.value with
        | none => rfl
        | some rideEntry =>
          simp only
          split_ifs <;> rfl
      · rfl
  exact ⟨hwall, by rw [hwall], hride, by rw [hride]⟩

/-! ## Serialisation -/

theorem decodeBE_encodeBE_one (v : Nat) (h : v < 256) : decodeBE (encodeBE 1 v) = v := by
  simp only [encodeBE, decodeBE, List.foldl]
  omega

theorem decodeBE_encodeBE_two (v : Nat) (h : v < 65536) : decodeBE (encodeBE 2 v) = v := by
  simp only [encodeBE, decodeBE, List.foldl]
  omega

theorem decodeBE_encodeBE_four (v : Nat) (h : v < 4294967296) : decodeBE (encodeBE 4 v) = v := by
  simp only [encodeBE, decodeBE, List.foldl]
  norm_num
  omega

/-- Saving a field and loading it from the bytes written gives the field back. -/
theorem DataSerialiser.field_save (fields : List String) (stream : List Nat) (name : String)
    (width v : Nat) :
    DataSerialiser.field ⟨true, stream, fields⟩ name width v
      = some (⟨true, stream ++ encodeBE width v, fields ++ [name]⟩, v) := by
  simp [DataSerialiser.field]

theorem encodeBE_length (n v : Nat) : (encodeBE n v).length = n := by
  induction n with
  | zero => rfl
  | succ n ih => simp [encodeBE, ih]

theorem DataSerialiser.field_load (fields : List String) (rest : List Nat) (name : String)
    (width v v0 : Nat) :
    DataSerialiser.field ⟨false, encodeBE width v ++ rest, fields⟩ name width v0
      = some (⟨false, rest, fields ++ [name]⟩, decodeBE (encodeBE width v)) := by
  have hl := encodeBE_length width v
  simp [DataSerialiser.field, hl, List.take_append_of_le_length, List.drop_append_of_le_length]

/-- The sample base serialiser writes network id, flags and player id and reads them back. -/
theorem sampleEnv_baseRoundTrip :
    BaseSerialiseRoundTrip sampleEnv ["_networkId", "_flags", "_playerId"] := by
  intro fieldsW streamW flags hfl
  refine ⟨encodeBE 4 0 ++ encodeBE 4 flags ++ encodeBE 4 0, ?_, ?_⟩
  · simp [sampleEnv, DataSerialiser.field_save]
  · intro fieldsR rest flags0
    simp only [sampleEnv, List.append_assoc, DataSerialiser.field_load,
      decodeBE_encodeBE_four flags hfl]
    simp

/-- C8: for a RideSetVehicleAction whose fields fit their widths (16-bit ride
index and value, 8-bit type and colour, 32-bit flags) and a base serialiser
that reads back what it writes, Serialise in write mode succeeds and appends
some bytes to the stream; Serialise in read mode over these bytes, into any
command object, succeeds, consumes exactly these bytes and yields a command
with the same ride index, type, value and colour, so that Execute of the
reconstructed command gives the same Result and post-state on every state. -/
theorem RideSetVehicleAction.serialise_roundtrip (env : Env) (base : List String)
    (a : RideSetVehicleAction) (hb : BaseSerialiseRoundTrip env base)
    (h1 : a.rideIndex < 65536) (h2 : a.type < 256) (h3 : a.value < 65536) (h4 : a.colour < 256)
    (h5 : a.flags < 4294967296) (fieldsW : List String) (streamW : List Nat) :
    ∃ bytes dsW,
      RideSetVehicleAction.Serialise env ⟨true, streamW, fieldsW⟩ a = some (dsW, a)
        ∧ dsW.stream = streamW ++ bytes
        ∧ ∀ (a0 : RideSetVehicleAction) (fieldsR : List String) (rest : List Nat),
            ∃ dsR a1,
              RideSetVehicleAction.Serialise env ⟨false, bytes ++ rest, fieldsR⟩ a0 = some (dsR, a1)
                ∧ dsR.stream = rest
                ∧ a1.rideIndex = a.rideIndex ∧ a1.type = a.type ∧ a1.value = a.value
                ∧ a1.colour = a.colour
                ∧ ∀ w, RideSetVehicleAction.Execute env a1 w = RideSetVehicleAction.Execute env a w := by
  obtain ⟨bs, hw, hr⟩ := hb fieldsW streamW a.flags h5
  refine ⟨bs ++ encodeBE 2 a.rideIndex ++ encodeBE 1 a.type ++ encodeBE 2 a.value
    ++ encodeBE 1 a.colour,
    ⟨true, streamW ++ bs ++ encodeBE 2 a.rideIndex ++ encodeBE 1 a.type ++ encodeBE 2 a.value
      ++ encodeBE 1 a.colour,
      fieldsW ++ base ++ ["_rideIndex"] ++ ["_type"] ++ ["_value"] ++ ["_colour"]⟩, ?_, ?_, ?_⟩
  · unfold RideSetVehicleAction.Serialise
    simp only [hw, DataSerialiser.field_save]
  · simp only [List.append_assoc]
  · intro a0 fieldsR rest
    refine ⟨⟨false, rest, fieldsR ++ base ++ ["_rideIndex"] ++ ["_type"] ++ ["_value"]
      ++ ["_colour"]⟩, a, ?_, rfl, rfl, rfl, rfl, rfl, fun _ => rfl⟩
    unfold RideSetVehicleAction.Serialise
    simp only [List.append_assoc, hr, DataSerialiser.field_load, decodeBE_encodeBE_two _ h1,
      decodeBE_encodeBE_one _ h2, decodeBE_encodeBE_two _ h3, decodeBE_encodeBE_one _ h4]

/-- C8 (witness): the round trip for the command (ride 7, type RideEntry, value 300,
colour 9, flags 64) with the sample base serialiser, from an empty stream. -/
theorem RideSetVehicleAction.serialise_roundtrip_witness :
    ∃ bytes dsW,
      RideSetVehicleAction.Serialise sampleEnv ⟨true, [], []⟩ ⟨7, 2, 300, 9, 64⟩
          = some (dsW, ⟨7, 2, 300, 9, 64⟩)
        ∧ dsW.stream = [] ++ bytes
        ∧ ∀ (a0 : RideSetVehicleAction) (fieldsR : List String) (rest : List Nat),
            ∃ dsR a1,
              RideSetVehicleAction.Serialise sampleEnv ⟨false, bytes ++ rest, fieldsR⟩ a0
                  = some (dsR, a1)
                ∧ dsR.stream = rest
                ∧ a1.rideIndex = 7 ∧ a1.type = 2 ∧ a1.value = 300 ∧ a1.colour = 9
                ∧ ∀ w, RideSetVehicleAction.Execute sampleEnv a1 w
                    = RideSetVehicleAction.Execute sampleEnv ⟨7, 2, 300, 9, 64⟩ w :=
  RideSetVehicleAction.serialise_roundtrip sampleEnv ["_networkId", "_flags", "_playerId"]
    ⟨7, 2, 300, 9, 64⟩ sampleEnv_baseRoundTrip (by decide) (by decide) (by decide) (by decide)
    (by decide) [] []

/-- C9: with a base serialiser that passes the fixed field list `base`, Serialise
in write mode passes, for every command with 32-bit flags, the base fields
first and then its own fields in one fixed order: `_loc` for
PlaceParkEntranceAction and for WallRemoveAction; `_rideIndex`, `_type`,
`_value`, `_colour` for RideSetVehicleAction.  The sequence does not depend on
the parameter values or the flags. -/
theorem serialise_field_order (env : Env) (base : List String)
    (hb : BaseSerialiseRoundTrip env base) (fields : List String) (stream : List Nat)
    (p : PlaceParkEntranceAction) (wa : WallRemoveAction) (r : RideSetVehicleAction)
    (hp : p.flags < 4294967296) (hwa : wa.flags < 4294967296) (hr : r.flags < 4294967296) :
    (PlaceParkEntranceAction.Serialise env ⟨true, stream, fields⟩ p).map (fun x => x.1.fields)
        = some (fields ++ base ++ ["_loc"])
      ∧ (WallRemoveAction.Serialise env ⟨true, stream, fields⟩ wa).map (fun x => x.1.fields)
        = some (fields ++ base ++ ["_loc"])
      ∧ (RideSetVehicleAction.Serialise env ⟨true, stream, fields⟩ r).map (fun x => x.1.fields)
        = some (fields ++ base ++ ["_rideIndex", "_type", "_value", "_colour"]) := by
  obtain ⟨bs1, hw1, -⟩ := hb fields stream p.flags hp
  obtain ⟨bs2, hw2, -⟩ := hb fields stream wa.flags hwa
  obtain ⟨bs3, hw3, -⟩ := hb fields stream r.flags hr
  refine ⟨?_, ?_, ?_⟩
  · unfold PlaceParkEntranceAction.Serialise
    simp [hw1, DataSerialiser.fieldCoordsXYZD]
  · unfold WallRemoveAction.Serialise
    simp [hw2, DataSerialiser.fieldCoordsXYZD]
  · unfold RideSetVehicleAction.Serialise
    simp [hw3, DataSerialiser.field_save]

/-- C9 (witness): the field sequences written for three sample commands with the
sample base serialiser. -/
theorem serialise_field_order_witness :
    (PlaceParkEntranceAction.Serialise sampleEnv ⟨true, [], []⟩ ghostEntrance).map
        (fun x => x.1.fields) = some ([] ++ ["_networkId", "_flags", "_playerId"] ++ ["_loc"])
      ∧ (WallRemoveAction.Serialise sampleEnv ⟨true, [], []⟩ ⟨⟨64, 64, 112, 1⟩, 0⟩).map
        (fun x => x.1.fields) = some ([] ++ ["_networkId", "_flags", "_playerId"] ++ ["_loc"])
      ∧ (RideSetVehicleAction.Serialise sampleEnv ⟨true, [], []⟩ ⟨7, 2, 300, 9, 64⟩).map
        (fun x => x.1.fields)
        = some ([] ++ ["_networkId", "_flags", "_playerId"]
            ++ ["_rideIndex", "_type", "_value", "_colour"]) :=
  serialise_field_order sampleEnv ["_networkId", "_flags", "_playerId"] sampleEnv_baseRoundTrip
    [] [] ghostEntrance ⟨⟨64, 64, 112, 1⟩, 0⟩ ⟨7, 2, 300, 9, 64⟩ (by decide) (by decide) (by decide)

/-! ## RideSetVehicleAction: validate, then apply -/

/-- C10 (code at the failing input): in the sample ride world without loaded ride
entries, the closed, intact sample ride exists and a NumCarsPerTrain command
passes Query with Ok, yet Execute on the same state returns
InvalidParameters, after having set the ride's vehicle_change_timeout to 100. -/
theorem RideSetVehicleAction.query_ok_execute_fails :
    GetRide orphanRideWorld 0 = some sampleRide
      ∧ GetRideEntryByIndex orphanRideWorld sampleRide.subtype = none
      ∧ (RideSetVehicleAction.Query sampleEnv ⟨0, RideSetVehicleType.NumCarsPerTrain, 5, 0, 0⟩
          orphanRideWorld).1.Error = Status.Ok
      ∧ (RideSetVehicleAction.Execute sampleEnv ⟨0, RideSetVehicleType.NumCarsPerTrain, 5, 0, 0⟩
          orphanRideWorld).1.Error = Status.InvalidParameters
      ∧ ((RideSetVehicleAction.Execute sampleEnv ⟨0, RideSetVehicleType.NumCarsPerTrain, 5, 0, 0⟩
          orphanRideWorld).2.rides 0).map (fun r => r.vehicle_change_timeout) = some 100 := by
  decide

/-- The Result of `Execute` once the `switch` has run to its end is Ok. -/
theorem RideSetVehicleAction.Execute_of_switch_ok (env : Env) (a : RideSetVehicleAction)
    (w : World) (ride : Ride) (hr : GetRide w a.rideIndex = some ride)
    (hs : ∃ s, RideSetVehicleAction.ExecuteSwitch env a ride w = .ok s) :
    (RideSetVehicleAction.Execute env a w).1.Error = Status.Ok := by
  obtain ⟨s, hs⟩ := hs
  unfold RideSetVehicleAction.Execute
  simp only [hr, hs]
  cases (env.UpdateMaxVehicles _ _).1.overall_view <;> rfl

/-- Where validation and application agree: when Query returns Ok on a state,
Execute on the same state returns Ok too, except possibly for a NumCarsPerTrain
command on a ride whose own ride entry is missing. -/
theorem RideSetVehicleAction.execute_ok_of_query_ok (env : Env) (a : RideSetVehicleAction)
    (w : World) (ride : Ride) (hk : RideEffectsKeep env)
    (hr : GetRide w a.rideIndex = some ride)
    (hq : (RideSetVehicleAction.Query env a w).1.Error = Status.Ok)
    (hne : a.type = RideSetVehicleType.NumCarsPerTrain →
      (GetRideEntryByIndex w ride.subtype).isSome = true) :
    (RideSetVehicleAction.Execute env a w).1.Error = Status.Ok := by
  obtain ⟨k1, k2, k3⟩ := RideSetVehicleAction.prepare_keeps env hk ride w
  by_cases t0 : a.type = RideSetVehicleType.NumTrains
  · exact RideSetVehicleAction.Execute_of_switch_ok env a w ride hr
      (by unfold RideSetVehicleAction.ExecuteSwitch; rw [if_pos t0]; exact ⟨_, rfl⟩)
  by_cases t1 : a.type = RideSetVehicleType.NumCarsPerTrain
  · cases he : GetRideEntryByIndex w ride.subtype with
    | none => rw [he] at hne; exact absurd (hne t1) (by decide)
    | some rideEntry =>
      have he2 : GetRideEntryByIndex
          (env.InvalidateTestResults (RideSetVehicleAction.prepare env ride w).1
            (RideSetVehicleAction.prepare env ride w).2).2
          (env.InvalidateTestResults (RideSetVehicleAction.prepare env ride w).1
            (RideSetVehicleAction.prepare env ride w).2).1.subtype = some rideEntry := by
        unfold GetRideEntryByIndex at he ⊢
        rw [k1, k2, he]
      exact RideSetVehicleAction.Execute_of_switch_ok env a w ride hr
        (by unfold RideSetVehicleAction.ExecuteSwitch; simp only [if_neg t0, if_pos t1, he2]; exact ⟨_, rfl⟩)
  by_cases t2 : a.type = RideSetVehicleType.RideEntry
  · cases he : GetRideEntryByIndex w a.value with
    | none =>
      exfalso
      unfold RideSetVehicleAction.Query at hq
      have hno : ¬ (a.type = RideSetVehicleType.NumTrains
          ∨ a.type = RideSetVehicleType.NumCarsPerTrain
          ∨ a.type = RideSetVehicleType.TrainsReversed) := by
        rw [t2]; decide
      simp only [hr, he, if_neg hno, if_pos t2] at hq
      split_ifs at hq <;> simp [Result.err] at hq
    | some rideEntry =>
      have he2 : GetRideEntryByIndex
          (env.InvalidateTestResults (RideSetVehicleAction.prepare env ride w).1
            (RideSetVehicleAction.prepare env ride w).2).2 a.value = some rideEntry := by
        unfold GetRideEntryByIndex at he ⊢
        rw [k2, he]
      by_cases hc : (env.RideSetVehicleColoursToRandomPreset
          { (env.InvalidateTestResults (RideSetVehicleAction.prepare env ride w).1
              (RideSetVehicleAction.prepare env ride w).2).1 with subtype := a.value } a.colour
          (env.InvalidateTestResults (RideSetVehicleAction.prepare env ride w).1
            (RideSetVehicleAction.prepare env ride w).2).2).2.cheatDisableTrainLengthLimit = false
      · exact RideSetVehicleAction.Execute_of_switch_ok env a w ride hr
          (by unfold RideSetVehicleAction.ExecuteSwitch
              simp only [if_neg t0, if_neg t1, if_pos t2, he2, if_pos hc]
              exact ⟨_, rfl⟩)
      · exact RideSetVehicleAction.Execute_of_switch_ok env a w ride hr
          (by unfold RideSetVehicleAction.ExecuteSwitch
              simp only [if_neg t0, if_neg t1, if_pos t2, he2, if_neg hc]
              exact ⟨_, rfl⟩)
  by_cases t3 : a.type = RideSetVehicleType.TrainsReversed
  · exact RideSetVehicleAction.Execute_of_switch_ok env a w ride hr
      (by unfold RideSetVehicleAction.ExecuteSwitch
          simp only [if_neg t0, if_neg t1, if_neg t2, if_pos t3]
          exact ⟨_, rfl⟩)
  · exfalso
    unfold RideSetVehicleAction.Query at hq
    have hno : ¬ (a.type = RideSetVehicleType.NumTrains
        ∨ a.type = RideSetVehicleType.NumCarsPerTrain
        ∨ a.type = RideSetVehicleType.TrainsReversed) := by
      rintro (h | h | h)
      · exact t0 h
      · exact t1 h
      · exact t3 h
    simp only [hr, if_neg hno, if_neg t2] at hq
    split_ifs at hq <;> simp [Result.err] at hq

/-! ## Tile sequences: removing -/

/-- The element the scan loop stops at passes the test. -/
theorem scanTile_some (p : TileElement → Bool) (es : List TileElement) (i : Nat)
    (h : scanTile p es = some i) : ∃ e, es[i]? = some e ∧ p e = true := by
  induction es generalizing i with
  | nil => simp [scanTile] at h
  | cons e es ih =>
    simp only [scanTile] at h
    by_cases h1 : p e = true
    · simp only [h1, if_true, Option.some.injEq] at h
      subst h
      exact ⟨e, by simp, h1⟩
    · by_cases h2 : e.lastForTile = true
      · simp [h1, h2] at h
      · simp only [h1, h2, if_false, Bool.false_eq_true] at h
        cases hs : scanTile p es with
        | none => simp [hs] at h
        | some k =>
          simp only [hs, Option.map_some', Option.some.injEq] at h
          subst h
          obtain ⟨e2, he2, hp2⟩ := ih k hs
          exact ⟨e2, by simpa using he2, hp2⟩

theorem countP_modify (p : TileElement → Bool) (f : TileElement → TileElement)
    (hp : ∀ e, p (f e) = p e) (es : List TileElement) (j : Nat) :
    (es.modify f j).countP p = es.countP p := by
  induction es generalizing j with
  | nil => cases j <;> rfl
  | cons e es ih =>
    cases j with
    | zero => simp [List.countP_cons, hp]
    | succ j =>
      rw [List.modify_succ_cons]
      simp [List.countP_cons, ih]

theorem countP_eraseIdx_of (p : TileElement → Bool) (es : List TileElement) (i : Nat)
    (e : TileElement) (he : es[i]? = some e) (hp : p e = true) :
    (es.eraseIdx i).countP p + 1 = es.countP p := by
  induction es generalizing i with
  | nil => simp at he
  | cons x xs ih =>
    cases i with
    | zero =>
      simp only [List.getElem?_cons_zero, Option.some.injEq] at he
      subst he
      simp [List.countP_cons, hp]
    | succ i =>
      simp only [List.getElem?_cons_succ] at he
      simp only [List.eraseIdx_cons_succ, List.countP_cons]
      have := ih i he
      omega

/-- Removing an element that passes a test which ignores the last-for-tile mark
lowers the number of elements passing it by one. -/
theorem countP_removeFromTile (p : TileElement → Bool)
    (hp : ∀ e, p { e with lastForTile := true } = p e) (es : List TileElement) (i : Nat)
    (e : TileElement) (he : es[i]? = some e) (hpe : p e = true) :
    (removeFromTile es i).countP p + 1 = es.countP p := by
  unfold removeFromTile
  split_ifs
  · rw [countP_modify p _ hp]
    exact countP_eraseIdx_of p es i e he hpe
  · exact countP_eraseIdx_of p es i e he hpe

theorem WallRemoveAction.GetFirstWallElementAt_eq (env : Env) (w : World) (location : CoordsXYZD)
    (g : Bool) :
    WallRemoveAction.GetFirstWallElementAt env w location g
      = ((w.tiles (tileOf env ⟨location.x, location.y⟩)).bind
          (scanTile (WallRemoveAction.isWallAt env location g))).map
          (fun i => (tileOf env ⟨location.x, location.y⟩, i)) := by
  unfold WallRemoveAction.GetFirstWallElementAt map_get_first_element_at
  cases w.tiles (tileOf env ⟨location.x, location.y⟩) <;> rfl

/-- The element `GetFirstWallElementAt` returns lies on the tile of the location
and is a wall at the location's height and direction whose ghost flag is the
one asked for. -/
theorem WallRemoveAction.GetFirstWallElementAt_some (env : Env) (w : World)
    (location : CoordsXYZD) (g : Bool) (ref : ElemRef)
    (h : WallRemoveAction.GetFirstWallElementAt env w location g = some ref) :
    ref.1 = tileOf env ⟨location.x, location.y⟩
      ∧ ∃ es e, w.tiles ref.1 = some es ∧ es[ref.2]? = some e
          ∧ e.type = TileElementType.Wall ∧ GetBaseZ env e = location.z
          ∧ e.direction = location.direction ∧ e.ghost = g := by
  rw [WallRemoveAction.GetFirstWallElementAt_eq] at h
  cases ht : w.tiles (tileOf env ⟨location.x, location.y⟩) with
  | none => simp [ht] at h
  | some es =>
    cases hs : scanTile (WallRemoveAction.isWallAt env location g) es with
    | none => simp [ht, hs] at h
    | some i =>
      simp only [ht, hs, Option.some_bind, Option.map_some', Option.some.injEq] at h
      subst h
      obtain ⟨e, he, hp⟩ := scanTile_some _ es i hs
      refine ⟨rfl, es, e, ht, he, ?_⟩
      simp only [WallRemoveAction.isWallAt, Bool.and_eq_true, decide_eq_true_eq, beq_iff_eq] at hp
      exact ⟨hp.1.1.1, hp.1.1.2, hp.1.2, hp.2⟩

/-- The state `Execute` leaves when a wall is found: the tiles of the state it
started from with the found element removed, provided the collaborators called
before the removal keep the tiles. -/
theorem WallRemoveAction.Execute_tiles (env : Env) (a : WallRemoveAction) (w : World)
    (ref : ElemRef) (hk : WallEffectsKeep env (fun s => s.tiles))
    (h : WallRemoveAction.GetFirstWallElementAt env w a.loc (hasGhostFlag env a.flags) = some ref) :
    (WallRemoveAction.Execute env a w).2.tiles
      = Function.update w.tiles ref.1 ((w.tiles ref.1).map (fun es => removeFromTile es ref.2)) := by
  unfold WallRemoveAction.Execute
  simp only [h, tile_element_remove]
  have h1 := hk.1
  have h2 := hk.2
  simp only at h1 h2
  rw [h2, h1]

/-- When Query returns Ok, the lookup for a wall with the command's ghost flag has found one. -/
theorem WallRemoveAction.Query_ok_found (env : Env) (a : WallRemoveAction) (w : World)
    (hq : (WallRemoveAction.Query env a w).1.Error = Status.Ok) :
    ∃ ref, WallRemoveAction.GetFirstWallElementAt env w a.loc (hasGhostFlag env a.flags)
      = some ref := by
  unfold WallRemoveAction.Query at hq
  simp only at hq
  split_ifs at hq
  · simp [Result.err] at hq
  · simp [Result.err] at hq
  · cases hf : WallRemoveAction.GetFirstWallElementAt env w a.loc (hasGhostFlag env a.flags) with
    | none => simp [hf, Result.err] at hq
    | some ref => exact ⟨ref, rfl⟩

/-- The Result of `Execute` when a wall is found. -/
theorem WallRemoveAction.Execute_result (env : Env) (a : WallRemoveAction) (w : World)
    (ref : ElemRef)
    (h : WallRemoveAction.GetFirstWallElementAt env w a.loc (hasGhostFlag env a.flags) = some ref) :
    (WallRemoveAction.Execute env a w).1
      = { Result.ok with
          Cost := 0, Expenditure := .Landscaping
          Position := some ⟨a.loc.x + 16, a.loc.y + 16,
            env.tile_element_height w ⟨a.loc.x + 16, a.loc.y + 16⟩⟩ } := by
  unfold WallRemoveAction.Execute
  simp only [h]

/-! ## WallRemoveAction: claims -/

/-- C11: when Query of a WallRemoveAction returns Ok on a state, it leaves the
state as it was, Execute on that state returns Ok, and afterwards the tile of
the command's location holds exactly one wall element fewer while every other
tile is as before; the collaborators called before the removal (banner entry
removal, tile invalidation) are taken to keep the tile elements. -/
theorem WallRemoveAction.execute_after_query (env : Env) (a : WallRemoveAction) (w : World)
    (hk : WallEffectsKeep env (fun s => s.tiles))
    (hq : (WallRemoveAction.Query env a w).1.Error = Status.Ok) :
    (WallRemoveAction.Query env a w).2 = w
      ∧ (WallRemoveAction.Execute env a w).1.Error = Status.Ok
      ∧ wallCount (WallRemoveAction.Execute env a w).2 (tileOf env ⟨a.loc.x, a.loc.y⟩) + 1
          = wallCount w (tileOf env ⟨a.loc.x, a.loc.y⟩)
      ∧ ∀ t, t ≠ tileOf env ⟨a.loc.x, a.loc.y⟩ →
          (WallRemoveAction.Execute env a w).2.tiles t = w.tiles t := by
  obtain ⟨ref, hf⟩ := WallRemoveAction.Query_ok_found env a w hq
  obtain ⟨ht, es, e, hes, he, hty, -, -, -⟩ :=
    WallRemoveAction.GetFirstWallElementAt_some env w a.loc _ ref hf
  have htiles := WallRemoveAction.Execute_tiles env a w ref hk hf
  refine ⟨?_, ?_, ?_, ?_⟩
  · unfold WallRemoveAction.Query
    simp only
    split_ifs
    · rfl
    · rfl
    · cases WallRemoveAction.GetFirstWallElementAt env w a.loc (hasGhostFlag env a.flags) <;> rfl
  · rw [WallRemoveAction.Execute_result env a w ref hf]
    rfl
  · unfold wallCount
    rw [htiles, ← ht, Function.update_same, hes]
    simp only [Option.map_some', Option.getD_some]
    exact countP_removeFromTile (fun e => decide (e.type = .Wall)) (fun _ => rfl) es ref.2 e he
      (by simp [hty])
  · intro t hne
    rw [htiles, ← ht] at *
    exact Function.update_noteq hne _ _

/-- C11 (witness): removing the real wall of tile (2, 2) of the sample wall world,
which holds two walls, leaves one. -/
theorem WallRemoveAction.execute_after_query_witness :
    wallCount sampleWallWorld (2, 2) = 2
      ∧ (WallRemoveAction.Execute sampleEnv sampleWallRemove sampleWallWorld).1.Error = Status.Ok
      ∧ wallCount (WallRemoveAction.Execute sampleEnv sampleWallRemove sampleWallWorld).2 (2, 2) + 1
          = wallCount sampleWallWorld (2, 2) :=
  ⟨by decide,
    (WallRemoveAction.execute_after_query sampleEnv sampleWallRemove sampleWallWorld
      ⟨fun _ _ => rfl, fun _ _ => rfl⟩ (by decide)).2.1,
    (WallRemoveAction.execute_after_query sampleEnv sampleWallRemove sampleWallWorld
      ⟨fun _ _ => rfl, fun _ _ => rfl⟩ (by decide)).2.2.1⟩

/-- C13: for a WallRemoveAction whose location is valid, Query returns NotOwned if
and only if the command does not carry the GHOST flag, the scenario editor
screen flag is off, sandbox mode is off and the location is not owned by the
park; so a ghost command, a scenario editor session and a sandbox session are
never rejected with NotOwned. -/
theorem WallRemoveAction.query_not_owned_iff (env : Env) (a : WallRemoveAction) (w : World)
    (hv : env.LocationValid w ⟨a.loc.x, a.loc.y⟩ = true) :
    ((WallRemoveAction.Query env a w).1.Error = Status.NotOwned
        ↔ (hasGhostFlag env a.flags = false
            ∧ w.gScreenFlags &&& env.SCREEN_FLAGS_SCENARIO_EDITOR = 0
            ∧ w.gCheatsSandboxMode = false
            ∧ env.map_is_location_owned w ⟨a.loc.x, a.loc.y, a.loc.z⟩ = false))
      ∧ (hasGhostFlag env a.flags = true →
          (WallRemoveAction.Query env a w).1.Error ≠ Status.NotOwned)
      ∧ (w.gScreenFlags &&& env.SCREEN_FLAGS_SCENARIO_EDITOR ≠ 0 →
          (WallRemoveAction.Query env a w).1.Error ≠ Status.NotOwned)
      ∧ (w.gCheatsSandboxMode = true →
          (WallRemoveAction.Query env a w).1.Error ≠ Status.NotOwned) := by
  have hiff : (WallRemoveAction.Query env a w).1.Error = Status.NotOwned
      ↔ (hasGhostFlag env a.flags = false
          ∧ w.gScreenFlags &&& env.SCREEN_FLAGS_SCENARIO_EDITOR = 0
          ∧ w.gCheatsSandboxMode = false
          ∧ env.map_is_location_owned w ⟨a.loc.x, a.loc.y, a.loc.z⟩ = false) := by
    unfold WallRemoveAction.Query
    have hv2 : ¬ env.LocationValid w ⟨a.loc.x, a.loc.y⟩ = false := by simp [hv]
    simp only [if_neg hv2]
    by_cases hc : hasGhostFlag env a.flags = false
        ∧ w.gScreenFlags &&& env.SCREEN_FLAGS_SCENARIO_EDITOR = 0
        ∧ w.gCheatsSandboxMode = false
        ∧ env.map_is_location_owned w ⟨a.loc.x, a.loc.y, a.loc.z⟩ = false
    · simp only [if_pos hc]
      exact ⟨fun _ => hc, fun _ => rfl⟩
    · simp only [if_neg hc]
      cases WallRemoveAction.GetFirstWallElementAt env w a.loc (hasGhostFlag env a.flags) <;>
        simp [Result.err, Result.ok, hc]
  refine ⟨hiff, ?_, ?_, ?_⟩
  · intro hg hn
    have := (hiff.mp hn).1
    rw [hg] at this
    exact absurd this (by decide)
  · intro hs hn
    exact hs (hiff.mp hn).2.1
  · intro hs hn
    have := (hiff.mp hn).2.2.1
    rw [hs] at this
    exact absurd this (by decide)

/-- C13 (witness): on land the park does not own, in play mode, removing the real
wall of the sample wall world is rejected with NotOwned. -/
theorem WallRemoveAction.query_not_owned_iff_witness :
    (WallRemoveAction.Query unownedEnv sampleWallRemove sampleWallWorld).1.Error
      = Status.NotOwned :=
  (WallRemoveAction.query_not_owned_iff unownedEnv sampleWallRemove sampleWallWorld
    (by decide)).1.mpr
    ⟨by decide, by decide, by decide, by decide⟩

/-- C16: every Ok Result returned by Query or by Execute of a WallRemoveAction has
Cost 0 and Expenditure Landscaping, for every location and state. -/
theorem WallRemoveAction.ok_result_cost (env : Env) (a : WallRemoveAction) (w : World) :
    ((WallRemoveAction.Query env a w).1.Error = Status.Ok →
        (WallRemoveAction.Query env a w).1.Cost = 0
          ∧ (WallRemoveAction.Query env a w).1.Expenditure = ExpenditureType.Landscaping)
      ∧ ((WallRemoveAction.Execute env a w).1.Error = Status.Ok →
          (WallRemoveAction.Execute env a w).1.Cost = 0
            ∧ (WallRemoveAction.Execute env a w).1.Expenditure = ExpenditureType.Landscaping) := by
  constructor
  · intro hq
    unfold WallRemoveAction.Query at hq ⊢
    simp only at hq ⊢
    split_ifs at hq ⊢
    · simp [Result.err] at hq
    · simp [Result.err] at hq
    · cases hf : WallRemoveAction.GetFirstWallElementAt env w a.loc (hasGhostFlag env a.flags) with
      | none => simp [hf, Result.err] at hq
      | some ref => exact ⟨rfl, rfl⟩
  · intro hx
    cases hf : WallRemoveAction.GetFirstWallElementAt env w a.loc (hasGhostFlag env a.flags) with
    | none =>
      unfold WallRemoveAction.Execute at hx
      simp [hf, Result.err] at hx
    | some ref =>
      rw [WallRemoveAction.Execute_result env a w ref hf]
      exact ⟨rfl, rfl⟩

/-- C16 (witness): the Ok Results of Query and Execute for the sample wall removal. -/
theorem WallRemoveAction.ok_result_cost_witness :
    ((WallRemoveAction.Query sampleEnv sampleWallRemove sampleWallWorld).1.Cost = 0
        ∧ (WallRemoveAction.Query sampleEnv sampleWallRemove sampleWallWorld).1.Expenditure
            = ExpenditureType.Landscaping)
      ∧ ((WallRemoveAction.Execute sampleEnv sampleWallRemove sampleWallWorld).1.Cost = 0
        ∧ (WallRemoveAction.Execute sampleEnv sampleWallRemove sampleWallWorld).1.Expenditure
            = ExpenditureType.Landscaping) :=
  ⟨(WallRemoveAction.ok_result_cost sampleEnv sampleWallRemove sampleWallWorld).1 (by decide),
    (WallRemoveAction.ok_result_cost sampleEnv sampleWallRemove sampleWallWorld).2 (by decide)⟩

/-- C12: Query of a RideSetVehicleAction returns Ok only if the ride exists, is not
broken down and has status Closed or Simulating; it returns InvalidParameters
when the ride does not exist, Broken when the ride exists and is broken down,
whatever its status, and NotClosed when the ride exists, is not broken down
and its status is neither Closed nor Simulating. -/
theorem RideSetVehicleAction.query_status (env : Env) (a : RideSetVehicleAction) (w : World) :
    ((RideSetVehicleAction.Query env a w).1.Error = Status.Ok →
        ∃ ride, GetRide w a.rideIndex = some ride
          ∧ ride.lifecycle_flags &&& env.RIDE_LIFECYCLE_BROKEN_DOWN = 0
          ∧ (ride.status = RideStatus.Closed ∨ ride.status = RideStatus.Simulating))
      ∧ (GetRide w a.rideIndex = none →
          (RideSetVehicleAction.Query env a w).1.Error = Status.InvalidParameters)
      ∧ (∀ ride, GetRide w a.rideIndex = some ride →
          ride.lifecycle_flags &&& env.RIDE_LIFECYCLE_BROKEN_DOWN ≠ 0 →
          (RideSetVehicleAction.Query env a w).1.Error = Status.Broken)
      ∧ (∀ ride, GetRide w a.rideIndex = some ride →
          ride.lifecycle_flags &&& env.RIDE_LIFECYCLE_BROKEN_DOWN = 0 →
          ride.status ≠ RideStatus.Closed → ride.status ≠ RideStatus.Simulating →
          (RideSetVehicleAction.Query env a w).1.Error = Status.NotClosed) := by
  refine ⟨?_, ?_, ?_, ?_⟩
  · intro hq
    unfold RideSetVehicleAction.Query at hq
    cases hr : GetRide w a.rideIndex with
    | none => simp [hr, Result.err] at hq
    | some ride =>
      simp only [hr] at hq
      by_cases hb : ride.lifecycle_flags &&& env.RIDE_LIFECYCLE_BROKEN_DOWN ≠ 0
      · simp [hb, Result.err] at hq
      · by_cases hs : ride.status ≠ RideStatus.Closed ∧ ride.status ≠ RideStatus.Simulating
        · simp only [if_neg hb, if_pos hs] at hq
          simp [Result.err] at hq
        · refine ⟨ride, rfl, by simpa using hb, ?_⟩
          by_cases hcl : ride.status = RideStatus.Closed
          · exact Or.inl hcl
          · by_cases hsi : ride.status = RideStatus.Simulating
            · exact Or.inr hsi
            · exact absurd ⟨hcl, hsi⟩ hs
  · intro hr
    unfold RideSetVehicleAction.Query
    simp [hr, Result.err]
  · intro ride hr hb
    unfold RideSetVehicleAction.Query
    simp only [hr, if_pos hb]
    rfl
  · intro ride hr hb hcl hsi
    unfold RideSetVehicleAction.Query
    have hb2 : ¬ ride.lifecycle_flags &&& env.RIDE_LIFECYCLE_BROKEN_DOWN ≠ 0 := by simp [hb]
    simp only [hr, if_neg hb2, if_pos (And.intro hcl hsi)]
    rfl

/-- C12 (witness): a missing ride gives InvalidParameters, the broken-down sample
ride gives Broken, the open sample ride gives NotClosed. -/
theorem RideSetVehicleAction.query_status_witness :
    (RideSetVehicleAction.Query sampleEnv ⟨7, 0, 1, 0, 0⟩ sampleRideWorld).1.Error
        = Status.InvalidParameters
      ∧ (RideSetVehicleAction.Query sampleEnv ⟨0, 0, 1, 0, 0⟩ brokenRideWorld).1.Error
        = Status.Broken
      ∧ (RideSetVehicleAction.Query sampleEnv ⟨0, 0, 1, 0, 0⟩ openRideWorld).1.Error
        = Status.NotClosed :=
  ⟨(RideSetVehicleAction.query_status sampleEnv ⟨7, 0, 1, 0, 0⟩ sampleRideWorld).2.1 (by decide),
    (RideSetVehicleAction.query_status sampleEnv ⟨0, 0, 1, 0, 0⟩ brokenRideWorld).2.2.1
      { sampleRide with lifecycle_flags := 128 } (by decide) (by decide),
    (RideSetVehicleAction.query_status sampleEnv ⟨0, 0, 1, 0, 0⟩ openRideWorld).2.2.2
      { sampleRide with status := .Open } (by decide) (by decide) (by decide) (by decide)⟩

/-! ## RideSetVehicleAction: the error title table -/

/-- C15 (code at the failing input): for a command whose type is 4, the value of
`RideSetVehicleType::Count`, on the sample ride world, the index used for the
4-entry title table is 4, which is not below its length; Query and Execute
return InvalidParameters with a title read outside the table. -/
theorem RideSetVehicleAction.title_out_of_bounds :
    SetVehicleTypeErrorTitle.length = 4
      ∧ ¬ ((⟨0, 4, 5, 0, 0⟩ : RideSetVehicleAction).type < SetVehicleTypeErrorTitle.length)
      ∧ (RideSetVehicleAction.Query sampleEnv ⟨0, 4, 5, 0, 0⟩ sampleRideWorld).1.ErrorTitle = none
      ∧ (RideSetVehicleAction.Query sampleEnv ⟨0, 4, 5, 0, 0⟩ sampleRideWorld).1.Error
          = Status.InvalidParameters
      ∧ (RideSetVehicleAction.Execute sampleEnv ⟨0, 4, 5, 0, 0⟩ sampleRideWorld).1.ErrorTitle = none
      ∧ (RideSetVehicleAction.Execute sampleEnv ⟨0, 4, 5, 0, 0⟩ sampleRideWorld).1.Error
          = Status.InvalidParameters := by
  decide

/-- For a type that is none of the four defined kinds, Query and Execute return a
Result whose status is not Ok, and Execute leaves the state as it was. -/
theorem RideSetVehicleAction.unknown_type_not_ok (env : Env) (a : RideSetVehicleAction) (w : World)
    (ht : RideSetVehicleType.Count ≤ a.type) :
    (RideSetVehicleAction.Query env a w).1.Error ≠ Status.Ok
      ∧ (RideSetVehicleAction.Execute env a w).1.Error = Status.InvalidParameters := by
  have t0 : ¬ a.type = RideSetVehicleType.NumTrains := by
    intro h; rw [h] at ht; exact absurd ht (by decide)
  have t1 : ¬ a.type = RideSetVehicleType.NumCarsPerTrain := by
    intro h; rw [h] at ht; exact absurd ht (by decide)
  have t2 : ¬ a.type = RideSetVehicleType.RideEntry := by
    intro h; rw [h] at ht; exact absurd ht (by decide)
  have t3 : ¬ a.type = RideSetVehicleType.TrainsReversed := by
    intro h; rw [h] at ht; exact absurd ht (by decide)
  constructor
  · unfold RideSetVehicleAction.Query
    cases hr : GetRide w a.rideIndex with
    | none => simp [Result.err]
    | some ride =>
      have hno : ¬ (a.type = RideSetVehicleType.NumTrains
          ∨ a.type = RideSetVehicleType.NumCarsPerTrain
          ∨ a.type = RideSetVehicleType.TrainsReversed) := by
        rintro (h | h | h)
        · exact t0 h
        · exact t1 h
        · exact t3 h
      simp only [if_neg hno, if_neg t2]
      split_ifs <;> simp [Result.err]
  · unfold RideSetVehicleAction.Execute
    cases hr : GetRide w a.rideIndex with
    | none => rfl
    | some ride =>
      simp only [RideSetVehicleAction.ExecuteSwitch, if_neg t0, if_neg t1, if_neg t2, if_neg t3]
      rfl

/-! ## RideSetVehicleAction: the proposed number of cars stays in range -/

theorem clamp_mem (v lo hi : Nat) (h : lo ≤ hi) : lo ≤ clamp v lo hi ∧ clamp v lo hi ≤ hi := by
  unfold clamp
  split_ifs <;> omega

/-- When the `switch` of Execute runs to its end, the ride Execute leaves has the
proposed number of cars that the `switch` left. -/
theorem RideSetVehicleAction.Execute_proposed_of_switch (env : Env) (a : RideSetVehicleAction)
    (w : World) (ride ride1 : Ride) (w1 : World) (hk : RideEffectsKeep env)
    (hr : GetRide w a.rideIndex = some ride)
    (hs : RideSetVehicleAction.ExecuteSwitch env a ride w = .ok (ride1, w1)) :
    ∃ r, (RideSetVehicleAction.Execute env a w).2.rides a.rideIndex = some r
      ∧ r.proposed_num_cars_per_train = ride1.proposed_num_cars_per_train := by
  obtain ⟨-, -, -, hu, hcb, hgfx⟩ := hk
  unfold RideSetVehicleAction.Execute
  simp only [hr, hs]
  rw [hgfx, hcb]
  refine ⟨(env.UpdateMaxVehicles { ride1 with num_circuits := 1 } w1).1, ?_, ?_⟩
  · simp only [setRide, Function.update_same]
  · rw [hu]

/-- C18: with the DisableTrainLengthLimit cheat off, a ride entry with
min_cars_in_train <= max_cars_in_train and collaborators that keep the fields
involved, Execute of a NumCarsPerTrain command on a ride whose entry is that
one, and Execute of a RideEntry command that selects that entry, leave the
ride's proposed_num_cars_per_train within [min_cars_in_train,
max_cars_in_train]. -/
theorem RideSetVehicleAction.execute_cars_in_range (env : Env) (a : RideSetVehicleAction)
    (w : World) (ride : Ride) (rideEntry : RideEntry)
    (hk : RideEffectsKeep env) (hp : ColourPresetKeepsCheat env)
    (hr : GetRide w a.rideIndex = some ride)
    (hc : w.cheatDisableTrainLengthLimit = false)
    (hmm : rideEntry.min_cars_in_train ≤ rideEntry.max_cars_in_train) :
    (a.type = RideSetVehicleType.NumCarsPerTrain →
        GetRideEntryByIndex w ride.subtype = some rideEntry →
        ∃ r, (RideSetVehicleAction.Execute env a w).2.rides a.rideIndex = some r
          ∧ rideEntry.min_cars_in_train ≤ r.proposed_num_cars_per_train
          ∧ r.proposed_num_cars_per_train ≤ rideEntry.max_cars_in_train)
      ∧ (a.type = RideSetVehicleType.RideEntry →
          GetRideEntryByIndex w a.value = some rideEntry →
          ∃ r, (RideSetVehicleAction.Execute env a w).2.rides a.rideIndex = some r
            ∧ rideEntry.min_cars_in_train ≤ r.proposed_num_cars_per_train
            ∧ r.proposed_num_cars_per_train ≤ rideEntry.max_cars_in_train) := by
  obtain ⟨k1, k2, k3⟩ := RideSetVehicleAction.prepare_keeps env hk ride w
  constructor
  · intro ht he
    have t0 : ¬ a.type = RideSetVehicleType.NumTrains := by rw [ht]; decide
    have he2 : GetRideEntryByIndex
        (env.InvalidateTestResults (RideSetVehicleAction.prepare env ride w).1
          (RideSetVehicleAction.prepare env ride w).2).2
        (env.InvalidateTestResults (RideSetVehicleAction.prepare env ride w).1
          (RideSetVehicleAction.prepare env ride w).2).1.subtype = some rideEntry := by
      unfold GetRideEntryByIndex at he ⊢
      rw [k1, k2, he]
    have hsw : RideSetVehicleAction.ExecuteSwitch env a ride w
        = .ok ({ (env.InvalidateTestResults (RideSetVehicleAction.prepare env ride w).1
                  (RideSetVehicleAction.prepare env ride w).2).1 with
                proposed_num_cars_per_train :=
                  clamp (a.value % 256) rideEntry.min_cars_in_train rideEntry.max_cars_in_train },
              (env.InvalidateTestResults (RideSetVehicleAction.prepare env ride w).1
                (RideSetVehicleAction.prepare env ride w).2).2) := by
      unfold RideSetVehicleAction.ExecuteSwitch
      simp only [if_neg t0, if_pos ht, he2, k3, hc, if_true]
    obtain ⟨r, hr1, hr2⟩ :=
      RideSetVehicleAction.Execute_proposed_of_switch env a w ride _ _ hk hr hsw
    refine ⟨r, hr1, ?_⟩
    rw [hr2]
    exact clamp_mem _ _ _ hmm
  · intro ht he
    have t0 : ¬ a.type = RideSetVehicleType.NumTrains := by rw [ht]; decide
    have t1 : ¬ a.type = RideSetVehicleType.NumCarsPerTrain := by rw [ht]; decide
    have he2 : GetRideEntryByIndex
        (env.InvalidateTestResults (RideSetVehicleAction.prepare env ride w).1
          (RideSetVehicleAction.prepare env ride w).2).2 a.value = some rideEntry := by
      unfold GetRideEntryByIndex at he ⊢
      rw [k2, he]
    have hcheat : (env.RideSetVehicleColoursToRandomPreset
        { (env.InvalidateTestResults (RideSetVehicleAction.prepare env ride w).1
            (RideSetVehicleAction.prepare env ride w).2).1 with subtype := a.value } a.colour
        (env.InvalidateTestResults (RideSetVehicleAction.prepare env ride w).1
          (RideSetVehicleAction.prepare env ride w).2).2).2.cheatDisableTrainLengthLimit = false := by
      rw [hp, k3, hc]
    have hsw : ∃ s, RideSetVehicleAction.ExecuteSwitch env a ride w = .ok s
        ∧ s.1.proposed_num_cars_per_train
          = clamp (env.RideSetVehicleColoursToRandomPreset
              { (env.InvalidateTestResults (RideSetVehicleAction.prepare env ride w).1
                  (RideSetVehicleAction.prepare env ride w).2).1 with subtype := a.value } a.colour
              (env.InvalidateTestResults (RideSetVehicleAction.prepare env ride w).1
                (RideSetVehicleAction.prepare env ride w).2).2).1.proposed_num_cars_per_train
              rideEntry.min_cars_in_train rideEntry.max_cars_in_train := by
      unfold RideSetVehicleAction.ExecuteSwitch
      simp only [if_neg t0, if_neg t1, if_pos ht, he2, if_pos hcheat]
      exact ⟨_, rfl, rfl⟩
    obtain ⟨s, hs1, hs2⟩ := hsw
    obtain ⟨r, hr1, hr2⟩ :=
      RideSetVehicleAction.Execute_proposed_of_switch env a w ride s.1 s.2 hk hr hs1
    refine ⟨r, hr1, ?_⟩
    rw [hr2, hs2]
    exact clamp_mem _ _ _ hmm

/-- The sample colour preset collaborator keeps the cheat. -/
theorem sampleEnv_colourPresetKeepsCheat : ColourPresetKeepsCheat sampleEnv :=
  fun _ _ _ => rfl

/-- C18 (witness): in the sample ride world (entry 0 allows 1 to 10 cars) a request
for 200 cars per train and a re-selection of entry 0 both leave the proposed
number of cars between 1 and 10. -/
theorem RideSetVehicleAction.execute_cars_in_range_witness :
    (∃ r, (RideSetVehicleAction.Execute sampleEnv ⟨0, RideSetVehicleType.NumCarsPerTrain, 200, 0, 0⟩
          sampleRideWorld).2.rides 0 = some r
        ∧ 1 ≤ r.proposed_num_cars_per_train ∧ r.proposed_num_cars_per_train ≤ 10)
      ∧ (∃ r, (RideSetVehicleAction.Execute sampleEnv ⟨0, RideSetVehicleType.RideEntry, 0, 0, 0⟩
          sampleRideWorld).2.rides 0 = some r
        ∧ 1 ≤ r.proposed_num_cars_per_train ∧ r.proposed_num_cars_per_train ≤ 10) :=
  ⟨(RideSetVehicleAction.execute_cars_in_range sampleEnv
      ⟨0, RideSetVehicleType.NumCarsPerTrain, 200, 0, 0⟩ sampleRideWorld sampleRide ⟨1, 10, 3⟩
      sampleEnv_rideEffectsKeep sampleEnv_colourPresetKeepsCheat rfl rfl (by decide)).1 rfl rfl,
    (RideSetVehicleAction.execute_cars_in_range sampleEnv
      ⟨0, RideSetVehicleType.RideEntry, 0, 0, 0⟩ sampleRideWorld sampleRide ⟨1, 10, 3⟩
      sampleEnv_rideEffectsKeep sampleEnv_colourPresetKeepsCheat rfl rfl (by decide)).2 rfl rfl⟩

/-! ## PlaceParkEntranceAction: the editor-mode check and the Result of success -/

/-- The loop of Query returns early only with NoClearance or ItemAlreadyPlaced. -/
theorem PlaceParkEntranceAction.QueryLoop_status (env : Env) (a : PlaceParkEntranceAction)
    (w : World) (idxs : List Nat) (p : CoordsXY) (r : Result)
    (h : PlaceParkEntranceAction.QueryLoop env a w idxs p = some r) :
    r.Error = Status.NoClearance ∨ r.Error = Status.ItemAlreadyPlaced := by
  induction idxs generalizing p with
  | nil => simp [PlaceParkEntranceAction.QueryLoop] at h
  | cons index rest ih =>
    simp only [PlaceParkEntranceAction.QueryLoop] at h
    split_ifs at h with h1 h2
    · simp only [Option.some.injEq] at h
      subst h
      exact Or.inl rfl
    · simp only [Option.some.injEq] at h
      subst h
      exact Or.inr rfl
    · exact ih _ h

/-- Past the editor-mode check, Query returns a Result that is the Result of success,
or has one of the statuses NoFreeElements, InvalidParameters, NoClearance and
ItemAlreadyPlaced. -/
theorem PlaceParkEntranceAction.Query_past_mode (env : Env) (a : PlaceParkEntranceAction)
    (w : World)
    (hm : ¬ (w.gScreenFlags &&& env.SCREEN_FLAGS_EDITOR = 0 ∧ w.gCheatsSandboxMode = false)) :
    (PlaceParkEntranceAction.Query env a w).1
        = { Result.ok with Expenditure := .LandPurchase,
                           Position := some ⟨a.loc.x, a.loc.y, a.loc.z⟩ }
      ∨ (PlaceParkEntranceAction.Query env a w).1.Error = Status.NoFreeElements
      ∨ (PlaceParkEntranceAction.Query env a w).1.Error = Status.InvalidParameters
      ∨ (PlaceParkEntranceAction.Query env a w).1.Error = Status.NoClearance
      ∨ (PlaceParkEntranceAction.Query env a w).1.Error = Status.ItemAlreadyPlaced := by
  unfold PlaceParkEntranceAction.Query
  rw [if_neg hm]
  simp only
  split_ifs with h1 h2 h3
  · exact Or.inr (Or.inl rfl)
  · exact Or.inr (Or.inr (Or.inl rfl))
  · exact Or.inr (Or.inr (Or.inl rfl))
  · cases hl : PlaceParkEntranceAction.QueryLoop env a
        (env.map_check_free_elements_and_reorganise 3 w).2 [0, 1, 2] ⟨a.loc.x, a.loc.y⟩ with
    | none => exact Or.inl rfl
    | some r =>
      rcases PlaceParkEntranceAction.QueryLoop_status env a _ _ _ r hl with h | h
      · exact Or.inr (Or.inr (Or.inr (Or.inl h)))
      · exact Or.inr (Or.inr (Or.inr (Or.inr h)))

/-- With the editor screen flag off and sandbox mode off, Query returns
NotInEditorMode. -/
theorem PlaceParkEntranceAction.query_not_in_editor_aux (env : Env)
    (a : PlaceParkEntranceAction) (w : World)
    (hm : w.gScreenFlags &&& env.SCREEN_FLAGS_EDITOR = 0 ∧ w.gCheatsSandboxMode = false) :
    (PlaceParkEntranceAction.Query env a w).1.Error = Status.NotInEditorMode := by
  unfold PlaceParkEntranceAction.Query
  rw [if_pos hm]
  rfl

/-- C14: Query of a PlaceParkEntranceAction returns NotInEditorMode if and only if
the editor screen flag is off and sandbox mode is off, for every command
(hence every location) and every world state (hence every free-element
capacity and every number of existing park entrances). -/
theorem PlaceParkEntranceAction.query_not_in_editor_iff (env : Env)
    (a : PlaceParkEntranceAction) (w : World) :
    (PlaceParkEntranceAction.Query env a w).1.Error = Status.NotInEditorMode
      ↔ (w.gScreenFlags &&& env.SCREEN_FLAGS_EDITOR = 0 ∧ w.gCheatsSandboxMode = false) := by
  constructor
  · intro h
    by_contra hm
    rcases PlaceParkEntranceAction.Query_past_mode env a w hm with h1 | h1 | h1 | h1 | h1
    · rw [h1] at h; exact absurd h (by simp [Result.ok])
    · rw [h1] at h; exact absurd h (by decide)
    · rw [h1] at h; exact absurd h (by decide)
    · rw [h1] at h; exact absurd h (by decide)
    · rw [h1] at h; exact absurd h (by decide)
  · exact PlaceParkEntranceAction.query_not_in_editor_aux env a w

/-- C20: when Query of a PlaceParkEntranceAction at location loc returns Ok, its
Result has Position (loc.x, loc.y, loc.z) and Expenditure LandPurchase, and
every Result that Execute returns, on any state and for ghost and non-ghost
commands alike, has that Position and that Expenditure. -/
theorem PlaceParkEntranceAction.ok_result_position (env : Env) (a : PlaceParkEntranceAction)
    (w : World) :
    ((PlaceParkEntranceAction.Query env a w).1.Error = Status.Ok →
        (PlaceParkEntranceAction.Query env a w).1.Position = some ⟨a.loc.x, a.loc.y, a.loc.z⟩
          ∧ (PlaceParkEntranceAction.Query env a w).1.Expenditure = ExpenditureType.LandPurchase)
      ∧ (∀ (w0 : World) (r : Result) (w1 : World),
          PlaceParkEntranceAction.Execute env a w0 = some (r, w1) →
          r.Error = Status.Ok ∧ r.Position = some ⟨a.loc.x, a.loc.y, a.loc.z⟩
            ∧ r.Expenditure = ExpenditureType.LandPurchase) := by
  constructor
  · intro h
    by_cases hm : w.gScreenFlags &&& env.SCREEN_FLAGS_EDITOR = 0 ∧ w.gCheatsSandboxMode = false
    · rw [(PlaceParkEntranceAction.query_not_in_editor_aux env a w hm)] at h
      exact absurd h (by decide)
    · rcases PlaceParkEntranceAction.Query_past_mode env a w hm with h1 | h1 | h1 | h1 | h1
      · rw [h1]; exact ⟨rfl, rfl⟩
      · rw [h1] at h; exact absurd h (by decide)
      · rw [h1] at h; exact absurd h (by decide)
      · rw [h1] at h; exact absurd h (by decide)
      · rw [h1] at h; exact absurd h (by decide)
  · intro w0 r w1 h
    obtain ⟨_, _, _, _, _, hr⟩ := PlaceParkEntranceAction.Execute_some env a w0 r w1 h
    rw [hr]
    exact ⟨rfl, rfl, rfl⟩

/-- C20 (witness): in the sample editor world, Query of the sample entrance is Ok
with Position (160, 160, 112) and Expenditure LandPurchase, and Execute of
the sample entrance and of its ghost return a Result with the same two fields. -/
theorem PlaceParkEntranceAction.ok_result_position_witness :
    (PlaceParkEntranceAction.Query sampleEnv sampleEntrance sampleEditorWorld).1.Position
        = some ⟨160, 160, 112⟩
      ∧ (PlaceParkEntranceAction.Query sampleEnv sampleEntrance sampleEditorWorld).1.Expenditure
        = ExpenditureType.LandPurchase
      ∧ (∃ r w1, PlaceParkEntranceAction.Execute sampleEnv ghostEntrance sampleEditorWorld
            = some (r, w1)
          ∧ r.Position = some ⟨160, 160, 112⟩ ∧ r.Expenditure = ExpenditureType.LandPurchase) :=
  ⟨((PlaceParkEntranceAction.ok_result_position sampleEnv sampleEntrance sampleEditorWorld).1
      (by decide)).1,
    ((PlaceParkEntranceAction.ok_result_position sampleEnv sampleEntrance sampleEditorWorld).1
      (by decide)).2,
    _, _, rfl,
    ((PlaceParkEntranceAction.ok_result_position sampleEnv ghostEntrance sampleEditorWorld).2
      sampleEditorWorld _ _ rfl).2⟩

/-! ## GetActionFlags -/

/-- A 16-bit OR: the result is the OR itself, contains the added flag, and has
exactly the bits of the two operands. -/
theorem or_flag_u16 (b f : Nat) (hb : b < 65536) (hf : f < 65536) :
    (b ||| f) % 65536 = b ||| f
      ∧ ((b ||| f) % 65536) &&& f = f
      ∧ ((b ||| f) % 65536) &&& b = b
      ∧ ∀ i, ((b ||| f) % 65536).testBit i = (b.testBit i || f.testBit i) := by
  have hlt : b ||| f < 65536 := by
    have : b ||| f < 2 ^ 16 := Nat.or_lt_two_pow (by simpa using hb) (by simpa using hf)
    simpa using this
  have hmod : (b ||| f) % 65536 = b ||| f := Nat.mod_eq_of_lt hlt
  rw [hmod]
  refine ⟨rfl, ?_, ?_, fun i => Nat.testBit_or b f i⟩
  · apply Nat.eq_of_testBit_eq
    intro i
    rw [Nat.testBit_and, Nat.testBit_or]
    cases b.testBit i <;> cases f.testBit i <;> rfl
  · apply Nat.eq_of_testBit_eq
    intro i
    rw [Nat.testBit_and, Nat.testBit_or]
    cases b.testBit i <;> cases f.testBit i <;> rfl

/-- C17: with 16-bit base flags and flag constants, GetActionFlags of a
PlaceParkEntranceAction is the bitwise OR of the base action flags with
EditorOnly and GetActionFlags of a RideSetVehicleAction is the bitwise OR of
the base action flags with AllowWhilePaused: the added flag is set, every
base flag bit stays set, and a bit of the result is a bit of the base flags
or of the added flag. -/
theorem GetActionFlags_or (env : Env) (a : PlaceParkEntranceAction) (b : RideSetVehicleAction)
    (ha : env.GameActionGetActionFlags a.flags < 65536)
    (hb : env.GameActionGetActionFlags b.flags < 65536)
    (he : env.FlagsEditorOnly < 65536) (hp : env.FlagsAllowWhilePaused < 65536) :
    (PlaceParkEntranceAction.GetActionFlags env a
          = env.GameActionGetActionFlags a.flags ||| env.FlagsEditorOnly
        ∧ PlaceParkEntranceAction.GetActionFlags env a &&& env.FlagsEditorOnly
          = env.FlagsEditorOnly
        ∧ PlaceParkEntranceAction.GetActionFlags env a &&& env.GameActionGetActionFlags a.flags
          = env.GameActionGetActionFlags a.flags
        ∧ ∀ i, (PlaceParkEntranceAction.GetActionFlags env a).testBit i
          = ((env.GameActionGetActionFlags a.flags).testBit i || env.FlagsEditorOnly.testBit i))
      ∧ (RideSetVehicleAction.GetActionFlags env b
          = env.GameActionGetActionFlags b.flags ||| env.FlagsAllowWhilePaused
        ∧ RideSetVehicleAction.GetActionFlags env b &&& env.FlagsAllowWhilePaused
          = env.FlagsAllowWhilePaused
        ∧ RideSetVehicleAction.GetActionFlags env b &&& env.GameActionGetActionFlags b.flags
          = env.GameActionGetActionFlags b.flags
        ∧ ∀ i, (RideSetVehicleAction.GetActionFlags env b).testBit i
          = ((env.GameActionGetActionFlags b.flags).testBit i
              || env.FlagsAllowWhilePaused.testBit i)) :=
  ⟨or_flag_u16 _ _ ha he, or_flag_u16 _ _ hb hp⟩

/-- C17 (witness): with the sample constants (base flags 2 for a ghost command,
EditorOnly 4, AllowWhilePaused 1) the ghost entrance has action flags 6 and a
ghost vehicle command has action flags 3. -/
theorem GetActionFlags_or_witness :
    PlaceParkEntranceAction.GetActionFlags sampleEnv ghostEntrance = 2 ||| 4
      ∧ RideSetVehicleAction.GetActionFlags sampleEnv ⟨0, 0, 1, 0, 64⟩ = 2 ||| 1 :=
  ⟨(GetActionFlags_or sampleEnv ghostEntrance ⟨0, 0, 1, 0, 64⟩
      (by decide) (by decide) (by decide) (by decide)).1.1,
    (GetActionFlags_or sampleEnv ghostEntrance ⟨0, 0, 1, 0, 64⟩
      (by decide) (by decide) (by decide) (by decide)).2.1⟩

/-! ## The scan loop on a delimited tile -/

/-- No element stored before the one the scan stops at passes the test. -/
theorem scanTile_first (p : TileElement → Bool) (es : List TileElement) (i : Nat)
    (h : scanTile p es = some i) :
    ∀ j, j < i → ∀ e, es[j]? = some e → p e = false := by
  induction es generalizing i with
  | nil => simp [scanTile] at h
  | cons e es ih =>
    simp only [scanTile] at h
    by_cases h1 : p e = true
    · simp only [h1, if_true, Option.some.injEq] at h
      subst h
      intro j hj
      omega
    · by_cases h2 : e.lastForTile = true
      · simp [h1, h2] at h
      · simp only [h1, h2, if_false, Bool.false_eq_true] at h
        cases hs : scanTile p es with
        | none => simp [hs] at h
        | some k =>
          simp only [hs, Option.map_some', Option.some.injEq] at h
          subst h
          intro j hj e2 he2
          cases j with
          | zero =>
            simp only [List.getElem?_cons_zero, Option.some.injEq] at he2
            subst he2
            simpa using h1
          | succ j =>
            exact ih k hs j (by omega) e2 (by simpa using he2)

/-- On a delimited tile the scan finds nothing exactly when no element passes the test. -/
theorem scanTile_none_iff (p : TileElement → Bool) (es : List TileElement)
    (hw : tileEndsAtLast es = true) :
    scanTile p es = none ↔ ∀ e ∈ es, p e = false := by
  induction es with
  | nil => simp [tileEndsAtLast] at hw
  | cons e es ih =>
    cases es with
    | nil =>
      simp only [tileEndsAtLast] at hw
      by_cases h1 : p e = true
      · simp [scanTile, h1]
      · simp [scanTile, h1, hw]
    | cons e2 es =>
      simp only [tileEndsAtLast, Bool.and_eq_true, Bool.not_eq_true'] at hw
      obtain ⟨hl, hw2⟩ := hw
      by_cases h1 : p e = true
      · simp [scanTile, h1]
      · have h1f : p e = false := by simpa using h1
        have ih2 := ih hw2
        simp only [scanTile, h1f, hl, if_false, Bool.false_eq_true, Option.map_eq_none',
          List.mem_cons, forall_eq_or_imp, true_and] at ih2 ⊢
        exact ih2

/-- On a delimited tile the scan does not depend on what is stored after the tile. -/
theorem scanTile_append (p : TileElement → Bool) (es rest : List TileElement)
    (hw : tileEndsAtLast es = true) :
    scanTile p (es ++ rest) = scanTile p es := by
  induction es with
  | nil => simp [tileEndsAtLast] at hw
  | cons e es ih =>
    cases es with
    | nil =>
      simp only [tileEndsAtLast] at hw
      simp [scanTile, hw]
    | cons e2 es =>
      simp only [tileEndsAtLast, Bool.and_eq_true, Bool.not_eq_true'] at hw
      obtain ⟨hl, hw2⟩ := hw
      have ih2 := ih hw2
      simp only [List.cons_append] at ih2 ⊢
      rw [scanTile, scanTile.eq_2 p e (e2 :: es), ih2]

theorem WallRemoveAction.isWallAt_iff (env : Env) (location : CoordsXYZD) (isGhost : Bool)
    (e : TileElement) :
    WallRemoveAction.isWallAt env location isGhost e = true
      ↔ WallRemoveAction.matchesWall env location isGhost e := by
  unfold WallRemoveAction.isWallAt WallRemoveAction.matchesWall
  simp only [Bool.and_eq_true, decide_eq_true_eq, beq_iff_eq]
  tauto

theorem WallRemoveAction.isWallAt_false_iff (env : Env) (location : CoordsXYZD) (isGhost : Bool)
    (e : TileElement) :
    WallRemoveAction.isWallAt env location isGhost e = false
      ↔ ¬ WallRemoveAction.matchesWall env location isGhost e := by
  rw [← WallRemoveAction.isWallAt_iff]
  simp

/-! ## WallRemoveAction: the wall lookup -/

/-- C21: `GetFirstWallElementAt` returns null when the tile is absent.  On a tile
whose element sequence ends with the element marked last-for-tile (that mark
delimits the tile, so no earlier element carries it) the lookup returns null
exactly when no element of the tile is a wall with base height location.z,
direction location.direction and IsGhost equal to the ghost flag; otherwise
it returns the first such element in storage order, on the tile of the
location; and it does not read past the marked element: whatever is stored
after the tile, the result is the same. -/
theorem WallRemoveAction.first_wall_element (env : Env) (w : World) (location : CoordsXYZD)
    (isGhost : Bool) :
    (w.tiles (tileOf env ⟨location.x, location.y⟩) = none →
        WallRemoveAction.GetFirstWallElementAt env w location isGhost = none)
      ∧ ∀ es, w.tiles (tileOf env ⟨location.x, location.y⟩) = some es →
          tileEndsAtLast es = true →
          (WallRemoveAction.GetFirstWallElementAt env w location isGhost = none
              ↔ ∀ e ∈ es, ¬ WallRemoveAction.matchesWall env location isGhost e)
            ∧ (∀ ref, WallRemoveAction.GetFirstWallElementAt env w location isGhost = some ref →
                ref.1 = tileOf env ⟨location.x, location.y⟩
                  ∧ ∃ e, es[ref.2]? = some e
                    ∧ WallRemoveAction.matchesWall env location isGhost e
                    ∧ ∀ j, j < ref.2 → ∀ e2, es[j]? = some e2 →
                        ¬ WallRemoveAction.matchesWall env location isGhost e2)
            ∧ ∀ rest,
                WallRemoveAction.GetFirstWallElementAt env
                    { w with
                      tiles := Function.update w.tiles (tileOf env ⟨location.x, location.y⟩)
                        (some (es ++ rest)) } location isGhost
                  = WallRemoveAction.GetFirstWallElementAt env w location isGhost := by
  constructor
  · intro hn
    rw [WallRemoveAction.GetFirstWallElementAt_eq, hn]
    rfl
  · intro es hes hw
    refine ⟨?_, ?_, ?_⟩
    · rw [WallRemoveAction.GetFirstWallElementAt_eq, hes]
      simp only [Option.some_bind, Option.map_eq_none']
      rw [scanTile_none_iff _ _ hw]
      constructor
      · intro h e he
        exact (WallRemoveAction.isWallAt_false_iff env location isGhost e).mp (h e he)
      · intro h e he
        exact (WallRemoveAction.isWallAt_false_iff env location isGhost e).mpr (h e he)
    · intro ref href
      rw [WallRemoveAction.GetFirstWallElementAt_eq, hes] at href
      simp only [Option.some_bind] at href
      cases hs : scanTile (WallRemoveAction.isWallAt env location isGhost) es with
      | none => simp [hs] at href
      | some i =>
        simp only [hs, Option.map_some', Option.some.injEq] at href
        subst href
        obtain ⟨e, he, hp⟩ := scanTile_some _ es i hs
        refine ⟨rfl, e, he, (WallRemoveAction.isWallAt_iff env location isGhost e).mp hp, ?_⟩
        intro j hj e2 he2
        exact (WallRemoveAction.isWallAt_false_iff env location isGhost e2).mp
          (scanTile_first _ es i hs j hj e2 he2)
    · intro rest
      rw [WallRemoveAction.GetFirstWallElementAt_eq, WallRemoveAction.GetFirstWallElementAt_eq]
      simp only [Function.update_same, hes, Option.some_bind]
      rw [scanTile_append _ _ _ hw]

/-- C21 (witness): on tile (2, 2) of the sample wall world, which ends with its
marked element, the lookup with the ghost flag returns the element at index 2,
the ghost wall, and the real wall stored before it does not match. -/
theorem WallRemoveAction.first_wall_element_witness :
    ∃ e, [{ sampleSurface with lastForTile := false }, sampleWall false false,
          sampleWall true true][2]? = some e
      ∧ WallRemoveAction.matchesWall sampleEnv ⟨64, 64, 112, 1⟩ true e
      ∧ ∀ j, j < 2 → ∀ e2,
          [{ sampleSurface with lastForTile := false }, sampleWall false false,
            sampleWall true true][j]? = some e2 →
          ¬ WallRemoveAction.matchesWall sampleEnv ⟨64, 64, 112, 1⟩ true e2 :=
  (((WallRemoveAction.first_wall_element sampleEnv sampleWallWorld ⟨64, 64, 112, 1⟩ true).2
      [{ sampleSurface with lastForTile := false }, sampleWall false false, sampleWall true true]
      (by decide) (by decide)).2.1 ((2, 2), 2) (by decide)).2

/-! ## PlaceParkEntranceAction: the footprint of validation and of application -/

/-- The index `(d - 1) & 3` computed on integers is the index the loops use. -/
theorem dirMinus1_eq_land (d : Nat) : (Int.land ((d : Int) - 1) 3).toNat = dirMinus1 d := by
  unfold dirMinus1
  cases d with
  | zero =>
    have h0 : Nat.ldiff 3 0 = 3 := by
      apply Nat.eq_of_testBit_eq
      intro i
      simp [Nat.testBit_ldiff]
    show (((Nat.ldiff 3 0 : Nat) : Int)).toNat = _
    rw [h0]
    rfl
  | succ n =>
    have h : (((n + 1 : Nat) : Int) - 1) = (n : Int) := by push_cast; ring
    rw [h]
    show (((n &&& 3 : Nat) : Int)).toNat = _
    have h3 : n &&& 3 = n % 4 := Nat.and_pow_two_sub_one_eq_mod n 2
    rw [h3]
    omega

/-- The index `(d + 1) & 3` is the index the loops use. -/
theorem dirPlus1_eq_land (d : Nat) : (d + 1) &&& 3 = dirPlus1 d :=
  Nat.and_pow_two_sub_one_eq_mod (d + 1) 2

/-- The loop of Query validates the tiles that `entranceLoc` runs through. -/
theorem PlaceParkEntranceAction.QueryLoop_eq_checkTiles (env : Env)
    (a : PlaceParkEntranceAction) (w : World) (idxs : List Nat) (p : CoordsXY) :
    PlaceParkEntranceAction.QueryLoop env a w idxs p
      = PlaceParkEntranceAction.checkTiles env a w (entranceLocs env a.loc.direction idxs p) := by
  induction idxs generalizing p with
  | nil => rfl
  | cons index rest ih =>
    simp only [PlaceParkEntranceAction.QueryLoop, entranceLocs,
      PlaceParkEntranceAction.checkTiles, ih]

/-- The loop of Execute writes to the tiles that `entranceLoc` runs through. -/
theorem PlaceParkEntranceAction.ExecuteLoop_eq_writeTiles (env : Env)
    (a : PlaceParkEntranceAction) (idxs : List Nat) (p : CoordsXY) (w : World) :
    PlaceParkEntranceAction.ExecuteLoop env a idxs p w
      = PlaceParkEntranceAction.writeTiles env a
          (idxs.zip (entranceLocs env a.loc.direction idxs p)) w := by
  induction idxs generalizing p w with
  | nil => rfl
  | cons index rest ih =>
    simp only [PlaceParkEntranceAction.ExecuteLoop, entranceLocs, List.zip_cons_cons,
      PlaceParkEntranceAction.writeTiles]
    cases PlaceParkEntranceAction.ExecuteBody env a index
        (nextEntranceLoc env a.loc.direction index p) w with
    | none => rfl
    | some w1 => exact ih _ w1

/-- The tiles that `entranceLoc` runs through in both loops are those of the
footprint as the specification words it. -/
theorem PlaceParkEntranceAction.footprint_eq_spec (env : Env) (a : PlaceParkEntranceAction) :
    PlaceParkEntranceAction.footprint env a
      = PlaceParkEntranceAction.footprintSpec env a.loc := by
  unfold PlaceParkEntranceAction.footprint PlaceParkEntranceAction.footprintSpec
  simp only [entranceLocs, nextEntranceLoc, dirMinus1_eq_land, dirPlus1_eq_land]
  simp [mul_comm]

/-- C22: for every command at loc with direction d and every state, the tiles
that the loop of Query validates, in order, and the tiles that the loop of
Execute writes to, in order and with sequence indices 0, 1 and 2, are the
same three: loc, loc + Delta[(d - 1) & 3] and
loc + Delta[(d - 1) & 3] + 2 * Delta[(d + 1) & 3]. -/
theorem PlaceParkEntranceAction.footprint_agrees (env : Env) (a : PlaceParkEntranceAction)
    (w : World) :
    PlaceParkEntranceAction.QueryLoop env a w [0, 1, 2] ⟨a.loc.x, a.loc.y⟩
        = PlaceParkEntranceAction.checkTiles env a w
            (PlaceParkEntranceAction.footprintSpec env a.loc)
      ∧ PlaceParkEntranceAction.ExecuteLoop env a [0, 1, 2] ⟨a.loc.x, a.loc.y⟩ w
        = PlaceParkEntranceAction.writeTiles env a
            ([0, 1, 2].zip (PlaceParkEntranceAction.footprintSpec env a.loc)) w
      ∧ (PlaceParkEntranceAction.footprintSpec env a.loc).length = 3 := by
  refine ⟨?_, ?_, rfl⟩
  · rw [PlaceParkEntranceAction.QueryLoop_eq_checkTiles,
      ← PlaceParkEntranceAction.footprint_eq_spec]
    rfl
  · rw [PlaceParkEntranceAction.ExecuteLoop_eq_writeTiles,
      ← PlaceParkEntranceAction.footprint_eq_spec]
    rfl

/-! ## PlaceParkEntranceAction: the elements Execute inserts -/

/-- The insertion loop adds one element, the new one, and keeps the others in
order and with what they held. -/
theorem insertIntoTile_spec (step z : Int) (mk : Bool → TileElement) (es : List TileElement) :
    ∃ b, (insertIntoTile step z mk es).2[(insertIntoTile step z mk es).1]? = some (mk b)
      ∧ ((insertIntoTile step z mk es).2.eraseIdx (insertIntoTile step z mk es).1).map
          TileElement.content = es.map TileElement.content := by
  induction es with
  | nil => exact ⟨true, by simp [insertIntoTile], by simp [insertIntoTile]⟩
  | cons e es ih =>
    simp only [insertIntoTile]
    split_ifs with h1 h2
    · exact ⟨true, by simp, by simp [TileElement.content]⟩
    · obtain ⟨b, hb1, hb2⟩ := ih
      exact ⟨b, by simpa using hb1, by simpa using hb2⟩
    · exact ⟨false, by simp, by simp⟩

/-- The element written by lines 144-163 holds what a placed element holds. -/
theorem PlaceParkEntranceAction.fillElement_isPlaced (env : Env) (a : PlaceParkEntranceAction)
    (index pathType quadrants : Nat) (b : Bool) (hi : index < 16) :
    PlaceParkEntranceAction.isPlacedElement env a index
      (PlaceParkEntranceAction.fillElement env a index pathType
        (blankElement (a.loc.z.tdiv env.COORDS_Z_STEP) quadrants b)) := by
  unfold PlaceParkEntranceAction.isPlacedElement PlaceParkEntranceAction.fillElement
  by_cases hg : hasGhostFlag env a.flags = true
  · simp [hg, SetType, SetClearanceZ, SetGhost, SetDirection, SetSequenceIndex, SetEntranceType,
      SetPathType, blankElement, Nat.mod_eq_of_lt hi]
  · simp [hg, SetType, SetClearanceZ, SetGhost, SetDirection, SetSequenceIndex, SetEntranceType,
      SetPathType, blankElement, Nat.mod_eq_of_lt hi]

/-- Lines 135-142 write to the tile of `entranceLoc` only. -/
theorem PlaceParkEntranceAction.disown_tiles_other (env : Env) (a : PlaceParkEntranceAction)
    (p : CoordsXY) (w : World) (t : TilePos) (ht : t ≠ tileOf env p) :
    (PlaceParkEntranceAction.disown env a p w).tiles t = w.tiles t := by
  unfold PlaceParkEntranceAction.disown
  by_cases hg : hasGhostFlag env a.flags = false
  · rw [if_pos hg, map_get_surface_element_at_eq]
    cases hs : ((w.tiles (tileOf env p)).bind (scanTile isSurface)) with
    | none => rfl
    | some i =>
      simp only [Option.map_some', modifyElem]
      exact Function.update_noteq ht _ _
  · rw [if_neg hg]

/-- Lines 135-142 read and write tile elements only. -/
theorem PlaceParkEntranceAction.disown_tiles_entrances (env : Env) (a : PlaceParkEntranceAction)
    (p : CoordsXY) (w : World) (l : List CoordsXYZD) :
    (PlaceParkEntranceAction.disown env a p { w with gParkEntrances := l }).tiles
      = (PlaceParkEntranceAction.disown env a p w).tiles := by
  unfold PlaceParkEntranceAction.disown
  by_cases hg : hasGhostFlag env a.flags = false
  · rw [if_pos hg, if_pos hg, map_get_surface_element_at_eq, map_get_surface_element_at_eq]
    cases hs : ((w.tiles (tileOf env p)).bind (scanTile isSurface)) with
    | none => rfl
    | some i => rfl
  · rw [if_neg hg, if_neg hg]

/-- One iteration of the loop of Execute adds one placed element on its tile. -/
theorem PlaceParkEntranceAction.ExecuteBody_insertsAt (env : Env) (a : PlaceParkEntranceAction)
    (index : Nat) (p : CoordsXY) (w w1 : World) (hi : index < 16)
    (hk : PlaceEffectsKeep env (fun s => s.tiles))
    (hf : hasGhostFlag env a.flags = false → FootpathConnectKeeps env (fun s => s.tiles))
    (h : PlaceParkEntranceAction.ExecuteBody env a index p w = some w1) :
    PlaceParkEntranceAction.InsertsAt env a index p w w1 := by
  obtain ⟨ref, w2, hins, hobs⟩ :=
    PlaceParkEntranceAction.ExecuteBody_obs env a index p w w1 (fun s => s.tiles) hk hf h
  obtain ⟨es, hes, htiles, -, -⟩ := tile_element_insert_fill env _ _ _ ref w2
    (PlaceParkEntranceAction.fillElement env a index w2.gFootpathSelectedId) hins
  have hchk := hk.1 1 (PlaceParkEntranceAction.disown env a p w)
  simp only at hobs hchk hes htiles
  rw [hchk] at hes htiles
  obtain ⟨b, hb1, hb2⟩ := insertIntoTile_spec env.COORDS_Z_STEP a.loc.z
    (fun b => PlaceParkEntranceAction.fillElement env a index w2.gFootpathSelectedId
      (blankElement (a.loc.z.tdiv env.COORDS_Z_STEP) 15 b)) es
  refine ⟨es, _, _, _, hes, ?_, hb1,
    PlaceParkEntranceAction.fillElement_isPlaced env a index _ 15 b hi, hb2, ?_⟩
  · rw [hobs, htiles, Function.update_same]
  · intro t ht
    rw [hobs, htiles, Function.update_noteq ht]
    exact PlaceParkEntranceAction.disown_tiles_other env a p w t ht

/-- An iteration of the loop of Execute other than the first does not call
`map_animation_create`. -/
theorem PlaceParkEntranceAction.ExecuteBody_no_animation (env : Env)
    (a : PlaceParkEntranceAction) (index : Nat) (p : CoordsXY) (w : World)
    (f : Nat → CoordsXYZ → World → World) (hi : index ≠ 0) :
    PlaceParkEntranceAction.ExecuteBody { env with map_animation_create := f } a index p w
      = PlaceParkEntranceAction.ExecuteBody env a index p w := by
  unfold PlaceParkEntranceAction.ExecuteBody
  simp only [if_neg hi]
  rfl

/-- The first iteration of the loop of Execute calls `map_animation_create` once,
last, for the park entrance animation at its tile and the command's height. -/
theorem PlaceParkEntranceAction.ExecuteBody_animation (env : Env)
    (a : PlaceParkEntranceAction) (p : CoordsXY) (w : World) :
    PlaceParkEntranceAction.ExecuteBody env a 0 p w
      = (PlaceParkEntranceAction.ExecuteBody
          { env with map_animation_create := fun _ _ s => s } a 0 p w).map
          (env.map_animation_create env.MAP_ANIMATION_TYPE_PARK_ENTRANCE ⟨p.x, p.y, a.loc.z⟩) := by
  unfold PlaceParkEntranceAction.ExecuteBody
  simp only [if_true]
  cases h : tile_element_insert env ⟨p.x, p.y, a.loc.z⟩ 15
      (PlaceParkEntranceAction.disown env a p w) with
  | none =>
    have h2 : tile_element_insert { env with map_animation_create := fun _ _ s => s }
        ⟨p.x, p.y, a.loc.z⟩ 15
        (PlaceParkEntranceAction.disown { env with map_animation_create := fun _ _ s => s } a p w)
        = none := h
    simp only [h2]
    rfl
  | some rw2 =>
    have h2 : tile_element_insert { env with map_animation_create := fun _ _ s => s }
        ⟨p.x, p.y, a.loc.z⟩ 15
        (PlaceParkEntranceAction.disown { env with map_animation_create := fun _ _ s => s } a p w)
        = some rw2 := h
    simp only [h2]
    rfl

/-- C23 (counterexample): in the sample editor world, Execute of a park entrance at
height 113, which is not a multiple of the height step 8, leaves on tile
(5, 5) the surface and an entrance element whose base height reads back as
112, not 113, and whose clearance height reads back as 208, not 209; Execute
of a park entrance with direction 5 leaves an entrance element with
direction 1. -/
theorem PlaceParkEntranceAction.unaligned_height_truncated :
    ((PlaceParkEntranceAction.Execute sampleEnv ⟨⟨160, 160, 113, 0⟩, 0⟩ sampleEditorWorld).bind
        (fun rw => rw.2.tiles (5, 5))).map
        (fun es => es.map
          (fun e => (e.type, GetBaseZ sampleEnv e, GetClearanceZ sampleEnv e)))
        = some [(TileElementType.Surface, 112, 112), (TileElementType.Entrance, 112, 208)]
      ∧ (113 : Int) + sampleEnv.ParkEntranceHeight = 209
      ∧ ((PlaceParkEntranceAction.Execute sampleEnv ⟨⟨160, 160, 112, 5⟩, 0⟩
          sampleEditorWorld).bind (fun rw => rw.2.tiles (5, 5))).map
          (fun es => es.map (fun e => (e.type, e.direction)))
        = some [(TileElementType.Surface, 0), (TileElementType.Entrance, 1)] := by
  decide

/-- C23 (amended): let the collaborators of Execute keep the tile elements, and
let Execute return (its three element insertions succeed).  Then Execute adds
exactly three elements, one per footprint tile in footprint order, each a
placed entrance element: type entrance, base height loc.z and clearance
height loc.z + ParkEntranceHeight in stored units (divided by the height
step, truncated, modulo 256), direction loc.direction modulo 4, entrance type
park entrance, sequence index 0, 1, 2, and ghost mark equal to the command's
GHOST flag; the other elements of these tiles keep their order and what they
hold (apart from the ownership that lines 135-142 write and the last-for-tile
mark), and every other tile is unchanged.  For a height that is a multiple of
the height step within the 8-bit range and a direction below 4 the stored
values read back as loc.z, loc.z + ParkEntranceHeight and loc.direction.
`map_animation_create` is called in the iteration with sequence index 0 only. -/
theorem PlaceParkEntranceAction.execute_inserts (env : Env) (a : PlaceParkEntranceAction)
    (w : World) (r : Result) (w3 : World)
    (hk : PlaceEffectsKeep env (fun s => s.tiles))
    (hf : hasGhostFlag env a.flags = false → FootpathConnectKeeps env (fun s => s.tiles))
    (h : PlaceParkEntranceAction.Execute env a w = some (r, w3)) :
    (∃ w1 w2 p0 p1 p2,
        PlaceParkEntranceAction.footprintSpec env a.loc = [p0, p1, p2]
          ∧ PlaceParkEntranceAction.InsertsAt env a 0 p0 w w1
          ∧ PlaceParkEntranceAction.InsertsAt env a 1 p1 w1 w2
          ∧ PlaceParkEntranceAction.InsertsAt env a 2 p2 w2 w3)
      ∧ (∀ index e, PlaceParkEntranceAction.isPlacedElement env a index e →
          (e.ghost = true ↔ a.flags &&& env.GAME_COMMAND_FLAG_GHOST ≠ 0))
      ∧ (0 < env.COORDS_Z_STEP → a.loc.direction < 4 →
          (∃ b, 0 ≤ b ∧ b < 256 ∧ a.loc.z = b * env.COORDS_Z_STEP) →
          (∃ c, 0 ≤ c ∧ c < 256 ∧ a.loc.z + env.ParkEntranceHeight = c * env.COORDS_Z_STEP) →
          ∀ index e, PlaceParkEntranceAction.isPlacedElement env a index e →
            GetBaseZ env e = a.loc.z
              ∧ GetClearanceZ env e = a.loc.z + env.ParkEntranceHeight
              ∧ e.direction = a.loc.direction)
      ∧ (∀ (f : Nat → CoordsXYZ → World → World) (index : Nat) (p : CoordsXY) (s : World),
          index ≠ 0 →
          PlaceParkEntranceAction.ExecuteBody { env with map_animation_create := f } a index p s
            = PlaceParkEntranceAction.ExecuteBody env a index p s)
      ∧ (∀ (p : CoordsXY) (s : World),
          PlaceParkEntranceAction.ExecuteBody env a 0 p s
            = (PlaceParkEntranceAction.ExecuteBody
                { env with map_animation_create := fun _ _ s => s } a 0 p s).map
                (env.map_animation_create env.MAP_ANIMATION_TYPE_PARK_ENTRANCE
                  ⟨p.x, p.y, a.loc.z⟩)) := by
  refine ⟨?_, ?_, ?_, ?_, ?_⟩
  · obtain ⟨w1, w2, h0, h1, h2, -⟩ := PlaceParkEntranceAction.Execute_some env a w r w3 h
    have i0 := PlaceParkEntranceAction.ExecuteBody_insertsAt env a 0 _ _ w1 (by decide) hk hf h0
    have i1 := PlaceParkEntranceAction.ExecuteBody_insertsAt env a 1 _ w1 w2 (by decide) hk hf h1
    have i2 := PlaceParkEntranceAction.ExecuteBody_insertsAt env a 2 _ w2 w3 (by decide) hk hf h2
    refine ⟨w1, w2, _, _, _,
      (PlaceParkEntranceAction.footprint_eq_spec env a).symm.trans rfl, ?_, i1, i2⟩
    obtain ⟨es, es1, i, e, hes, hes1, hi, hp, hm, ho⟩ := i0
    rw [PlaceParkEntranceAction.disown_tiles_entrances] at hes
    exact ⟨es, es1, i, e, hes, hes1, hi, hp, hm, ho⟩
  · intro index e he
    obtain ⟨-, -, -, -, -, -, hg⟩ := he
    rw [hg]
    unfold hasGhostFlag
    simp
  · intro hs hd hb hc index e he
    obtain ⟨-, hbase, hclear, hdir, -, -, -⟩ := he
    obtain ⟨b, hb0, hb1, hbz⟩ := hb
    obtain ⟨c, hc0, hc1, hcz⟩ := hc
    refine ⟨?_, ?_, ?_⟩
    · unfold GetBaseZ
      rw [hbase, hbz, Int.mul_tdiv_cancel b (ne_of_gt hs), Int.emod_eq_of_lt hb0 hb1]
    · unfold GetClearanceZ
      rw [hclear, hcz, Int.mul_tdiv_cancel c (ne_of_gt hs), Int.emod_eq_of_lt hc0 hc1]
    · rw [hdir, Nat.mod_eq_of_lt hd]
  · intro f index p s hi
    exact PlaceParkEntranceAction.ExecuteBody_no_animation env a index p s f hi
  · intro p s
    exact PlaceParkEntranceAction.ExecuteBody_animation env a p s

/-- C23 (witness): the sample entrance in the sample editor world.  Execute
returns, its footprint is (160, 160), (160, 128), (160, 192), one placed
element is added on each of these tiles, and a placed element reads back
height 112, clearance 208 and direction 0. -/
theorem PlaceParkEntranceAction.execute_inserts_witness :
    (∃ w1 w2 p0 p1 p2,
        PlaceParkEntranceAction.footprintSpec sampleEnv sampleEntrance.loc = [p0, p1, p2]
          ∧ PlaceParkEntranceAction.InsertsAt sampleEnv sampleEntrance 0 p0 sampleEditorWorld w1
          ∧ PlaceParkEntranceAction.InsertsAt sampleEnv sampleEntrance 1 p1 w1 w2
          ∧ PlaceParkEntranceAction.InsertsAt sampleEnv sampleEntrance 2 p2 w2
              (PlaceParkEntranceAction.run sampleEnv sampleEntrance sampleEditorWorld))
      ∧ PlaceParkEntranceAction.footprintSpec sampleEnv sampleEntrance.loc
          = [⟨160, 160⟩, ⟨160, 128⟩, ⟨160, 192⟩]
      ∧ ∀ index e, PlaceParkEntranceAction.isPlacedElement sampleEnv sampleEntrance index e →
          GetBaseZ sampleEnv e = 112 ∧ GetClearanceZ sampleEnv e = 112 + 96 ∧ e.direction = 0 :=
  ⟨(PlaceParkEntranceAction.execute_inserts sampleEnv sampleEntrance sampleEditorWorld _
      (PlaceParkEntranceAction.run sampleEnv sampleEntrance sampleEditorWorld)
      (sampleEnv_keeps _).1 (fun _ => (sampleEnv_keeps _).2) rfl).1,
    (PlaceParkEntranceAction.footprint_eq_spec sampleEnv sampleEntrance).symm.trans (by decide),
    (PlaceParkEntranceAction.execute_inserts sampleEnv sampleEntrance sampleEditorWorld _
      (PlaceParkEntranceAction.run sampleEnv sampleEntrance sampleEditorWorld)
      (sampleEnv_keeps _).1 (fun _ => (sampleEnv_keeps _).2) rfl).2.2.1
      (by decide) (by decide) ⟨14, by decide, by decide, by decide⟩
      ⟨26, by decide, by decide, by decide⟩⟩

/-! ## PlaceParkEntranceAction: the limit on park entrances -/

/-- When Query returns Ok, the entrance list it tested, after the capacity check,
holds fewer than MAX_PARK_ENTRANCES entries. -/
theorem PlaceParkEntranceAction.Query_ok_length (env : Env) (a : PlaceParkEntranceAction)
    (w : World) (h : (PlaceParkEntranceAction.Query env a w).1.Error = Status.Ok) :
    (env.map_check_free_elements_and_reorganise 3 w).2.gParkEntrances.length
      < env.MAX_PARK_ENTRANCES := by
  unfold PlaceParkEntranceAction.Query at h
  by_cases hm : w.gScreenFlags &&& env.SCREEN_FLAGS_EDITOR = 0 ∧ w.gCheatsSandboxMode = false
  · rw [if_pos hm] at h
    simp [Result.err] at h
  · rw [if_neg hm] at h
    simp only at h
    split_ifs at h with h1 h2 h3
    · simp [Result.err] at h
    · simp [Result.err] at h
    · simp [Result.err] at h
    · exact Nat.lt_of_not_le h3

/-- Query leaves the state it was given or the state the capacity check left. -/
theorem PlaceParkEntranceAction.Query_state (env : Env) (a : PlaceParkEntranceAction)
    (w : World) :
    (PlaceParkEntranceAction.Query env a w).2 = w
      ∨ (PlaceParkEntranceAction.Query env a w).2
          = (env.map_check_free_elements_and_reorganise 3 w).2 := by
  unfold PlaceParkEntranceAction.Query
  by_cases hm : w.gScreenFlags &&& env.SCREEN_FLAGS_EDITOR = 0 ∧ w.gCheatsSandboxMode = false
  · rw [if_pos hm]
    exact Or.inl rfl
  · rw [if_neg hm]
    simp only
    split_ifs
    · exact Or.inr rfl
    · exact Or.inr rfl
    · exact Or.inr rfl
    · cases PlaceParkEntranceAction.QueryLoop env a
          (env.map_check_free_elements_and_reorganise 3 w).2 [0, 1, 2] ⟨a.loc.x, a.loc.y⟩ with
      | none => exact Or.inr rfl
      | some r => exact Or.inr rfl

/-- Query keeps the entrance list when the capacity check does. -/
theorem PlaceParkEntranceAction.Query_gParkEntrances (env : Env) (a : PlaceParkEntranceAction)
    (w : World) (hk : PlaceEffectsKeep env (fun s => s.gParkEntrances)) :
    (PlaceParkEntranceAction.Query env a w).2.gParkEntrances = w.gParkEntrances := by
  rcases PlaceParkEntranceAction.Query_state env a w with h | h
  · rw [h]
  · rw [h]
    exact hk.1 3 w

/-- One step of a session keeps the entrance list or appends one entry to a list
that held fewer than MAX_PARK_ENTRANCES entries. -/
theorem PlaceParkEntranceAction.Step_gParkEntrances (env : Env) (w w2 : World)
    (hk : PlaceEffectsKeep env (fun s => s.gParkEntrances))
    (hf : FootpathConnectKeeps env (fun s => s.gParkEntrances))
    (h : PlaceParkEntranceAction.Step env w w2) :
    w2.gParkEntrances = w.gParkEntrances
      ∨ (w.gParkEntrances.length < env.MAX_PARK_ENTRANCES
          ∧ ∃ a : PlaceParkEntranceAction, w2.gParkEntrances = w.gParkEntrances ++ [a.loc]) := by
  cases h with
  | rejected a _ hq => exact Or.inl (PlaceParkEntranceAction.Query_gParkEntrances env a w hk)
  | applied a _ w1 r _ hq hw1 hex =>
    right
    have hlen := PlaceParkEntranceAction.Query_ok_length env a w hq
    have hc : (env.map_check_free_elements_and_reorganise 3 w).2.gParkEntrances
        = w.gParkEntrances := hk.1 3 w
    rw [hc] at hlen
    have happ := PlaceParkEntranceAction.Execute_gParkEntrances env a w1 r w2 hk (fun _ => hf) hex
    have hw1e : w1.gParkEntrances = w.gParkEntrances := by
      rcases hw1 with h1 | h1
      · rw [h1]
      · rw [h1]
        exact PlaceParkEntranceAction.Query_gParkEntrances env a w hk
    rw [hw1e] at happ
    exact ⟨hlen, a, happ⟩

/-- C24: let the collaborators of Query and Execute keep gParkEntrances.  Every
Execute that runs after Query returned Ok on the same state (on that state or
on the state Query left) appends exactly one entry, the command's location,
after the existing entries, to a list that then holds at most
MAX_PARK_ENTRANCES entries; and from a state with at most MAX_PARK_ENTRANCES
entries, every sequence of steps of validated commands leads to a state with
at most MAX_PARK_ENTRANCES entries whose list starts with the original one. -/
theorem PlaceParkEntranceAction.entrance_limit (env : Env)
    (hk : PlaceEffectsKeep env (fun s => s.gParkEntrances))
    (hf : FootpathConnectKeeps env (fun s => s.gParkEntrances)) :
    (∀ (a : PlaceParkEntranceAction) (w w1 : World) (r : Result) (w2 : World),
        (PlaceParkEntranceAction.Query env a w).1.Error = Status.Ok →
        (w1 = w ∨ w1 = (PlaceParkEntranceAction.Query env a w).2) →
        PlaceParkEntranceAction.Execute env a w1 = some (r, w2) →
        w2.gParkEntrances = w.gParkEntrances ++ [a.loc]
          ∧ w2.gParkEntrances.length ≤ env.MAX_PARK_ENTRANCES)
      ∧ ∀ w w2 : World, w.gParkEntrances.length ≤ env.MAX_PARK_ENTRANCES →
          Relation.ReflTransGen (PlaceParkEntranceAction.Step env) w w2 →
          w2.gParkEntrances.length ≤ env.MAX_PARK_ENTRANCES
            ∧ ∃ added, w2.gParkEntrances = w.gParkEntrances ++ added := by
  constructor
  · intro a w w1 r w2 hq hw1 hex
    have hlen := PlaceParkEntranceAction.Query_ok_length env a w hq
    have hc : (env.map_check_free_elements_and_reorganise 3 w).2.gParkEntrances
        = w.gParkEntrances := hk.1 3 w
    rw [hc] at hlen
    have happ := PlaceParkEntranceAction.Execute_gParkEntrances env a w1 r w2 hk
      (fun _ => hf) hex
    have hw1e : w1.gParkEntrances = w.gParkEntrances := by
      rcases hw1 with h1 | h1
      · rw [h1]
      · rw [h1]
        exact PlaceParkEntranceAction.Query_gParkEntrances env a w hk
    rw [hw1e] at happ
    refine ⟨happ, ?_⟩
    rw [happ, List.length_append]
    simp only [List.length_singleton]
    omega
  · intro w w2 hlen hsteps
    induction hsteps with
    | refl => exact ⟨hlen, [], by simp⟩
    | tail _ hstep ih =>
      obtain ⟨hl, added, hadd⟩ := ih
      rcases PlaceParkEntranceAction.Step_gParkEntrances env _ _ hk hf hstep with h | ⟨hlt, a, h⟩
      · rw [h]
        exact ⟨hl, added, hadd⟩
      · rw [h]
        refine ⟨?_, added ++ [a.loc], ?_⟩
        · rw [List.length_append]
          simp only [List.length_singleton]
          omega
        · rw [hadd, List.append_assoc]

/-- C24 (witness): in the sample editor world the sample entrance is validated and
applied; the entrance list then holds its location, one entry of the four
allowed. -/
theorem PlaceParkEntranceAction.entrance_limit_witness :
    (PlaceParkEntranceAction.run sampleEnv sampleEntrance sampleEditorWorld).gParkEntrances
        = sampleEditorWorld.gParkEntrances ++ [sampleEntrance.loc]
      ∧ (PlaceParkEntranceAction.run sampleEnv sampleEntrance sampleEditorWorld).gParkEntrances.length
        ≤ sampleEnv.MAX_PARK_ENTRANCES :=
  (PlaceParkEntranceAction.entrance_limit sampleEnv (sampleEnv_keeps _).1 (sampleEnv_keeps _).2).1
    sampleEntrance sampleEditorWorld sampleEditorWorld _
    (PlaceParkEntranceAction.run sampleEnv sampleEntrance sampleEditorWorld)
    (by decide) (Or.inl rfl) rfl

/-! ## RideSetVehicleAction: the state a failing Execute leaves -/

/-- Writing back the ride that is stored changes nothing. -/
theorem setRide_same (w : World) (rideIndex : Nat) (ride : Ride)
    (h : GetRide w rideIndex = some ride) : setRide rideIndex ride w = w := by
  unfold setRide
  unfold GetRide at h
  rw [← h, Function.update_eq_self]

/-- C25 (counterexample): in the sample ride world without ride entries, Execute
of a NumCarsPerTrain command returns InvalidParameters and leaves the ride
with vehicle_change_timeout 100 instead of 0; in the sample ride world,
Execute of a RideEntry command for the missing entry 9 returns
InvalidParameters and leaves the ride with subtype 9 instead of 0. -/
theorem RideSetVehicleAction.failed_execute_changes_ride :
    (RideSetVehicleAction.Execute sampleEnv ⟨0, RideSetVehicleType.NumCarsPerTrain, 5, 0, 0⟩
        orphanRideWorld).1.Error = Status.InvalidParameters
      ∧ (orphanRideWorld.rides 0).map (fun r => r.vehicle_change_timeout) = some 0
      ∧ ((RideSetVehicleAction.Execute sampleEnv ⟨0, RideSetVehicleType.NumCarsPerTrain, 5, 0, 0⟩
          orphanRideWorld).2.rides 0).map (fun r => r.vehicle_change_timeout) = some 100
      ∧ (RideSetVehicleAction.Execute sampleEnv ⟨0, RideSetVehicleType.RideEntry, 9, 0, 0⟩
          sampleRideWorld).1.Error = Status.InvalidParameters
      ∧ (sampleRideWorld.rides 0).map (fun r => r.subtype) = some 0
      ∧ ((RideSetVehicleAction.Execute sampleEnv ⟨0, RideSetVehicleType.RideEntry, 9, 0, 0⟩
          sampleRideWorld).2.rides 0).map (fun r => r.subtype) = some 9 := by
  decide

/-- C25 (amended): when Execute returns a non-Ok status, either the ride does not
exist or the type is none of the four kinds, and the state is unchanged; or
the kind is NumCarsPerTrain or RideEntry and the ride-entry lookup of Execute
failed, and then the state is the one the steps before the lookup left:
RideClearForConstruction, RemovePeeps, vehicle_change_timeout = 100,
InvalidateTestResults and, for RideEntry, subtype = value, written to the
ride.  The kinds NumTrains and TrainsReversed never fail on an existing ride. -/
theorem RideSetVehicleAction.failed_execute_state (env : Env) (a : RideSetVehicleAction)
    (w : World) (hne : (RideSetVehicleAction.Execute env a w).1.Error ≠ Status.Ok) :
    (GetRide w a.rideIndex = none → (RideSetVehicleAction.Execute env a w).2 = w)
      ∧ ∀ ride, GetRide w a.rideIndex = some ride →
          a.type ≠ RideSetVehicleType.NumTrains ∧ a.type ≠ RideSetVehicleType.TrainsReversed
            ∧ (a.type ≠ RideSetVehicleType.NumCarsPerTrain → a.type ≠ RideSetVehicleType.RideEntry →
                (RideSetVehicleAction.Execute env a w).2 = w)
            ∧ (a.type = RideSetVehicleType.NumCarsPerTrain →
                GetRideEntryByIndex
                    (env.InvalidateTestResults (RideSetVehicleAction.prepare env ride w).1
                      (RideSetVehicleAction.prepare env ride w).2).2
                    (env.InvalidateTestResults (RideSetVehicleAction.prepare env ride w).1
                      (RideSetVehicleAction.prepare env ride w).2).1.subtype = none
                  ∧ (RideSetVehicleAction.Execute env a w).2
                    = setRide a.rideIndex
                        (env.InvalidateTestResults (RideSetVehicleAction.prepare env ride w).1
                          (RideSetVehicleAction.prepare env ride w).2).1
                        (env.InvalidateTestResults (RideSetVehicleAction.prepare env ride w).1
                          (RideSetVehicleAction.prepare env ride w).2).2)
            ∧ (a.type = RideSetVehicleType.RideEntry →
                GetRideEntryByIndex
                    (env.InvalidateTestResults (RideSetVehicleAction.prepare env ride w).1
                      (RideSetVehicleAction.prepare env ride w).2).2 a.value = none
                  ∧ (RideSetVehicleAction.Execute env a w).2
                    = setRide a.rideIndex
                        { (env.InvalidateTestResults (RideSetVehicleAction.prepare env ride w).1
                            (RideSetVehicleAction.prepare env ride w).2).1 with subtype := a.value }
                        (env.InvalidateTestResults (RideSetVehicleAction.prepare env ride w).1
                          (RideSetVehicleAction.prepare env ride w).2).2)
            ∧ (RideSetVehicleAction.prepare env ride w).1.vehicle_change_timeout = 100 := by
  constructor
  · intro hr
    unfold RideSetVehicleAction.Execute
    simp only [hr]
  · intro ride hr
    have hok : ∀ s, RideSetVehicleAction.ExecuteSwitch env a ride w = .ok s → False := by
      intro s hs
      apply hne
      unfold RideSetVehicleAction.Execute
      simp only [hr, hs]
      cases (env.UpdateMaxVehicles { s.1 with num_circuits := 1 } s.2).1.overall_view <;> rfl
    refine ⟨?_, ?_, ?_, ?_, ?_, rfl⟩
    · intro ht
      apply hok
      unfold RideSetVehicleAction.ExecuteSwitch
      rw [if_pos ht]
    · intro ht
      have t0 : ¬ a.type = RideSetVehicleType.NumTrains := by rw [ht]; decide
      have t1 : ¬ a.type = RideSetVehicleType.NumCarsPerTrain := by rw [ht]; decide
      have t2 : ¬ a.type = RideSetVehicleType.RideEntry := by rw [ht]; decide
      apply hok
      unfold RideSetVehicleAction.ExecuteSwitch
      rw [if_neg t0, if_neg t1, if_neg t2, if_pos ht]
    · intro t1 t2
      by_cases t0 : a.type = RideSetVehicleType.NumTrains
      · exact absurd (by unfold RideSetVehicleAction.ExecuteSwitch; rw [if_pos t0]) (hok _)
      · by_cases t3 : a.type = RideSetVehicleType.TrainsReversed
        · exact absurd
            (by unfold RideSetVehicleAction.ExecuteSwitch; rw [if_neg t0, if_neg t1, if_neg t2, if_pos t3])
            (hok _)
        · unfold RideSetVehicleAction.Execute
          simp only [hr, RideSetVehicleAction.ExecuteSwitch, if_neg t0, if_neg t1, if_neg t2,
            if_neg t3]
          exact setRide_same w a.rideIndex ride hr
    · intro ht
      have t0 : ¬ a.type = RideSetVehicleType.NumTrains := by rw [ht]; decide
      cases he : GetRideEntryByIndex
          (env.InvalidateTestResults (RideSetVehicleAction.prepare env ride w).1
            (RideSetVehicleAction.prepare env ride w).2).2
          (env.InvalidateTestResults (RideSetVehicleAction.prepare env ride w).1
            (RideSetVehicleAction.prepare env ride w).2).1.subtype with
      | none =>
        refine ⟨rfl, ?_⟩
        unfold RideSetVehicleAction.Execute
        simp only [hr, RideSetVehicleAction.ExecuteSwitch, if_neg t0, if_pos ht, he]
      | some rideEntry =>
        exfalso
        apply hok
        unfold RideSetVehicleAction.ExecuteSwitch
        simp only [if_neg t0, if_pos ht, he]
        rfl
    · intro ht
      have t0 : ¬ a.type = RideSetVehicleType.NumTrains := by rw [ht]; decide
      have t1 : ¬ a.type = RideSetVehicleType.NumCarsPerTrain := by rw [ht]; decide
      cases he : GetRideEntryByIndex
          (env.InvalidateTestResults (RideSetVehicleAction.prepare env ride w).1
            (RideSetVehicleAction.prepare env ride w).2).2 a.value with
      | none =>
        refine ⟨rfl, ?_⟩
        unfold RideSetVehicleAction.Execute
        simp only [hr, RideSetVehicleAction.ExecuteSwitch, if_neg t0, if_neg t1, if_pos ht, he]
      | some rideEntry =>
        exfalso
        by_cases hc : (env.RideSetVehicleColoursToRandomPreset
            { (env.InvalidateTestResults (RideSetVehicleAction.prepare env ride w).1
                (RideSetVehicleAction.prepare env ride w).2).1 with subtype := a.value } a.colour
            (env.InvalidateTestResults (RideSetVehicleAction.prepare env ride w).1
              (RideSetVehicleAction.prepare env ride w).2).2).2.cheatDisableTrainLengthLimit = false
        · apply hok
          unfold RideSetVehicleAction.ExecuteSwitch
          simp only [if_neg t0, if_neg t1, if_pos ht, he, if_pos hc]
          rfl
        · apply hok
          unfold RideSetVehicleAction.ExecuteSwitch
          simp only [if_neg t0, if_neg t1, if_pos ht, he, if_neg hc]
          rfl

/-- C25 (witness): the failing NumCarsPerTrain command of the counterexample; the
state it leaves holds the ride as the steps before the lookup left it, with
vehicle_change_timeout 100. -/
theorem RideSetVehicleAction.failed_execute_state_witness :
    (RideSetVehicleAction.Execute sampleEnv ⟨0, RideSetVehicleType.NumCarsPerTrain, 5, 0, 0⟩
        orphanRideWorld).2
      = setRide 0 { sampleRide with vehicle_change_timeout := 100 } orphanRideWorld :=
  (((RideSetVehicleAction.failed_execute_state sampleEnv
      ⟨0, RideSetVehicleType.NumCarsPerTrain, 5, 0, 0⟩ orphanRideWorld (by decide)).2
      sampleRide rfl).2.2.2.1 rfl).2

/-! ## RideSetVehicleAction: the vehicle type check -/

/-- The inner loop of `RideIsVehicleTypeValid` on a list that holds the requested
index returns whether the entry is invented or the research cheat is on; on a
list that does not hold it the loop runs to its end. -/
theorem RideSetVehicleAction.searchEntries_spec (a : RideSetVehicleAction) (w : World)
    (l : List Nat) :
    (a.value ∈ l →
        RideSetVehicleAction.searchEntries a w l
          = some (w.rideEntryInvented a.value || w.cheatIgnoreResearchStatus))
      ∧ (a.value ∉ l → RideSetVehicleAction.searchEntries a w l = none) := by
  induction l with
  | nil => exact ⟨fun h => absurd h (List.not_mem_nil _), fun _ => rfl⟩
  | cons x l ih =>
    by_cases hx : x = a.value
    · refine ⟨fun _ => ?_, fun h => absurd (by simp [hx]) h⟩
      simp only [RideSetVehicleAction.searchEntries, if_pos hx, hx]
      cases w.rideEntryInvented a.value <;> cases w.cheatIgnoreResearchStatus <;> simp
    · constructor
      · intro h
        have h2 : a.value ∈ l := by
          rcases List.mem_cons.mp h with h3 | h3
          · exact absurd h3.symm hx
          · exact h3
        simp only [RideSetVehicleAction.searchEntries, if_neg hx]
        exact ih.1 h2
      · intro h
        have h2 : a.value ∉ l := fun h3 => h (List.mem_cons_of_mem _ h3)
        simp only [RideSetVehicleAction.searchEntries, if_neg hx]
        exact ih.2 h2

/-- The outer loop of `RideIsVehicleTypeValid` returns true exactly when the
requested index is listed for one of the ride types it does not skip and the
entry is invented or the research cheat is on. -/
theorem RideSetVehicleAction.searchTypes_iff (env : Env) (a : RideSetVehicleAction) (w : World)
    (sel : Bool) (types : List Nat) :
    RideSetVehicleAction.searchTypes env a w sel types = true
      ↔ (∃ t ∈ types,
            (sel = true → env.rideTypeIsFlatRide t = false ∧ env.rideTypeIsMaze t = false
              ∧ t ≠ env.RIDE_TYPE_MINI_GOLF)
            ∧ a.value ∈ w.rideEntriesOfType t)
          ∧ (w.rideEntryInvented a.value = true ∨ w.cheatIgnoreResearchStatus = true) := by
  induction types with
  | nil => simp [RideSetVehicleAction.searchTypes]
  | cons t rest ih =>
    simp only [RideSetVehicleAction.searchTypes]
    by_cases h1 : sel = true ∧ env.rideTypeIsFlatRide t = true
    · rw [if_pos h1, ih]
      constructor
      · rintro ⟨⟨t2, ht2, hq⟩, hi⟩
        exact ⟨⟨t2, List.mem_cons_of_mem _ ht2, hq⟩, hi⟩
      · rintro ⟨⟨t2, ht2, hq⟩, hi⟩
        rcases List.mem_cons.mp ht2 with h | h
        · subst h
          have := (hq.1 h1.1).1
          rw [h1.2] at this
          exact absurd this (by decide)
        · exact ⟨⟨t2, h, hq⟩, hi⟩
    · rw [if_neg h1]
      by_cases h2 : sel = true
          ∧ (env.rideTypeIsMaze t = true ∨ t = env.RIDE_TYPE_MINI_GOLF)
      · rw [if_pos h2, ih]
        constructor
        · rintro ⟨⟨t2, ht2, hq⟩, hi⟩
          exact ⟨⟨t2, List.mem_cons_of_mem _ ht2, hq⟩, hi⟩
        · rintro ⟨⟨t2, ht2, hq⟩, hi⟩
          rcases List.mem_cons.mp ht2 with h | h
          · subst h
            have h3 := hq.1 h2.1
            rcases h2.2 with h4 | h4
            · rw [h3.2.1] at h4
              exact absurd h4 (by decide)
            · exact absurd h4 h3.2.2
          · exact ⟨⟨t2, h, hq⟩, hi⟩
      · rw [if_neg h2]
        have hqual : sel = true → env.rideTypeIsFlatRide t = false ∧ env.rideTypeIsMaze t = false
            ∧ t ≠ env.RIDE_TYPE_MINI_GOLF := by
          intro hs
          refine ⟨?_, ?_, ?_⟩
          · by_contra hf
            exact h1 ⟨hs, by simpa using hf⟩
          · by_contra hf
            exact h2 ⟨hs, Or.inl (by simpa using hf)⟩
          · intro hf
            exact h2 ⟨hs, Or.inr hf⟩
        by_cases hmem : a.value ∈ w.rideEntriesOfType t
        · rw [(RideSetVehicleAction.searchEntries_spec a w _).1 hmem]
          simp only [Bool.or_eq_true]
          constructor
          · intro hi
            exact ⟨⟨t, List.mem_cons_self _ _, hqual, hmem⟩, hi⟩
          · rintro ⟨-, hi⟩
            exact hi
        · rw [(RideSetVehicleAction.searchEntries_spec a w _).2 hmem]
          simp only
          rw [ih]
          constructor
          · rintro ⟨⟨t2, ht2, hq⟩, hi⟩
            exact ⟨⟨t2, List.mem_cons_of_mem _ ht2, hq⟩, hi⟩
          · rintro ⟨⟨t2, ht2, hq⟩, hi⟩
            rcases List.mem_cons.mp ht2 with h | h
            · subst h
              exact absurd hq.2 hmem
            · exact ⟨⟨t2, h, hq⟩, hi⟩

/-- C26: `RideIsVehicleTypeValid(ride)` returns true if and only if the requested
ride-entry index is in the ride-entry list of some searched ride type and the
entry is invented or the IgnoreResearchStatus cheat is on.  With the
ShowVehiclesFromOtherTrackTypes cheat on and a ride that is not a flat ride,
not a maze and not mini golf, the searched ride types are the ride types
below RIDE_TYPE_COUNT that are not a flat ride, not a maze and not mini golf;
otherwise the only searched ride type is the ride's own. -/
theorem RideSetVehicleAction.vehicle_type_valid_iff (env : Env) (a : RideSetVehicleAction)
    (w : World) (ride : Ride) :
    (w.cheatShowVehiclesFromOtherTrackTypes = true → env.rideTypeIsFlatRide ride.type = false →
        env.rideTypeIsMaze ride.type = false → ride.type ≠ env.RIDE_TYPE_MINI_GOLF →
        (RideSetVehicleAction.RideIsVehicleTypeValid env a w ride = true
          ↔ (∃ t, t < env.RIDE_TYPE_COUNT ∧ env.rideTypeIsFlatRide t = false
                ∧ env.rideTypeIsMaze t = false ∧ t ≠ env.RIDE_TYPE_MINI_GOLF
                ∧ a.value ∈ w.rideEntriesOfType t)
              ∧ (w.rideEntryInvented a.value = true ∨ w.cheatIgnoreResearchStatus = true)))
      ∧ ((w.cheatShowVehiclesFromOtherTrackTypes = false ∨ env.rideTypeIsFlatRide ride.type = true
            ∨ env.rideTypeIsMaze ride.type = true ∨ ride.type = env.RIDE_TYPE_MINI_GOLF) →
          (RideSetVehicleAction.RideIsVehicleTypeValid env a w ride = true
            ↔ a.value ∈ w.rideEntriesOfType ride.type
              ∧ (w.rideEntryInvented a.value = true ∨ w.cheatIgnoreResearchStatus = true))) := by
  constructor
  · intro hc hf hm hg
    have hcond : w.cheatShowVehiclesFromOtherTrackTypes = true
        ∧ ¬ (env.rideTypeIsFlatRide ride.type = true ∨ env.rideTypeIsMaze ride.type = true
              ∨ ride.type = env.RIDE_TYPE_MINI_GOLF) := by
      refine ⟨hc, ?_⟩
      rintro (h | h | h)
      · rw [hf] at h; exact absurd h (by decide)
      · rw [hm] at h; exact absurd h (by decide)
      · exact hg h
    unfold RideSetVehicleAction.RideIsVehicleTypeValid
    rw [if_pos hcond, RideSetVehicleAction.searchTypes_iff]
    constructor
    · rintro ⟨⟨t, ht, hq, hmem⟩, hi⟩
      obtain ⟨q1, q2, q3⟩ := hq rfl
      exact ⟨⟨t, List.mem_range.mp ht, q1, q2, q3, hmem⟩, hi⟩
    · rintro ⟨⟨t, ht, q1, q2, q3, hmem⟩, hi⟩
      exact ⟨⟨t, List.mem_range.mpr ht, fun _ => ⟨q1, q2, q3⟩, hmem⟩, hi⟩
  · intro hc
    have hcond : ¬ (w.cheatShowVehiclesFromOtherTrackTypes = true
        ∧ ¬ (env.rideTypeIsFlatRide ride.type = true ∨ env.rideTypeIsMaze ride.type = true
              ∨ ride.type = env.RIDE_TYPE_MINI_GOLF)) := by
      rintro ⟨h1, h2⟩
      rcases hc with h | h
      · rw [h1] at h; exact absurd h (by decide)
      · exact h2 h
    unfold RideSetVehicleAction.RideIsVehicleTypeValid
    rw [if_neg hcond, RideSetVehicleAction.searchTypes_iff]
    constructor
    · rintro ⟨⟨t, ht, -, hmem⟩, hi⟩
      rw [List.mem_singleton.mp ht] at hmem
      exact ⟨hmem, hi⟩
    · rintro ⟨hmem, hi⟩
      exact ⟨⟨ride.type, List.mem_singleton.mpr rfl, fun h => absurd h (by decide), hmem⟩, hi⟩

/-- C26 (witness): in the sample ride world (cheats off) entry 0, listed for the
ride's type 1 and invented, is valid for the sample ride; with the
ShowVehiclesFromOtherTrackTypes cheat on, entry 7, listed for ride type 2 but
not invented, is not. -/
theorem RideSetVehicleAction.vehicle_type_valid_iff_witness :
    RideSetVehicleAction.RideIsVehicleTypeValid sampleEnv ⟨0, RideSetVehicleType.RideEntry, 0, 0, 0⟩
        sampleRideWorld sampleRide = true
      ∧ ¬ RideSetVehicleAction.RideIsVehicleTypeValid sampleEnv
          ⟨0, RideSetVehicleType.RideEntry, 7, 0, 0⟩ expandedRideWorld sampleRide = true :=
  ⟨((RideSetVehicleAction.vehicle_type_valid_iff sampleEnv
      ⟨0, RideSetVehicleType.RideEntry, 0, 0, 0⟩ sampleRideWorld sampleRide).2
      (Or.inl rfl)).mpr ⟨by decide, Or.inl rfl⟩,
    fun h => absurd
      (((RideSetVehicleAction.vehicle_type_valid_iff sampleEnv
        ⟨0, RideSetVehicleType.RideEntry, 7, 0, 0⟩ expandedRideWorld sampleRide).1
        rfl rfl rfl (by decide)).mp h).2
      (by decide)⟩

/-! ## RideSetVehicleAction: the colour preset check -/

/-- C27: for a RideEntry command that passes the ride, breakdown, status,
vehicle-type and ride-entry checks of Query, Query returns InvalidParameters
if and only if the colour preset index c satisfies c >= preset count, c != 0
and c != 255, and returns Ok otherwise; the indices 0 and 255 are accepted
for every preset count, 0 included. -/
theorem RideSetVehicleAction.query_colour_preset (env : Env) (a : RideSetVehicleAction)
    (w : World) (ride : Ride) (rideEntry : RideEntry)
    (ht : a.type = RideSetVehicleType.RideEntry)
    (hr : GetRide w a.rideIndex = some ride)
    (hb : ride.lifecycle_flags &&& env.RIDE_LIFECYCLE_BROKEN_DOWN = 0)
    (hs : ride.status = RideStatus.Closed ∨ ride.status = RideStatus.Simulating)
    (hv : RideSetVehicleAction.RideIsVehicleTypeValid env a w ride = true)
    (he : GetRideEntryByIndex w a.value = some rideEntry) :
    ((RideSetVehicleAction.Query env a w).1.Error = Status.InvalidParameters
        ↔ (a.colour ≥ rideEntry.presetCount ∧ a.colour ≠ 0 ∧ a.colour ≠ 255))
      ∧ ((RideSetVehicleAction.Query env a w).1.Error = Status.Ok
        ↔ ¬ (a.colour ≥ rideEntry.presetCount ∧ a.colour ≠ 0 ∧ a.colour ≠ 255))
      ∧ (a.colour = 0 ∨ a.colour = 255 →
          (RideSetVehicleAction.Query env a w).1.Error = Status.Ok) := by
  have hb2 : ¬ ride.lifecycle_flags &&& env.RIDE_LIFECYCLE_BROKEN_DOWN ≠ 0 := by simp [hb]
  have hs2 : ¬ (ride.status ≠ RideStatus.Closed ∧ ride.status ≠ RideStatus.Simulating) := by
    rintro ⟨h1, h2⟩
    rcases hs with h | h
    · exact h1 h
    · exact h2 h
  have t013 : ¬ (a.type = RideSetVehicleType.NumTrains
      ∨ a.type = RideSetVehicleType.NumCarsPerTrain
      ∨ a.type = RideSetVehicleType.TrainsReversed) := by
    rw [ht]; decide
  have hv2 : ¬ RideSetVehicleAction.RideIsVehicleTypeValid env a w ride = false := by simp [hv]
  have hq : RideSetVehicleAction.Query env a w
      = if a.colour ≥ rideEntry.presetCount ∧ a.colour ≠ 255 ∧ a.colour ≠ 0 then
          (Result.err .InvalidParameters SetVehicleTypeErrorTitle[a.type]? .STR_NONE, w)
        else (Result.ok, w) := by
    unfold RideSetVehicleAction.Query
    simp only [hr, if_neg hb2, if_neg hs2, if_neg t013, if_pos ht, if_neg hv2, he]
  rw [hq]
  by_cases hc : a.colour ≥ rideEntry.presetCount ∧ a.colour ≠ 255 ∧ a.colour ≠ 0
  · rw [if_pos hc]
    refine ⟨?_, ?_, ?_⟩
    · exact ⟨fun _ => ⟨hc.1, hc.2.2, hc.2.1⟩, fun _ => rfl⟩
    · constructor
      · intro h; exact absurd h (by simp [Result.err])
      · intro h; exact absurd ⟨hc.1, hc.2.2, hc.2.1⟩ h
    · rintro (h | h)
      · exact absurd h hc.2.2
      · exact absurd h hc.2.1
  · rw [if_neg hc]
    refine ⟨?_, ?_, ?_⟩
    · constructor
      · intro h; exact absurd h (by simp [Result.ok])
      · rintro ⟨h1, h2, h3⟩; exact absurd ⟨h1, h3, h2⟩ hc
    · exact ⟨fun _ => fun ⟨h1, h2, h3⟩ => hc ⟨h1, h3, h2⟩, fun _ => rfl⟩
    · intro _; rfl

/-- C27 (witness): with 3 presets, index 5 is rejected with InvalidParameters; with
no preset at all, the indices 0 and 255 are accepted. -/
theorem RideSetVehicleAction.query_colour_preset_witness :
    (RideSetVehicleAction.Query sampleEnv ⟨0, RideSetVehicleType.RideEntry, 0, 5, 0⟩
        sampleRideWorld).1.Error = Status.InvalidParameters
      ∧ (RideSetVehicleAction.Query sampleEnv ⟨0, RideSetVehicleType.RideEntry, 0, 0, 0⟩
        noPresetRideWorld).1.Error = Status.Ok
      ∧ (RideSetVehicleAction.Query sampleEnv ⟨0, RideSetVehicleType.RideEntry, 0, 255, 0⟩
        noPresetRideWorld).1.Error = Status.Ok :=
  ⟨(RideSetVehicleAction.query_colour_preset sampleEnv ⟨0, RideSetVehicleType.RideEntry, 0, 5, 0⟩
      sampleRideWorld sampleRide ⟨1, 10, 3⟩ rfl rfl (by decide) (Or.inl rfl) (by decide) rfl).1.mpr
      (by decide),
    (RideSetVehicleAction.query_colour_preset sampleEnv ⟨0, RideSetVehicleType.RideEntry, 0, 0, 0⟩
      noPresetRideWorld sampleRide ⟨1, 10, 0⟩ rfl rfl (by decide) (Or.inl rfl) (by decide) rfl).2.2
      (Or.inl rfl),
    (RideSetVehicleAction.query_colour_preset sampleEnv ⟨0, RideSetVehicleType.RideEntry, 0, 255, 0⟩
      noPresetRideWorld sampleRide ⟨1, 10, 0⟩ rfl rfl (by decide) (Or.inl rfl) (by decide) rfl).2.2
      (Or.inr rfl)⟩

/-! ## TD6 import: lift hill speed and number of circuits -/

/-- A byte splits into its low five bits and its high three bits. -/
theorem byte_split (b : Nat) (hb : b < 256) :
    (b &&& 0b00011111) % 256 = b % 32 ∧ (b >>> 5) % 256 = b / 32 := by
  have h1 : b &&& 0b00011111 = b % 32 := Nat.and_pow_two_sub_one_eq_mod b 5
  have h2 : b >>> 5 = b / 32 := Nat.shiftRight_eq_div_pow b 5
  rw [h1, h2]
  constructor <;> omega

/-- What `Import` returns holds the operation settings of the header, but for the
operation setting, which is capped. -/
theorem TD6Importer.Import_operation (ienv : ImportEnv) (td6 : TD6Track) (stream : List Nat)
    (td : TrackDesign) (h : TD6Importer.Import ienv td6 stream = some td) :
    td.operation.liftHillSpeed = (TD6Importer.ImportHeader td6).operation.liftHillSpeed
      ∧ td.operation.numCircuits = (TD6Importer.ImportHeader td6).operation.numCircuits := by
  unfold TD6Importer.Import at h
  simp only at h
  split_ifs at h with hv
  cases hr : ienv.readElements (TD6Importer.ImportHeader td6).type stream with
  | none => simp [hr] at h
  | some els =>
    simp only [hr, Option.some.injEq] at h
    rw [← h]
    exact ⟨rfl, rfl⟩

/-- C28: for every byte b read as LiftHillSpeedNumCircuits, lines 125-126 of
`Import` set liftHillSpeed = b & 0x1F and numCircuits = b >> 5, every track
design that `Import` returns holds these two values, and liftHillSpeed < 32,
numCircuits < 8 and b = 32 * numCircuits + liftHillSpeed. -/
theorem TD6Importer.lift_hill_speed_num_circuits (ienv : ImportEnv) (td6 : TD6Track)
    (stream : List Nat) (hb : td6.LiftHillSpeedNumCircuits < 256) :
    (TD6Importer.ImportHeader td6).operation.liftHillSpeed
        = td6.LiftHillSpeedNumCircuits &&& 0x1F
      ∧ (TD6Importer.ImportHeader td6).operation.numCircuits
        = td6.LiftHillSpeedNumCircuits >>> 5
      ∧ (TD6Importer.ImportHeader td6).operation.liftHillSpeed < 32
      ∧ (TD6Importer.ImportHeader td6).operation.numCircuits < 8
      ∧ td6.LiftHillSpeedNumCircuits
        = 32 * (TD6Importer.ImportHeader td6).operation.numCircuits
          + (TD6Importer.ImportHeader td6).operation.liftHillSpeed
      ∧ ∀ td, TD6Importer.Import ienv td6 stream = some td →
          td.operation.liftHillSpeed = td6.LiftHillSpeedNumCircuits &&& 0x1F
            ∧ td.operation.numCircuits = td6.LiftHillSpeedNumCircuits >>> 5
            ∧ td.operation.liftHillSpeed < 32 ∧ td.operation.numCircuits < 8
            ∧ td6.LiftHillSpeedNumCircuits
              = 32 * td.operation.numCircuits + td.operation.liftHillSpeed := by
  obtain ⟨s1, s2⟩ := byte_split td6.LiftHillSpeedNumCircuits hb
  have h1 : td6.LiftHillSpeedNumCircuits &&& 0x1F = td6.LiftHillSpeedNumCircuits % 32 :=
    Nat.and_pow_two_sub_one_eq_mod _ 5
  have h2 : td6.LiftHillSpeedNumCircuits >>> 5 = td6.LiftHillSpeedNumCircuits / 32 :=
    Nat.shiftRight_eq_div_pow _ 5
  have e1 : (TD6Importer.ImportHeader td6).operation.liftHillSpeed
      = td6.LiftHillSpeedNumCircuits % 32 := s1
  have e2 : (TD6Importer.ImportHeader td6).operation.numCircuits
      = td6.LiftHillSpeedNumCircuits / 32 := s2
  refine ⟨by rw [e1, h1], by rw [e2, h2], by rw [e1]; omega, by rw [e2]; omega,
    by rw [e1, e2]; omega, ?_⟩
  intro td htd
  obtain ⟨i1, i2⟩ := TD6Importer.Import_operation ienv td6 stream td htd
  rw [i1, i2, e1, e2, h1, h2]
  refine ⟨rfl, rfl, ?_, ?_, ?_⟩ <;> omega

/-- C28 (witness): the sample header packs lift hill speed 5 and 3 circuits in the
byte 101; `Import` returns a track design that holds 5 and 3. -/
theorem TD6Importer.lift_hill_speed_num_circuits_witness :
    ∃ td, TD6Importer.Import sampleImportEnv sampleTD6 [] = some td
      ∧ td.operation.liftHillSpeed = 5 ∧ td.operation.numCircuits = 3
      ∧ (101 : Nat) = 32 * td.operation.numCircuits + td.operation.liftHillSpeed :=
  ⟨_, rfl,
    ((TD6Importer.lift_hill_speed_num_circuits sampleImportEnv sampleTD6 [] (by decide)).2.2.2.2.2
      _ rfl).1.trans (by decide),
    ((TD6Importer.lift_hill_speed_num_circuits sampleImportEnv sampleTD6 [] (by decide)).2.2.2.2.2
      _ rfl).2.1.trans (by decide),
    ((TD6Importer.lift_hill_speed_num_circuits sampleImportEnv sampleTD6 [] (by decide)).2.2.2.2.2
      _ rfl).2.2.2.2⟩

/-! ## Scenario patches: the effect of a track type fix -/

theorem trackTypeFixed_lastForTile (f d : Nat) (e : TileElement) :
    (trackTypeFixed f d e).lastForTile = e.lastForTile := by
  unfold trackTypeFixed
  split_ifs <;> rfl

/-- Fixing twice is fixing once. -/
theorem trackTypeFixed_idem (f d : Nat) (e : TileElement) :
    trackTypeFixed f d (trackTypeFixed f d e) = trackTypeFixed f d e := by
  unfold trackTypeFixed
  by_cases h : e.type = TileElementType.Track ∧ e.trackType = f
  · rw [if_pos h]
    by_cases h2 : d = f
    · rw [if_pos ⟨h.1, h2⟩]
    · rw [if_neg (fun h3 => h2 h3.2)]
  · rw [if_neg h, if_neg h]

/-- The element that one pass of the loop body of lines 283-290 leaves. -/
theorem fixElements_step (f d : Nat) (e : TileElement) :
    (if e.type ≠ TileElementType.Track then e
      else if GetTrackType e ≠ f then e else SetTrackType d e) = trackTypeFixed f d e := by
  unfold trackTypeFixed GetTrackType SetTrackType
  by_cases h1 : e.type = TileElementType.Track
  · by_cases h2 : e.trackType = f
    · simp [h1, h2]
    · simp [h1, h2]
  · simp [h1]

/-- On a delimited tile the loop of lines 281-291 fixes every element. -/
theorem ApplyTrackTypeFixes.fixElements_eq_map (f d : Nat) (es : List TileElement)
    (hw : tileEndsAtLast es = true) :
    ApplyTrackTypeFixes.fixElements f d es = es.map (trackTypeFixed f d) := by
  induction es with
  | nil => rfl
  | cons e es ih =>
    cases es with
    | nil =>
      simp only [ApplyTrackTypeFixes.fixElements, fixElements_step, List.map_cons, List.map_nil]
      split_ifs <;> rfl
    | cons e2 es =>
      simp only [tileEndsAtLast, Bool.and_eq_true, Bool.not_eq_true'] at hw
      obtain ⟨hl, hw2⟩ := hw
      rw [ApplyTrackTypeFixes.fixElements]
      simp only [fixElements_step, trackTypeFixed_lastForTile, hl, Bool.false_eq_true, if_false]
      rw [ih hw2]
      rfl

/-- Fixing the elements of a delimited tile leaves it delimited. -/
theorem tileEndsAtLast_map_fixed (f d : Nat) (es : List TileElement) :
    tileEndsAtLast (es.map (trackTypeFixed f d)) = tileEndsAtLast es := by
  induction es with
  | nil => rfl
  | cons e es ih =>
    cases es with
    | nil => simp [tileEndsAtLast, trackTypeFixed_lastForTile]
    | cons e2 es =>
      simp only [List.map_cons, tileEndsAtLast, trackTypeFixed_lastForTile] at ih ⊢
      rw [ih]

/-- The loop over the coordinates fixes the listed tiles and no other. -/
theorem ApplyTrackTypeFixes.fixTiles_spec (f d : Nat) (cs : List TilePos) (w : World)
    (hw : ∀ t ∈ cs, ∀ es, w.tiles t = some es → tileEndsAtLast es = true) :
    ∃ w1, ApplyTrackTypeFixes.fixTiles f d (cs.map coordinatesPairOf) w = some w1
      ∧ (∀ t ∈ cs, w1.tiles t = (w.tiles t).map (List.map (trackTypeFixed f d)))
      ∧ (∀ t, t ∉ cs → w1.tiles t = w.tiles t)
      ∧ w1 = { w with tiles := w1.tiles } := by
  induction cs generalizing w with
  | nil => exact ⟨w, rfl, fun t ht => absurd ht (List.not_mem_nil t), fun _ _ => rfl, rfl⟩
  | cons c cs ih =>
    have hstep : ApplyTrackTypeFixes.fixTiles f d ((c :: cs).map coordinatesPairOf) w
        = match MapGetFirstElementAt w c with
          | none => ApplyTrackTypeFixes.fixTiles f d (cs.map coordinatesPairOf) w
          | some es =>
            ApplyTrackTypeFixes.fixTiles f d (cs.map coordinatesPairOf)
              { w with
                tiles := Function.update w.tiles c
                  (some (ApplyTrackTypeFixes.fixElements f d es)) } := by
      simp [ApplyTrackTypeFixes.fixTiles, coordinatesPairOf, json_t.is_array, Json.AsArray,
        Json.GetNumber]
    rw [hstep]
    unfold MapGetFirstElementAt
    cases hc : w.tiles c with
    | none =>
      simp only
      obtain ⟨w1, h1, h2, h3, h4⟩ :=
        ih w (fun t ht es hes => hw t (List.mem_cons_of_mem _ ht) es hes)
      refine ⟨w1, h1, ?_, ?_, h4⟩
      · intro t ht
        by_cases htc : t ∈ cs
        · exact h2 t htc
        · have htc2 : t = c := by
            rcases List.mem_cons.mp ht with h | h
            · exact h
            · exact absurd h htc
          rw [h3 t htc, htc2, hc]
          rfl
      · intro t ht
        exact h3 t (fun h => ht (List.mem_cons_of_mem _ h))
    | some es =>
      simp only
      have hwf := hw c (List.mem_cons_self _ _) es hc
      rw [ApplyTrackTypeFixes.fixElements_eq_map f d es hwf]
      obtain ⟨w1, h1, h2, h3, h4⟩ :=
        ih { w with tiles := Function.update w.tiles c (some (es.map (trackTypeFixed f d))) }
          (by
            intro t ht es2 hes2
            by_cases htc : t = c
            · subst htc
              simp only [Function.update_same, Option.some.injEq] at hes2
              rw [← hes2, tileEndsAtLast_map_fixed]
              exact hwf
            · simp only [Function.update_noteq htc] at hes2
              exact hw t (List.mem_cons_of_mem _ ht) es2 hes2)
      refine ⟨w1, h1, ?_, ?_, ?_⟩
      · intro t ht
        by_cases htc : t = c
        · subst htc
          by_cases hmem : t ∈ cs
          · rw [h2 t hmem]
            simp only [Function.update_same, hc, Option.map_some', List.map_map]
            congr 1
            apply List.map_congr_left
            intro e _
            exact trackTypeFixed_idem f d e
          · rw [h3 t hmem]
            simp only [Function.update_same, hc, Option.map_some']
        · have hmem : t ∈ cs := by
            rcases List.mem_cons.mp ht with h | h
            · exact absurd h htc
            · exact h
          rw [h2 t hmem]
          simp only [Function.update_noteq htc]
      · intro t ht
        have htc : t ≠ c := fun h => ht (by rw [h]; exact List.mem_cons_self _ _)
        rw [h3 t (fun h => ht (List.mem_cons_of_mem _ h))]
        simp only [Function.update_noteq htc]
      · rw [h4]

/-- C29: for an operation with keys from and to naming track types and a
non-empty coordinates array of [x, y] pairs, applied to a state in which the
listed tiles are delimited by their last-for-tile mark, the operation runs to
its end, as the only operation of `ApplyTrackTypeFixes` too, and in the state
it leaves every element of a listed tile that was a track element of type
`from` is that element with track type `to`, every other element of a listed
tile is unchanged, every tile not listed is unchanged, and nothing but tile
elements has changed. -/
theorem ApplyTrackTypeFixes.operation_effect (env : Env) (op : json_t) (w : World)
    (fromTrackType destinationTrackType : Nat) (coords : List TilePos)
    (hfrom : op.contains "from" = true) (hto : op.contains "to" = true)
    (hf : toTrackType env (Json.GetString (op.get "from")) = some fromTrackType)
    (ht : toTrackType env (Json.GetString (op.get "to")) = some destinationTrackType)
    (hc : op.contains "coordinates" = true)
    (hcs : op.get "coordinates" = json_t.arr (coords.map coordinatesPairOf))
    (hne : coords ≠ [])
    (hw : ∀ t ∈ coords, ∀ es, w.tiles t = some es → tileEndsAtLast es = true) :
    ∃ w1, ApplyTrackTypeFixes.operation env op w = some w1
      ∧ ApplyTrackTypeFixes env (json_t.obj [("operations", json_t.arr [op])]) w = some w1
      ∧ (∀ t ∈ coords,
          w1.tiles t
            = (w.tiles t).map (List.map (trackTypeFixed fromTrackType destinationTrackType)))
      ∧ (∀ t, t ∉ coords → w1.tiles t = w.tiles t)
      ∧ w1 = { w with tiles := w1.tiles }
      ∧ ∀ e : TileElement,
          (e.type = TileElementType.Track → e.trackType = fromTrackType →
              trackTypeFixed fromTrackType destinationTrackType e
                = { e with trackType := destinationTrackType })
            ∧ (¬ (e.type = TileElementType.Track ∧ e.trackType = fromTrackType) →
              trackTypeFixed fromTrackType destinationTrackType e = e) := by
  obtain ⟨w1, h1, h2, h3, h4⟩ :=
    ApplyTrackTypeFixes.fixTiles_spec fromTrackType destinationTrackType coords w hw
  have hop : ApplyTrackTypeFixes.operation env op w = some w1 := by
    unfold ApplyTrackTypeFixes.operation
    have hemp : (List.map coordinatesPairOf coords).isEmpty = false := by
      cases coords with
      | nil => exact absurd rfl hne
      | cons c cs => rfl
    simp only [hfrom, hto, hf, ht, hc, hcs, json_t.is_array, Json.AsArray, hemp,
      Bool.true_eq_false, Bool.false_eq_true, if_false]
    exact h1
  refine ⟨w1, hop, ?_, h2, h3, h4, ?_⟩
  · have hcont : (json_t.obj [("operations", json_t.arr [op])]).contains "operations" = true := by
      simp [json_t.contains]
    have hget : (json_t.obj [("operations", json_t.arr [op])]).get "operations"
        = json_t.arr [op] := by
      simp [json_t.get]
    unfold ApplyTrackTypeFixes
    simp only [hcont, hget, json_t.is_array, Json.AsArray, List.isEmpty_cons,
      Bool.true_eq_false, Bool.false_eq_true, if_false, ApplyTrackTypeFixes.operations, hop]
  · intro e
    constructor
    · intro he1 he2
      unfold trackTypeFixed
      rw [if_pos ⟨he1, he2⟩]
    · intro he
      unfold trackTypeFixed
      rw [if_neg he]

/-- C29 (witness): the sample operation turns the flat track piece of tile (3, 3)
of the sample track world into covered flat track and leaves the surface, the
track piece of type 5 and the wall of that tile as they were. -/
theorem ApplyTrackTypeFixes.operation_effect_witness :
    ∃ w1, ApplyTrackTypeFixes.operation sampleEnv sampleOperation sampleTrackWorld = some w1
      ∧ w1.tiles (3, 3)
          = some [{ sampleSurface with lastForTile := false }, sampleTrack 68 false,
              sampleTrack 5 false, sampleWall false true]
      ∧ w1.tiles (2, 2) = sampleTrackWorld.tiles (2, 2) := by
  obtain ⟨w1, h1, -, h2, h3, -, -⟩ :=
    ApplyTrackTypeFixes.operation_effect sampleEnv sampleOperation sampleTrackWorld 0 68 [(3, 3)]
      (by decide) (by decide) (by decide) (by decide) (by decide) rfl (by decide)
      (by
        intro t ht es hes
        rw [List.mem_singleton.mp ht] at hes
        have h3 : sampleTrackWorld.tiles (3, 3)
            = some [{ sampleSurface with lastForTile := false }, sampleTrack 0 false,
                sampleTrack 5 false, sampleWall false true] := by decide
        rw [h3] at hes
        rw [← Option.some.inj hes]
        decide)
  refine ⟨w1, h1, ?_, h3 (2, 2) (by decide)⟩
  rw [h2 (3, 3) (List.mem_singleton.mpr rfl)]
  decide

end OpenRCT2
